import Mathlib

/-!
# Rasqal: filter row-source, sort row-source, query object and result iterator

A shallow embedding of `rasqal_rowsource_filter.c`, `rasqal_rowsource_sort.c`
and `rasqal_query.c`.  C `int` values are `Int`; C flags that are only ever
written with `0` or `1` are `Bool`; pointers that may be `NULL` are `Option`.
External collaborators (expression evaluator, literal coercion, variables
table, inner row-source, engine, language factory) are parameters.
-/

namespace Rasqal

/-! ## Rows -/

/-- The `rasqal_row` object: `values[0..size)`, `order_values[0..order_size)`
and `offset`.  `size` is the length of `values`, `order_size` the length of
`order_values`; a `NULL` literal slot is `none`. -/
structure rasqal_row (L : Type) where
  values : List (Option L)
  order_values : List (Option L)
  offset : Int
deriving DecidableEq, Repr

/-- One pull from an inner row-source: the row handed out, and the state in
which the pull leaves the query's variables table (`query->vars_table`). -/
structure rasqal_inner_row (L T : Type) where
  row : rasqal_row L
  vars_table : T
deriving DecidableEq, Repr

/-! ## Filter row-source (`rasqal_rowsource_filter.c`) -/

/-- The external functions `rasqal_filter_rowsource_read_row` calls.
`evaluate q e flags` is `rasqal_expression_evaluate` (`none` is the `NULL`
type-error result), `as_boolean l` is `rasqal_literal_as_boolean` giving the
returned `int` and the value stored through `&error`, `get_value t i` is
`rasqal_variables_table_get_value`. -/
structure rasqal_filter_env (L E T : Type) where
  evaluate : T → E → Int → Option L
  as_boolean : L → Int × Int
  get_value : T → Nat → Option L

/-- The `rasqal_filter_rowsource_context` together with the parts of the query
it reads: `query->compare_flags`, `query->vars_table`, the inner row-source
(the rows it has still to yield), the FILTER expression and `offset`. -/
structure rasqal_filter_rowsource_context (L E T : Type) where
  compare_flags : Int
  vars_table : T
  rowsource : List (rasqal_inner_row L T)
  expr : E
  offset : Int
deriving DecidableEq, Repr

/-- The value of `bresult` at the test `if(bresult)` for a pulled row:
`0` when the evaluation result is `NULL`, otherwise whatever
`rasqal_literal_as_boolean` returned (the `error` flag is only logged). -/
def rasqal_filter_bresult {L E T : Type} (x : rasqal_filter_env L E T)
    (expr : E) (compare_flags : Int) (vars_table : T) : Int :=
  match x.evaluate vars_table expr compare_flags with
  | none => 0
  | some result => (x.as_boolean result).1

/-- The `while(1)` loop of `rasqal_filter_rowsource_read_row`: pull rows from
the inner source until one passes or the source is exhausted.  Returns the row
(or `none`), the rows the inner source has left, the variables table and the
number of calls made to the inner `read_row`. -/
def rasqal_filter_rowsource_loop {L E T : Type} (x : rasqal_filter_env L E T)
    (expr : E) (compare_flags : Int) :
    List (rasqal_inner_row L T) → T → Nat →
      Option (rasqal_row L) × List (rasqal_inner_row L T) × T × Nat
  | [], t, pulls => (none, [], t, pulls + 1)
  | it :: rest, _, pulls =>
    if rasqal_filter_bresult x expr compare_flags it.vars_table ≠ 0 then
      (some it.row, rest, it.vars_table, pulls + 1)
    else
      rasqal_filter_rowsource_loop x expr compare_flags rest it.vars_table (pulls + 1)

/-- The `if(row)` block: every slot `i < row->size` is replaced by a copy of
`rasqal_variables_table_get_value(query->vars_table, i)` and `row->offset` is
set to the context's offset. -/
def rasqal_filter_rowsource_emit {L E T : Type} (x : rasqal_filter_env L E T)
    (vars_table : T) (row : rasqal_row L) (offset : Int) : rasqal_row L :=
  { row with
    values := (List.range row.values.length).map (fun i => x.get_value vars_table i)
    offset := offset }

/-- The function `rasqal_filter_rowsource_read_row`: the returned row (or
`none`) and the context after the call. -/
def rasqal_filter_rowsource_read_row {L E T : Type} (x : rasqal_filter_env L E T)
    (con : rasqal_filter_rowsource_context L E T) :
    Option (rasqal_row L) × rasqal_filter_rowsource_context L E T :=
  match rasqal_filter_rowsource_loop x con.expr con.compare_flags con.rowsource
      con.vars_table 0 with
  | (none, rest, t, _) => (none, { con with rowsource := rest, vars_table := t })
  | (some row, rest, t, _) =>
    (some (rasqal_filter_rowsource_emit x t row con.offset),
     { con with rowsource := rest, vars_table := t, offset := con.offset + 1 })

/-- Repeated calls of `read_row`, at most `fuel` of them, stopping at the first
call that returns `NULL`: the rows returned, in order. -/
def rasqal_filter_rowsource_read_rows {L E T : Type} (x : rasqal_filter_env L E T) :
    Nat → rasqal_filter_rowsource_context L E T → List (rasqal_row L)
  | 0, _ => []
  | fuel + 1, con =>
    match rasqal_filter_rowsource_read_row x con with
    | (none, _) => []
    | (some row, con') => row :: rasqal_filter_rowsource_read_rows x fuel con'

/-- The filter condition on a pull of the inner source: the expression value
is a literal and its boolean coercion returns non-zero. -/
def rasqal_filter_passes {L E T : Type} (x : rasqal_filter_env L E T)
    (expr : E) (compare_flags : Int) (it : rasqal_inner_row L T) : Bool :=
  match x.evaluate it.vars_table expr compare_flags with
  | none => false
  | some result => decide ((x.as_boolean result).1 ≠ 0)

/-- The rows of a list of pulls as they leave the filter: each refreshed from
the variables table of its pull and numbered from `offset` upwards. -/
def rasqal_filter_emitted {L E T : Type} (x : rasqal_filter_env L E T) :
    Int → List (rasqal_inner_row L T) → List (rasqal_row L)
  | _, [] => []
  | offset, it :: rest =>
    rasqal_filter_rowsource_emit x it.vars_table it.row offset ::
      rasqal_filter_emitted x (offset + 1) rest

/-! ## Sort row-source (`rasqal_rowsource_sort.c`) -/

/-- A `raptor_sequence` as the sort row-source holds it in `con->seq`: the
constructor stores the sequence of order-condition expressions there,
`rasqal_sort_rowsource_process` a sequence of rows. -/
inductive raptor_sequence (L E : Type) where
  | exprs (es : List E)
  | rows (rs : List (rasqal_row L))
deriving DecidableEq, Repr

/-- The external functions the sort row-source relies on.  `evaluate` is
`rasqal_expression_evaluate`; `compare flags a b` is the three-way comparison
of two order-keys under the query's compare-flags (negative, zero, positive);
`read_all_rows` is `rasqal_rowsource_read_all_rows` of the inner source: the
sequence it returns and the rows the inner source has left. -/
structure rasqal_sort_env (L E T : Type) where
  evaluate : T → E → Int → Option L
  compare : Int → List (Option L) → List (Option L) → Int
  read_all_rows : List (rasqal_inner_row L T) →
    Option (raptor_sequence L E) × List (rasqal_inner_row L T)

/-- The fields of `rasqal_query` the sort row-source reads. -/
structure rasqal_sort_query (E : Type) where
  order_conditions_sequence : Option (List E)
  distinct : Int
  compare_flags : Int
deriving DecidableEq, Repr

/-- Modelled from the spec: the `rasqal_map` built by
`rasqal_engine_new_rowsort_map`, which is not among the sources.  An ordered
map keyed by the row's order-key, held as the list of its rows in key order,
with the distinct flag and compare-flags it was built with. -/
structure rasqal_map (L : Type) where
  is_distinct : Int
  compare_flags : Int
  rows : List (rasqal_row L)
deriving DecidableEq, Repr

/-- The `rasqal_sort_rowsource_context`: the query, the inner row-source (the
rows it has still to yield), `map`, `seq` and `order_size`. -/
structure rasqal_sort_rowsource_context (L E T : Type) where
  query : rasqal_sort_query E
  rowsource : List (rasqal_inner_row L T)
  map : Option (rasqal_map L)
  seq : Option (raptor_sequence L E)
  order_size : Int
deriving DecidableEq, Repr

/-- Modelled from the spec: `rasqal_engine_new_rowsort_map`, which is not among
the sources.  Builds an empty map with the given distinct flag and
compare-flags; `alloc_ok = false` is the allocation failure. -/
def rasqal_engine_new_rowsort_map {L : Type} (alloc_ok : Bool) (is_distinct : Int)
    (compare_flags : Int) : Option (rasqal_map L) :=
  if alloc_ok then some { is_distinct := is_distinct, compare_flags := compare_flags, rows := [] }
  else none

/-- Modelled from the spec: the comparator of the row-sort map, which is not
among the sources.  Rows are ordered by their order-keys under the
compare-flags; for equal order-keys the pre-sort offset is the tie-breaker
unless distinct is on, in which case the rows are duplicates. -/
def rasqal_engine_rowsort_row_compare {L E T : Type} (x : rasqal_sort_env L E T)
    (is_distinct : Int) (compare_flags : Int) (a b : rasqal_row L) : Int :=
  let result := x.compare compare_flags a.order_values b.order_values
  if result ≠ 0 then result
  else if is_distinct ≠ 0 then 0
  else a.offset - b.offset

/-- Modelled from the spec: insertion of a row into the key-ordered rows of the
map.  The row goes before the first row it precedes; a row that compares equal
to one in the map is rejected (status `1`) and the rows are unchanged. -/
def rasqal_map_insert {L E T : Type} (x : rasqal_sort_env L E T)
    (is_distinct : Int) (compare_flags : Int) (row : rasqal_row L) :
    List (rasqal_row L) → Int × List (rasqal_row L)
  | [] => (0, [row])
  | r :: rs =>
    let c := rasqal_engine_rowsort_row_compare x is_distinct compare_flags row r
    if c = 0 then (1, r :: rs)
    else if c < 0 then (0, row :: r :: rs)
    else
      match rasqal_map_insert x is_distinct compare_flags row rs with
      | (status, rs') => (status, r :: rs')

/-- Modelled from the spec: `rasqal_engine_rowsort_map_add_row`, which is not
among the sources.  Returns non-zero when the insertion is rejected; otherwise
the map takes the row. -/
def rasqal_engine_rowsort_map_add_row {L E T : Type} (x : rasqal_sort_env L E T)
    (map : rasqal_map L) (row : rasqal_row L) : Int × rasqal_map L :=
  match rasqal_map_insert x map.is_distinct map.compare_flags row map.rows with
  | (status, rs) => (status, { map with rows := rs })

/-- Modelled from the spec: `rasqal_engine_rowsort_map_to_sequence`, which is
not among the sources.  Drains the map in key order onto the end of the
sequence. -/
def rasqal_engine_rowsort_map_to_sequence {L : Type} (map : rasqal_map L)
    (seq : List (rasqal_row L)) : List (rasqal_row L) :=
  seq ++ map.rows

/-- Modelled from the spec: `rasqal_row_set_order_size`, which is not among the
sources.  Allocates `order_size` empty order-key slots on the row. -/
def rasqal_row_set_order_size {L : Type} (row : rasqal_row L) (order_size : Int) :
    rasqal_row L :=
  { row with order_values := List.replicate order_size.toNat none }

/-- Modelled from the spec: `rasqal_engine_rowsort_calculate_order_values`,
which is not among the sources.  Evaluates each order-condition expression
against the current variables and stores the results as the row's order-key,
one per allocated slot. -/
def rasqal_engine_rowsort_calculate_order_values {L E T : Type}
    (x : rasqal_sort_env L E T) (query : rasqal_sort_query E) (vars_table : T)
    (row : rasqal_row L) : rasqal_row L :=
  { row with
    order_values := (List.range row.order_values.length).map (fun i =>
      match (query.order_conditions_sequence.getD [])[i]? with
      | some e => x.evaluate vars_table e query.compare_flags
      | none => none) }

/-- The function `rasqal_sort_rowsource_init`.  `alloc_ok` tells whether the
map allocation succeeds.  Returns the status and the context. -/
def rasqal_sort_rowsource_init {L E T : Type} (alloc_ok : Bool)
    (con : rasqal_sort_rowsource_context L E T) :
    Int × rasqal_sort_rowsource_context L E T :=
  let order_size : Int :=
    match con.query.order_conditions_sequence with
    | some s => (s.length : Int)
    | none => -1
  let con1 := { con with order_size := order_size, map := none }
  if 0 < order_size then
    match rasqal_engine_new_rowsort_map alloc_ok con.query.distinct con.query.compare_flags with
    | none => (1, con1)
    | some m => (0, { con1 with map := some m, seq := none })
  else (0, { con1 with seq := none })

/-- What the body of the `while(1)` loop of `rasqal_sort_rowsource_process`
does to a pulled row before it is offered to the map: the order-key slots are
allocated and filled, then the offset is assigned. -/
def rasqal_sort_rowsource_key_row {L E T : Type} (x : rasqal_sort_env L E T)
    (query : rasqal_sort_query E) (order_size : Int) (it : rasqal_inner_row L T)
    (offset : Int) : rasqal_row L :=
  { rasqal_engine_rowsort_calculate_order_values x query it.vars_table
      (rasqal_row_set_order_size it.row order_size) with offset := offset }

/-- The map and the final `offset` that the loop of
`rasqal_sort_rowsource_process` leaves when it runs on a map that is not
`NULL`: every row of the inner source is keyed, numbered and offered to the
map; `offset` advances only when the map accepts the row.  These are the first
two results of `rasqal_sort_rowsource_while` on such a map. -/
def rasqal_sort_rowsource_loop {L E T : Type} (x : rasqal_sort_env L E T)
    (query : rasqal_sort_query E) (order_size : Int) :
    List (rasqal_inner_row L T) → rasqal_map L → Int → rasqal_map L × Int
  | [], map, offset => (map, offset)
  | it :: rest, map, offset =>
    match rasqal_engine_rowsort_map_add_row x map
        (rasqal_sort_rowsource_key_row x query order_size it offset) with
    | (status, map') =>
      if status = 0 then rasqal_sort_rowsource_loop x query order_size rest map' (offset + 1)
      else rasqal_sort_rowsource_loop x query order_size rest map' offset

/-- Modelled from the spec: `rasqal_engine_rowsort_map_add_row` as the loop of
`rasqal_sort_rowsource_process` calls it, with `con->map`, which is `NULL` once
a first processing has freed it.  The helper is not among the sources; a `NULL`
map holds nothing and takes no row: the insertion is rejected (status `1`). -/
def rasqal_engine_rowsort_map_add_row_to {L E T : Type} (x : rasqal_sort_env L E T) :
    Option (rasqal_map L) → rasqal_row L → Int × Option (rasqal_map L)
  | none, _ => (1, none)
  | some map, row =>
    ((rasqal_engine_rowsort_map_add_row x map row).1,
     some (rasqal_engine_rowsort_map_add_row x map row).2)

/-- Modelled from the spec: `rasqal_engine_rowsort_map_to_sequence` as
`rasqal_sort_rowsource_process` calls it, with `con->map`.  The helper is not
among the sources; a `NULL` map holds no row, so nothing is added to the
sequence (a second `read_all_rows` returns an empty sequence, not a repeat). -/
def rasqal_engine_rowsort_map_drain {L : Type} :
    Option (rasqal_map L) → List (rasqal_row L) → List (rasqal_row L)
  | none, seq => seq
  | some map, seq => rasqal_engine_rowsort_map_to_sequence map seq

/-- The `while(1)` loop of `rasqal_sort_rowsource_process`, from `con->map` and
`offset`: every row pulled from the inner source gets its order-key slots
allocated and filled, then its offset, and is offered to the map; `offset`
advances only when the map accepts the row.  Returns the map, the final
`offset` and, for every pulled row in pull order, the row as it was offered
and the status `rasqal_engine_rowsort_map_add_row` returned for it. -/
def rasqal_sort_rowsource_while {L E T : Type} (x : rasqal_sort_env L E T)
    (query : rasqal_sort_query E) (order_size : Int) :
    List (rasqal_inner_row L T) → Option (rasqal_map L) → Int →
      Option (rasqal_map L) × Int × List (rasqal_row L × Int)
  | [], map, offset => (map, offset, [])
  | it :: rest, map, offset =>
    match rasqal_engine_rowsort_map_add_row_to x map
        (rasqal_sort_rowsource_key_row x query order_size it offset) with
    | (status, map') =>
      match rasqal_sort_rowsource_while x query order_size rest map'
          (if status = 0 then offset + 1 else offset) with
      | (map'', offset', offered) =>
        (map'', offset',
          (rasqal_sort_rowsource_key_row x query order_size it offset, status) :: offered)

/-- The function `rasqal_sort_rowsource_process`.  `seq_alloc_ok` tells whether
`raptor_new_sequence` succeeds.  Returns the status and the context; the
function returns on every path, so the result is always `some`. -/
def rasqal_sort_rowsource_process {L E T : Type} (x : rasqal_sort_env L E T)
    (seq_alloc_ok : Bool) (con : rasqal_sort_rowsource_context L E T) :
    Option (Int × rasqal_sort_rowsource_context L E T) :=
  match con.seq with
  | some _ => some (0, con)
  | none =>
    if seq_alloc_ok = false then some (1, con)
    else
      match rasqal_sort_rowsource_while x con.query con.order_size con.rowsource con.map 0 with
      | (map', _, _) =>
        some (0, { con with
          rowsource := []
          seq := some (raptor_sequence.rows (rasqal_engine_rowsort_map_drain map' []))
          map := none })

/-- The function `rasqal_sort_rowsource_read_all_rows`: the sequence returned
(`none` inside is the `NULL` return) and the context after the call. -/
def rasqal_sort_rowsource_read_all_rows {L E T : Type} (x : rasqal_sort_env L E T)
    (seq_alloc_ok : Bool) (con : rasqal_sort_rowsource_context L E T) :
    Option (Option (raptor_sequence L E) × rasqal_sort_rowsource_context L E T) :=
  if con.order_size ≤ 0 then
    match x.read_all_rows con.rowsource with
    | (seq, rest) => some (seq, { con with rowsource := rest })
  else
    match rasqal_sort_rowsource_process x seq_alloc_ok con with
    | none => none
    | some (status, con') =>
      if status ≠ 0 then some (none, con')
      else
        match con'.seq with
        | some seq => some (some seq, { con' with seq := none })
        | none => some (none, con')

/-- The order-key the sort loop stores on a pulled row. -/
def rasqal_sort_order_key {L E T : Type} (x : rasqal_sort_env L E T)
    (query : rasqal_sort_query E) (order_size : Int) (it : rasqal_inner_row L T) :
    List (Option L) :=
  (rasqal_sort_rowsource_key_row x query order_size it 0).order_values

/-- The rows of a list of pulls as the sort loop offers them to the map when
none is rejected: keyed, and numbered from `offset` upwards in pull order. -/
def rasqal_sort_keyed {L E T : Type} (x : rasqal_sort_env L E T)
    (query : rasqal_sort_query E) (order_size : Int) :
    Int → List (rasqal_inner_row L T) → List (rasqal_row L)
  | _, [] => []
  | offset, it :: rest =>
    rasqal_sort_rowsource_key_row x query order_size it offset ::
      rasqal_sort_keyed x query order_size (offset + 1) rest

/-! ## Query object and result iterator (`rasqal_query.c`) -/

/-- A `rasqal_variable`: a name and an optional value. -/
structure rasqal_variable (L : Type) where
  name : String
  value : Option L
deriving DecidableEq, Repr

/-- The calls `rasqal_query.c` makes to the engine and to the language factory,
in the order they are made (a record kept beside the query). -/
inductive rasqal_engine_call where
  | factory_init
  | factory_prepare
  | factory_execute
  | factory_terminate
  | execute_init
  | get_next_result
  | assign_binding_values
  | execute_finish
deriving DecidableEq, Repr

/-- The `rasqal_query_results` object, named by its address; its `query` field
is the query passed beside it, its `next` field is the rest of the query's
`results` list. -/
structure rasqal_query_results where
  addr : Nat
deriving DecidableEq, Repr

/-- The `rasqal_query` object as `rasqal_query.c` uses it.  Flags that the file
only sets to `0` or `1` are `Bool`; `variables_array` is the array
`query->variables`; `results` is the linked list of live result
iterators, head first; `freed` records that `RASQAL_FREE(rasqal_query, query)`
was reached; `calls` records the engine and factory calls made so far. -/
structure rasqal_query (L : Type) where
  usage : Int
  prepared : Bool
  executed : Bool
  finished : Bool
  failed : Bool
  query_string : Option String
  base_uri : Option String
  locator_uri : Option String
  locator_line : Int
  locator_column : Int
  selects : List (rasqal_variable L)
  variables_array : List (rasqal_variable L)
  select_variables_count : Int
  variable_names : Option (List String)
  binding_values : Option (List (Option L))
  result_count : Int
  results : List rasqal_query_results
  freed : Bool
  calls : List rasqal_engine_call
deriving DecidableEq, Repr

/-- What a call into the engine or a factory hook answers: its return code and
the result data it leaves in the query.  The engine and the hooks are not among
the sources; they own the result data and do not write the usage count, the
flags or the list of result iterators. -/
structure rasqal_engine_reply (L : Type) where
  rc : Int
  selects : List (rasqal_variable L)
  variables_array : List (rasqal_variable L)
  select_variables_count : Int
  variable_names : Option (List String)
  binding_values : Option (List (Option L))
  result_count : Int
deriving DecidableEq, Repr

/-- The query after an engine or factory call `call` that answered `reply`. -/
def rasqal_engine_called {L : Type} (query : rasqal_query L) (call : rasqal_engine_call)
    (reply : rasqal_engine_reply L) : rasqal_query L :=
  { query with
    selects := reply.selects
    variables_array := reply.variables_array
    select_variables_count := reply.select_variables_count
    variable_names := reply.variable_names
    binding_values := reply.binding_values
    result_count := reply.result_count
    calls := query.calls ++ [call] }

/-- The function `rasqal_free_query`: the usage count is decremented; only when
it reaches zero is the query destroyed (`rasqal_engine_execute_finish` when
executed, the factory's `terminate`, then the memory is released). -/
def rasqal_free_query {L : Type} (query : rasqal_query L) : rasqal_query L :=
  let q1 := { query with usage := query.usage - 1 }
  if q1.usage ≠ 0 then q1
  else
    let q2 := if q1.executed then
        { q1 with calls := q1.calls ++ [rasqal_engine_call.execute_finish] }
      else q1
    { q2 with
      calls := q2.calls ++ [rasqal_engine_call.factory_terminate]
      freed := true }

/-- The query `calloc` hands to `rasqal_new_query`, once `context`, `factory`,
`failed`, `namespaces` and `variables_sequence` are set and `usage` is `1`. -/
def rasqal_query_fresh (L : Type) : rasqal_query L :=
  { usage := 1, prepared := false, executed := false, finished := false, failed := false,
    query_string := none, base_uri := none, locator_uri := none, locator_line := 0,
    locator_column := 0, selects := [], variables_array := [], select_variables_count := 0,
    variable_names := none, binding_values := none, result_count := 0, results := [],
    freed := false, calls := [] }

/-- The function `rasqal_new_query`: `NULL` when no factory is found, when an
allocation fails or when the factory's `init` answers non-zero; otherwise the
new query with usage count `1`. -/
def rasqal_new_query {L : Type} (factory_found query_alloc_ok context_alloc_ok : Bool)
    (init : rasqal_engine_reply L) : Option (rasqal_query L) :=
  if factory_found = false then none
  else if query_alloc_ok = false then none
  else if context_alloc_ok = false then none
  else
    let q := rasqal_engine_called (rasqal_query_fresh L) rasqal_engine_call.factory_init init
    if init.rc ≠ 0 then none else some q

/-- The function `rasqal_query_has_variable`. -/
def rasqal_query_has_variable {L : Type} (query : rasqal_query L) (name : String) : Int :=
  if query.selects.any (fun v => v.name == name) then 1 else 0

/-- The loop of `rasqal_query_set_variable` over the `selects` sequence: the
first variable with the name gets the value. -/
def rasqal_query_set_variable_loop {L : Type} (name : String) (value : Option L) :
    List (rasqal_variable L) → Int × List (rasqal_variable L)
  | [] => (1, [])
  | v :: vs =>
    if v.name = name then (0, { v with value := value } :: vs)
    else
      match rasqal_query_set_variable_loop name value vs with
      | (rc, vs') => (rc, v :: vs')

/-- The function `rasqal_query_set_variable`. -/
def rasqal_query_set_variable {L : Type} (query : rasqal_query L) (name : String)
    (value : Option L) : Int × rasqal_query L :=
  match rasqal_query_set_variable_loop name value query.selects with
  | (rc, vs) => (rc, { query with selects := vs })

/-- The function `rasqal_query_prepare`.  `cwd_uri` is the URI of the current
directory, used when no base URI is given; `hook` is the answer of the
factory's `prepare`. -/
def rasqal_query_prepare {L : Type} (query : rasqal_query L)
    (query_string : Option String) (base_uri : Option String) (cwd_uri : String)
    (hook : rasqal_engine_reply L) : Int × rasqal_query L :=
  if query.failed || query.finished then (1, query)
  else if query.prepared then (1, query)
  else
    let q1 := { query with prepared := true }
    let q2 := match query_string with
      | some s => { q1 with query_string := some s }
      | none => q1
    let uri := match base_uri with
      | some u => u
      | none => cwd_uri
    let q3 := { q2 with
      base_uri := some uri, locator_uri := some uri, locator_line := 0, locator_column := 0 }
    let q4 := rasqal_engine_called q3 rasqal_engine_call.factory_prepare hook
    if hook.rc ≠ 0 then (hook.rc, { q4 with failed := true }) else (hook.rc, q4)

/-- The function `rasqal_query_add_query_result`: the iterator becomes the head
of the list and the usage count grows by one. -/
def rasqal_query_add_query_result {L : Type} (query : rasqal_query L)
    (query_results : rasqal_query_results) : rasqal_query L :=
  { query with results := query_results :: query.results, usage := query.usage + 1 }

/-- The unlinking walk of `rasqal_query_remove_query_result`: follow the list
up to the iterator and link its predecessor (or the list head) to its
successor; a list without the iterator is left as it is. -/
def rasqal_query_results_unlink (query_results : rasqal_query_results) :
    List rasqal_query_results → List rasqal_query_results
  | [] => []
  | cur :: next =>
    if cur = query_results then next
    else cur :: rasqal_query_results_unlink query_results next

/-- The function `rasqal_query_remove_query_result`: unlink, then
`rasqal_free_query`. -/
def rasqal_query_remove_query_result {L : Type} (query : rasqal_query L)
    (query_results : rasqal_query_results) : rasqal_query L :=
  rasqal_free_query
    { query with results := rasqal_query_results_unlink query_results query.results }

/-- The function `rasqal_free_query_results`; a `NULL` iterator is ignored. -/
def rasqal_free_query_results {L : Type} (query_results : Option rasqal_query_results)
    (query : rasqal_query L) : rasqal_query L :=
  match query_results with
  | none => query
  | some r => rasqal_query_remove_query_result query r

/-- The function `rasqal_query_results_get_count`. -/
def rasqal_query_results_get_count {L : Type} (query_results : Option rasqal_query_results)
    (query : rasqal_query L) : Int :=
  match query_results with
  | none => -1
  | some _ => query.result_count

/-- The function `rasqal_query_results_next`.  `next` is what
`rasqal_engine_get_next_result` answers if it is asked.  Returns the `int`
result and the query. -/
def rasqal_query_results_next {L : Type} (query_results : Option rasqal_query_results)
    (query : rasqal_query L) (next : rasqal_engine_reply L) : Int × rasqal_query L :=
  match query_results with
  | none => (1, query)
  | some _ =>
    if query.finished then (1, query)
    else
      let q1 := rasqal_engine_called query rasqal_engine_call.get_next_result next
      let q2 := if next.rc < 1 then { q1 with finished := true } else q1
      let q3 := if next.rc < 0 then { q2 with failed := true } else q2
      (if q3.finished then 1 else 0, q3)

/-- The function `rasqal_query_results_finished`. -/
def rasqal_query_results_finished {L : Type} (query_results : Option rasqal_query_results)
    (query : rasqal_query L) : Int :=
  match query_results with
  | none => 1
  | some _ => if query.failed || query.finished then 1 else 0

/-- The function `rasqal_query_execute`.  `addr` is the address `calloc` gives
the new iterator; `init` is the answer of `rasqal_engine_execute_init`,
`hook` that of the factory's `execute` (`none` when the factory has none) and
`next` that of `rasqal_engine_get_next_result`.  Returns the iterator (or
`NULL`) and the query. -/
def rasqal_query_execute {L : Type} (query : rasqal_query L) (addr : Nat)
    (init : rasqal_engine_reply L) (hook : Option (rasqal_engine_reply L))
    (next : rasqal_engine_reply L) : Option rasqal_query_results × rasqal_query L :=
  if query.failed || query.finished then (none, query)
  else if query.executed then (none, query)
  else
    let q1 := rasqal_engine_called { query with executed := true }
      rasqal_engine_call.execute_init init
    if init.rc ≠ 0 then (none, { q1 with failed := true })
    else
      let finish := fun (q : rasqal_query L) =>
        let query_results : rasqal_query_results := { addr := addr }
        let q3 := rasqal_query_add_query_result q query_results
        (some query_results, (rasqal_query_results_next (some query_results) q3 next).2)
      match hook with
      | none => finish q1
      | some h =>
        let q2 := rasqal_engine_called q1 rasqal_engine_call.factory_execute h
        if h.rc ≠ 0 then (none, { q2 with failed := true })
        else finish q2

/-- Modelled from the spec: `rasqal_engine_assign_binding_values`, which is not
among the sources.  The engine fills `binding_values` from the current values
of the first `select_variables_count` variables. -/
def rasqal_engine_assign_binding_values {L : Type} (query : rasqal_query L) :
    rasqal_query L :=
  { query with
    binding_values := some ((List.range query.select_variables_count.toNat).map
      (fun i => (query.variables_array[i]?).bind (fun v => v.value)))
    calls := query.calls ++ [rasqal_engine_call.assign_binding_values] }

/-- The function `rasqal_query_results_get_bindings`.  `names` and `values`
tell whether the two output pointers are given.  Returns the `int` result,
what is stored through `names` and through `values` (`none` when nothing is
stored), and the query. -/
def rasqal_query_results_get_bindings {L : Type}
    (query_results : Option rasqal_query_results) (query : rasqal_query L)
    (names values : Bool) :
    Int × Option (Option (List String)) × Option (Option (List (Option L))) ×
      rasqal_query L :=
  match query_results with
  | none => (1, none, none, query)
  | some _ =>
    if query.finished then (1, none, none, query)
    else
      let names_out := if names then some query.variable_names else none
      if values then
        let q1 := if query.binding_values.isSome then
          rasqal_engine_assign_binding_values query else query
        (0, names_out, some q1.binding_values, q1)
      else (0, names_out, none, query)

/-- The function `rasqal_query_results_get_binding_value`: the literal returned
(`none` is `NULL`) and the query. -/
def rasqal_query_results_get_binding_value {L : Type}
    (query_results : Option rasqal_query_results) (query : rasqal_query L)
    (offset : Int) : Option L × rasqal_query L :=
  match query_results with
  | none => (none, query)
  | some _ =>
    if query.finished then (none, query)
    else if offset < 0 ∨ offset > query.select_variables_count - 1 then (none, query)
    else
      match query.binding_values with
      | none => (none, query)
      | some _ =>
        let q1 := rasqal_engine_assign_binding_values query
        (((q1.binding_values.getD [])[offset.toNat]?).join, q1)

/-- The function `rasqal_query_results_get_binding_name`. -/
def rasqal_query_results_get_binding_name {L : Type}
    (query_results : Option rasqal_query_results) (query : rasqal_query L)
    (offset : Int) : Option String :=
  match query_results with
  | none => none
  | some _ =>
    if query.finished then none
    else if offset < 0 ∨ offset > query.select_variables_count - 1 then none
    else (query.variables_array[offset.toNat]?).map (fun v => v.name)

/-- The search loop of `rasqal_query_results_get_binding_value_by_name`: the
first index `i` from `i` on, below `count`, whose variable has the name, or
`-1`. -/
def rasqal_query_results_find_name {L : Type} (vars : List (rasqal_variable L))
    (name : String) (count : Int) : Nat → Nat → Int
  | 0, _ => -1
  | fuel + 1, i =>
    if (i : Int) < count then
      if (vars[i]?).map (fun v => v.name) = some name then (i : Int)
      else rasqal_query_results_find_name vars name count fuel (i + 1)
    else -1

/-- The function `rasqal_query_results_get_binding_value_by_name`. -/
def rasqal_query_results_get_binding_value_by_name {L : Type}
    (query_results : Option rasqal_query_results) (query : rasqal_query L)
    (name : String) : Option L × rasqal_query L :=
  match query_results with
  | none => (none, query)
  | some _ =>
    if query.finished then (none, query)
    else
      let offset := rasqal_query_results_find_name query.variables_array name
        query.select_variables_count query.select_variables_count.toNat 0
      if offset < 0 then (none, query)
      else
        match query.binding_values with
        | none => (none, query)
        | some _ =>
          let q1 := rasqal_engine_assign_binding_values query
          (((q1.binding_values.getD [])[offset.toNat]?).join, q1)

/-- The function `rasqal_query_results_get_bindings_count`. -/
def rasqal_query_results_get_bindings_count {L : Type}
    (query_results : Option rasqal_query_results) (query : rasqal_query L) : Int :=
  match query_results with
  | none => -1
  | some _ => query.select_variables_count

/-! ## Clients of one query -/

/-- A call a client makes on a query or on one of its result iterators,
together with what the engine and the factory answer during the call. -/
inductive rasqal_api_call (L : Type) where
  | prepare (query_string : Option String) (base_uri : Option String) (cwd_uri : String)
      (hook : rasqal_engine_reply L)
  | execute (addr : Nat) (init : rasqal_engine_reply L)
      (hook : Option (rasqal_engine_reply L)) (next : rasqal_engine_reply L)
  | results_next (query_results : rasqal_query_results) (next : rasqal_engine_reply L)
  | free_query
  | free_query_results (query_results : rasqal_query_results)

/-- A query with the references to it that are still held: the creator's
(`creator`) and one per result iterator returned by `rasqal_query_execute` and
not yet released (`iterators`, most recent first). -/
structure rasqal_client (L : Type) where
  query : rasqal_query L
  creator : Bool
  iterators : List rasqal_query_results
deriving DecidableEq, Repr

/-- The client holding the query `rasqal_new_query` returned. -/
def rasqal_client_new {L : Type} (query : rasqal_query L) : rasqal_client L :=
  { query := query, creator := true, iterators := [] }

/-- One call of a client.  `none` when the call uses a reference that is not
held (released before, or never handed out), or when the address given for a
new iterator is that of a live one. -/
def rasqal_client_step {L : Type} (s : rasqal_client L) :
    rasqal_api_call L → Option (rasqal_client L)
  | .prepare query_string base_uri cwd_uri hook =>
    if s.creator then
      some { s with query := (rasqal_query_prepare s.query query_string base_uri cwd_uri hook).2 }
    else none
  | .execute addr init hook next =>
    if s.creator ∧ (⟨addr⟩ : rasqal_query_results) ∉ s.iterators then
      match rasqal_query_execute s.query addr init hook next with
      | (none, q) => some { s with query := q }
      | (some r, q) => some { s with query := q, iterators := r :: s.iterators }
    else none
  | .results_next r next =>
    if r ∈ s.iterators then
      some { s with query := (rasqal_query_results_next (some r) s.query next).2 }
    else none
  | .free_query =>
    if s.creator then some { s with query := rasqal_free_query s.query, creator := false }
    else none
  | .free_query_results r =>
    if r ∈ s.iterators then
      some { s with
        query := rasqal_free_query_results (some r) s.query
        iterators := s.iterators.erase r }
    else none

/-- A sequence of calls of a client, in order; `none` as soon as one of them is
not allowed. -/
def rasqal_client_run {L : Type} : rasqal_client L → List (rasqal_api_call L) →
    Option (rasqal_client L)
  | s, [] => some s
  | s, c :: cs =>
    match rasqal_client_step s c with
    | none => none
    | some s' => rasqal_client_run s' cs

/-- The references held account for the usage count, the list of live
iterators and the destruction of the query. -/
def rasqal_client_ok {L : Type} (s : rasqal_client L) : Prop :=
  s.query.usage = (if s.creator then 1 else 0) + (s.iterators.length : Int) ∧
  s.query.results = s.iterators ∧
  (s.query.freed = true ↔ (s.creator = false ∧ s.iterators = [])) ∧
  s.iterators.Nodup

/-! ## Order of a row-sort map -/

/-- A three-way comparison of a total preorder: swapping the arguments swaps
the sign, and "not greater" is transitive. -/
structure rasqal_compare_total {α : Type} (cmp : α → α → Int) : Prop where
  flip : ∀ a b, 0 < cmp a b ↔ cmp b a < 0
  trans : ∀ a b c, cmp a b ≤ 0 → cmp b c ≤ 0 → cmp a c ≤ 0

/-- The rows of a map are in strictly increasing comparator order. -/
def rasqal_map_sorted {L E T : Type} (x : rasqal_sort_env L E T) (d f : Int)
    (rs : List (rasqal_row L)) : Prop :=
  rs.Pairwise (fun a b => rasqal_engine_rowsort_row_compare x d f a b < 0)

/-! ## Concrete collaborators for the scenarios -/

/-- Literals of the scenarios: integers and strings. -/
inductive rasqal_demo_literal where
  | integer (n : Int)
  | string (s : String)
deriving DecidableEq, Repr

/-- Expressions of the scenarios: a variable, and `?i > n`. -/
inductive rasqal_demo_expression where
  | var (i : Nat)
  | var_gt (i : Nat) (n : Int)
deriving DecidableEq, Repr

/-- Evaluation of a scenario expression against a variables table; comparing a
string or an unbound variable with a number is a type error. -/
def rasqal_demo_evaluate (t : List (Option rasqal_demo_literal))
    (e : rasqal_demo_expression) (_flags : Int) : Option rasqal_demo_literal :=
  match e with
  | .var i => (t[i]?).join
  | .var_gt i n =>
    match (t[i]?).join with
    | some (.integer v) => some (.integer (if v > n then 1 else 0))
    | _ => none

/-- A filter environment for the scenarios: integers coerce to their being
non-zero, strings to their being non-empty, never with an error. -/
def rasqal_demo_filter_env :
    rasqal_filter_env rasqal_demo_literal rasqal_demo_expression
      (List (Option rasqal_demo_literal)) where
  evaluate := rasqal_demo_evaluate
  as_boolean := fun l =>
    match l with
    | .integer n => (if n = 0 then 0 else 1, 0)
    | .string s => (if s.length = 0 then 0 else 1, 0)
  get_value := fun t i => (t[i]?).join

/-- A filter environment whose coercion of a string sets the error flag and
returns `1` alongside it. -/
def rasqal_demo_filter_env_error :
    rasqal_filter_env rasqal_demo_literal rasqal_demo_expression
      (List (Option rasqal_demo_literal)) where
  evaluate := rasqal_demo_evaluate
  as_boolean := fun l =>
    match l with
    | .integer n => (if n = 0 then 0 else 1, 0)
    | .string _ => (1, 1)
  get_value := fun t i => (t[i]?).join

/-- A pull of a scenario inner source: a row with the given values, the
variables table bound to the same values. -/
def rasqal_demo_pull (vals : List (Option rasqal_demo_literal)) :
    rasqal_inner_row rasqal_demo_literal (List (Option rasqal_demo_literal)) :=
  { row := { values := vals, order_values := [], offset := 0 }, vars_table := vals }

/-- The integer an order-key of the scenarios is compared by: its first
literal when that is an integer, otherwise `0`. -/
def rasqal_demo_key (k : List (Option rasqal_demo_literal)) : Int :=
  match k with
  | some (.integer n) :: _ => n
  | _ => 0

/-- A sort environment for the scenarios: order-keys are compared by their
first integer. -/
def rasqal_demo_sort_env :
    rasqal_sort_env rasqal_demo_literal rasqal_demo_expression
      (List (Option rasqal_demo_literal)) where
  evaluate := rasqal_demo_evaluate
  compare := fun _ a b => rasqal_demo_key a - rasqal_demo_key b
  read_all_rows := fun rs => (some (raptor_sequence.rows (rs.map (fun p => p.row))), [])

/-- A sort context of the scenarios as `rasqal_new_sort_rowsource` builds it:
order by `ASC(?0)`, with the given distinct flag and inner rows. -/
def rasqal_demo_sort_context (distinct : Int)
    (rows : List (List (Option rasqal_demo_literal))) :
    rasqal_sort_rowsource_context rasqal_demo_literal rasqal_demo_expression
      (List (Option rasqal_demo_literal)) :=
  { query := { order_conditions_sequence := some [.var 0], distinct := distinct,
               compare_flags := 0 }
    rowsource := rows.map rasqal_demo_pull
    map := none
    seq := some (raptor_sequence.exprs [.var 0])
    order_size := 0 }

/-- An engine reply with return code `rc` and no result data. -/
def rasqal_demo_reply (rc : Int) : rasqal_engine_reply rasqal_demo_literal :=
  { rc := rc, selects := [], variables_array := [], select_variables_count := 0,
    variable_names := none, binding_values := none, result_count := 0 }

/-- The query `rasqal_new_query` returns when the factory's `init` answers
`rasqal_demo_reply 0`. -/
def rasqal_demo_query : rasqal_query rasqal_demo_literal :=
  rasqal_engine_called (rasqal_query_fresh rasqal_demo_literal)
    rasqal_engine_call.factory_init (rasqal_demo_reply 0)

/-! ## Filter row-source: construction -/

/-- The fields of `rasqal_query` the filter row-source reads. -/
structure rasqal_filter_query (T : Type) where
  compare_flags : Int
  vars_table : T
deriving DecidableEq, Repr

/-- The function `rasqal_new_filter_rowsource`: `NULL` arguments give `NULL`;
so does a failed allocation of the context (`alloc_ok = false`).  Otherwise the
context holds the query, the inner source and the expression; `offset` is
zeroed by `calloc`. -/
def rasqal_new_filter_rowsource {L E T : Type} (alloc_ok : Bool)
    (query : Option (rasqal_filter_query T))
    (rowsource : Option (List (rasqal_inner_row L T)))
    (expr : Option E) : Option (rasqal_filter_rowsource_context L E T) :=
  match query, rowsource, expr with
  | some q, some rs, some e =>
    if alloc_ok then
      some { compare_flags := q.compare_flags, vars_table := q.vars_table,
             rowsource := rs, expr := e, offset := 0 }
    else none
  | _, _, _ => none

/-! ## The list of live result iterators as linked objects -/

/-- The pointers `rasqal_query_add_query_result` and
`rasqal_query_remove_query_result` work on: `results` is `query->results`,
`next r` the `next` field of the iterator `r`. -/
structure rasqal_results_links where
  results : Option rasqal_query_results
  next : rasqal_query_results → Option rasqal_query_results

/-- The pointer writes of `rasqal_query_add_query_result`:
`query_results->next=query->results; query->results=query_results`. -/
def rasqal_results_links_add (h : rasqal_results_links)
    (query_results : rasqal_query_results) : rasqal_results_links :=
  { results := some query_results
    next := Function.update h.next query_results h.results }

/-- The `for` loop of `rasqal_query_remove_query_result`: from `cur`, follow
`next` while `cur` is neither `NULL` nor the iterator, remembering the object
before in `prev`; at most `fuel` steps.  Returns `cur` and `prev`. -/
def rasqal_results_links_walk (next : rasqal_query_results → Option rasqal_query_results)
    (query_results : rasqal_query_results) :
    Nat → Option rasqal_query_results → Option rasqal_query_results →
      Option rasqal_query_results × Option rasqal_query_results
  | 0, cur, prev => (cur, prev)
  | _ + 1, none, prev => (none, prev)
  | fuel + 1, some c, prev =>
    if c = query_results then (some c, prev)
    else rasqal_results_links_walk next query_results fuel (next c) (some c)

/-- The pointer writes of `rasqal_query_remove_query_result` before it calls
`rasqal_free_query`: after the walk, `prev->next=cur->next` when the iterator
was found behind another, `query->results=cur->next` when `cur` is the head. -/
def rasqal_results_links_remove (fuel : Nat) (h : rasqal_results_links)
    (query_results : rasqal_query_results) : rasqal_results_links :=
  match rasqal_results_links_walk h.next query_results fuel h.results none with
  | (cur, prev) =>
    let next1 :=
      if cur = some query_results then
        match prev with
        | some p => Function.update h.next p (h.next query_results)
        | none => h.next
      else h.next
    let results1 :=
      match cur with
      | some c => if some c = h.results then next1 c else h.results
      | none => h.results
    { results := results1, next := next1 }

/-- The linked objects starting at `p` are the iterators of the list, in
order, the last one with a `NULL` `next`. -/
def rasqal_results_links_list (next : rasqal_query_results → Option rasqal_query_results) :
    Option rasqal_query_results → List rasqal_query_results → Prop
  | p, [] => p = none
  | p, r :: rs => p = some r ∧ rasqal_results_links_list next (next r) rs

/-- A query of the scenarios with two selected variables, `x` bound to `1` and
`y` bound to `"a"`, and a `binding_values` array allocated but not yet filled. -/
def rasqal_demo_bound_query : rasqal_query rasqal_demo_literal :=
  { rasqal_demo_query with
    selects := [⟨"x", some (.integer 1)⟩, ⟨"y", some (.string "a")⟩]
    variables_array := [⟨"x", some (.integer 1)⟩, ⟨"y", some (.string "a")⟩]
    select_variables_count := 2
    variable_names := some ["x", "y"]
    binding_values := some [none, none] }

/-! ## Filter and sort row-sources: what the loops do to the pulled rows -/

/-- The rows the `while(1)` loop of `rasqal_filter_rowsource_read_row` hands to
`rasqal_free_row` during one call, in order: every pulled row whose `bresult`
is `0`, up to the row that passes. -/
def rasqal_filter_rowsource_loop_freed {L E T : Type} (x : rasqal_filter_env L E T)
    (expr : E) (compare_flags : Int) :
    List (rasqal_inner_row L T) → List (rasqal_row L)
  | [] => []
  | it :: rest =>
    if rasqal_filter_bresult x expr compare_flags it.vars_table ≠ 0 then []
    else it.row :: rasqal_filter_rowsource_loop_freed x expr compare_flags rest

/-- The record that the loop of `rasqal_sort_rowsource_process` leaves when it
runs on a map that is not `NULL`: for every pulled row the row as it is
offered to the map (keyed, with its offset assigned) and the status returned
for it.  This is the third result of `rasqal_sort_rowsource_while` on such a
map. -/
def rasqal_sort_rowsource_loop_trace {L E T : Type} (x : rasqal_sort_env L E T)
    (query : rasqal_sort_query E) (order_size : Int) :
    List (rasqal_inner_row L T) → rasqal_map L → Int → List (rasqal_row L × Int)
  | [], _, _ => []
  | it :: rest, map, offset =>
    match rasqal_engine_rowsort_map_add_row x map
        (rasqal_sort_rowsource_key_row x query order_size it offset) with
    | (status, map') =>
      (rasqal_sort_rowsource_key_row x query order_size it offset, status) ::
        (if status = 0 then
          rasqal_sort_rowsource_loop_trace x query order_size rest map' (offset + 1)
        else rasqal_sort_rowsource_loop_trace x query order_size rest map' offset)

/-- One call of an inner row-source's `read_row` as the source sees it: it
hands out a row, or it fails. -/
inductive rasqal_inner_step (L T : Type) where
  | row (it : rasqal_inner_row L T)
  | error
deriving DecidableEq, Repr

/-- The rows `rasqal_rowsource_read_row` hands out for an inner source before
its first `NULL` return: `read_row` returns a row or `NULL`, and `NULL` is its
answer both at the end of the rows and on a failure. -/
def rasqal_inner_rows_read {L T : Type} :
    List (rasqal_inner_step L T) → List (rasqal_inner_row L T)
  | [] => []
  | .row it :: rest => it :: rasqal_inner_rows_read rest
  | .error :: _ => []

/-- Pass-through mode in the words of the specification: the sort row-source
delegates to the inner source's `read_all_rows` and returns its result. -/
def rasqal_sort_pass_through_spec {L E T : Type} (x : rasqal_sort_env L E T)
    (rowsource : List (rasqal_inner_row L T)) : Option (raptor_sequence L E) :=
  (x.read_all_rows rowsource).1

/-! ## Filter row-source: which rows are emitted -/

theorem rasqal_filter_rowsource_loop_pulls {L E T : Type} (x : rasqal_filter_env L E T)
    (expr : E) (flags : Int) (S : List (rasqal_inner_row L T)) (t : T) (p k : Nat) :
    rasqal_filter_rowsource_loop x expr flags S t (p + k) =
      ((rasqal_filter_rowsource_loop x expr flags S t p).1,
       (rasqal_filter_rowsource_loop x expr flags S t p).2.1,
       (rasqal_filter_rowsource_loop x expr flags S t p).2.2.1,
       (rasqal_filter_rowsource_loop x expr flags S t p).2.2.2 + k) := by
  induction S generalizing t p with
  | nil => simp [rasqal_filter_rowsource_loop]; omega
  | cons it rest ih =>
    simp only [rasqal_filter_rowsource_loop]
    split
    · simp; omega
    · have := ih it.vars_table (p + 1)
      rw [show p + k + 1 = p + 1 + k by omega]
      exact this

theorem rasqal_filter_passes_iff {L E T : Type} (x : rasqal_filter_env L E T)
    (expr : E) (flags : Int) (it : rasqal_inner_row L T) :
    rasqal_filter_passes x expr flags it = true ↔
      rasqal_filter_bresult x expr flags it.vars_table ≠ 0 := by
  unfold rasqal_filter_passes rasqal_filter_bresult
  cases x.evaluate it.vars_table expr flags <;> simp

theorem rasqal_filter_read_row_skip {L E T : Type} (x : rasqal_filter_env L E T)
    (flags : Int) (t : T) (it : rasqal_inner_row L T) (rest : List (rasqal_inner_row L T))
    (expr : E) (off : Int)
    (h : rasqal_filter_passes x expr flags it = false) :
    rasqal_filter_rowsource_read_row x ⟨flags, t, it :: rest, expr, off⟩ =
      rasqal_filter_rowsource_read_row x ⟨flags, it.vars_table, rest, expr, off⟩ := by
  have hb : rasqal_filter_bresult x expr flags it.vars_table = 0 := by
    by_contra hne
    have := (rasqal_filter_passes_iff x expr flags it).2 hne
    simp [h] at this
  simp only [rasqal_filter_rowsource_read_row, rasqal_filter_rowsource_loop, hb]
  have := rasqal_filter_rowsource_loop_pulls x expr flags rest it.vars_table 0 1
  simp only [Nat.zero_add] at this
  simp only [ne_eq, not_true_eq_false, if_false, Nat.zero_add]
  rw [this]
  rcases rasqal_filter_rowsource_loop x expr flags rest it.vars_table 0 with
    ⟨_ | r, rs, t', n⟩ <;> rfl

theorem rasqal_filter_read_row_pass {L E T : Type} (x : rasqal_filter_env L E T)
    (flags : Int) (t : T) (it : rasqal_inner_row L T) (rest : List (rasqal_inner_row L T))
    (expr : E) (off : Int)
    (h : rasqal_filter_passes x expr flags it = true) :
    rasqal_filter_rowsource_read_row x ⟨flags, t, it :: rest, expr, off⟩ =
      (some (rasqal_filter_rowsource_emit x it.vars_table it.row off),
        ⟨flags, it.vars_table, rest, expr, off + 1⟩) := by
  have hb := (rasqal_filter_passes_iff x expr flags it).1 h
  simp [rasqal_filter_rowsource_read_row, rasqal_filter_rowsource_loop, hb]

theorem rasqal_filter_read_rows_eq {L E T : Type} (x : rasqal_filter_env L E T)
    (flags : Int) (expr : E) (S : List (rasqal_inner_row L T)) (t : T) (off : Int)
    (fuel : Nat) (h : S.length < fuel) :
    rasqal_filter_rowsource_read_rows x fuel ⟨flags, t, S, expr, off⟩ =
      rasqal_filter_emitted x off (S.filter (rasqal_filter_passes x expr flags)) := by
  induction S generalizing t off fuel with
  | nil =>
    cases fuel with
    | zero => simp at h
    | succ n => simp [rasqal_filter_rowsource_read_rows, rasqal_filter_rowsource_read_row,
        rasqal_filter_rowsource_loop, rasqal_filter_emitted]
  | cons it rest ih =>
    cases fuel with
    | zero => simp at h
    | succ n =>
      simp only [List.length_cons, Nat.add_lt_add_iff_right] at h
      cases hp : rasqal_filter_passes x expr flags it with
      | false =>
        have hs := rasqal_filter_read_row_skip x flags t it rest expr off hp
        have := ih it.vars_table off (n + 1) (by omega)
        simp only [List.filter_cons, hp, Bool.false_eq_true, if_false]
        rw [← this]
        simp only [rasqal_filter_rowsource_read_rows, hs]
      | true =>
        have hs := rasqal_filter_read_row_pass x flags t it rest expr off hp
        simp only [List.filter_cons, hp, rasqal_filter_rowsource_read_rows, hs, if_true,
          rasqal_filter_emitted]
        rw [ih it.vars_table (off + 1) n h]

theorem rasqal_filter_read_row_error_blind {L E T : Type} (x : rasqal_filter_env L E T)
    (con : rasqal_filter_rowsource_context L E T) :
    rasqal_filter_rowsource_read_row
        { x with as_boolean := fun l => ((x.as_boolean l).1, 0) } con =
      rasqal_filter_rowsource_read_row x con := by
  have hb : ∀ (expr : E) (flags : Int) (t : T),
      rasqal_filter_bresult { x with as_boolean := fun l => ((x.as_boolean l).1, 0) }
        expr flags t = rasqal_filter_bresult x expr flags t := by
    intro expr flags t
    simp only [rasqal_filter_bresult]
  have hl : ∀ (S : List (rasqal_inner_row L T)) (t : T) (p : Nat),
      rasqal_filter_rowsource_loop { x with as_boolean := fun l => ((x.as_boolean l).1, 0) }
        con.expr con.compare_flags S t p =
      rasqal_filter_rowsource_loop x con.expr con.compare_flags S t p := by
    intro S
    induction S with
    | nil => intro t p; rfl
    | cons it rest ih =>
      intro t p
      simp only [rasqal_filter_rowsource_loop, hb, ih]
  simp only [rasqal_filter_rowsource_read_row, hl]
  rfl

/-- C1: repeated calls of the filter's `read_row`, until it returns none,
return exactly the rows of the inner sequence whose expression value is a
literal with a non-zero boolean coercion, in the inner order, each being the
pulled row as the emission step leaves it; a row whose evaluation is a type
error is elided: the calls return the same rows as without it, so it does not
stop later rows. -/
theorem rasqal_filter_rowsource_read_rows_spec {L E T : Type}
    (x : rasqal_filter_env L E T) (con : rasqal_filter_rowsource_context L E T)
    (fuel : Nat) (h : con.rowsource.length < fuel) :
    rasqal_filter_rowsource_read_rows x fuel con =
        rasqal_filter_emitted x con.offset
          (con.rowsource.filter (rasqal_filter_passes x con.expr con.compare_flags)) ∧
      ∀ (pre post : List (rasqal_inner_row L T)) (it : rasqal_inner_row L T),
        con.rowsource = pre ++ it :: post →
        x.evaluate it.vars_table con.expr con.compare_flags = none →
        rasqal_filter_rowsource_read_rows x fuel con =
          rasqal_filter_rowsource_read_rows x fuel { con with rowsource := pre ++ post } := by
  obtain ⟨flags, t, S, expr, off⟩ := con
  refine ⟨rasqal_filter_read_rows_eq x flags expr S t off fuel h, ?_⟩
  intro pre post it hS hev
  simp only at hS hev ⊢
  have hlen : (pre ++ post).length < fuel := by
    have : S.length = pre.length + (post.length + 1) := by rw [hS]; simp
    simp only [List.length_append]
    simp only at h
    omega
  rw [rasqal_filter_read_rows_eq x flags expr S t off fuel h,
    rasqal_filter_read_rows_eq x flags expr (pre ++ post) t off fuel hlen, hS]
  have hp : rasqal_filter_passes x expr flags it = false := by
    simp [rasqal_filter_passes, hev]
  simp [List.filter_append, List.filter_cons, hp]

/-- Scenario S2 followed by a passing row: the string row is a type error
under `?0 > 1` and is elided, the row `?0 = 2` is still emitted. -/
theorem rasqal_filter_rowsource_read_rows_spec_witness :
    ([rasqal_demo_pull [some (.string "abc")], rasqal_demo_pull [some (.integer 2)]].length < 3) ∧
    rasqal_filter_rowsource_read_rows rasqal_demo_filter_env 3
      ⟨0, [], [rasqal_demo_pull [some (.string "abc")], rasqal_demo_pull [some (.integer 2)]],
        .var_gt 0 1, 0⟩ = [⟨[some (.integer 2)], [], 0⟩] ∧
    rasqal_filter_rowsource_read_rows rasqal_demo_filter_env 3
      ⟨0, [], [rasqal_demo_pull [some (.string "abc")]], .var_gt 0 1, 0⟩ = [] :=
  ⟨by decide,
   (rasqal_filter_rowsource_read_rows_spec rasqal_demo_filter_env
      ⟨0, [], [rasqal_demo_pull [some (.string "abc")], rasqal_demo_pull [some (.integer 2)]],
        .var_gt 0 1, 0⟩ 3 (by decide)).1.trans (by decide),
   (rasqal_filter_rowsource_read_rows_spec rasqal_demo_filter_env
      ⟨0, [], [rasqal_demo_pull [some (.string "abc")]], .var_gt 0 1, 0⟩ 3
      (by decide)).1.trans (by decide)⟩

/-- C2 as stated fails: with a coercion that sets the error flag and returns
`1`, the row `?0 = "abc"` filtered by `?0` is emitted. -/
theorem rasqal_filter_coercion_error_row_emitted :
    rasqal_demo_filter_env_error.evaluate [some (.string "abc")] (.var 0) 0 =
        some (.string "abc") ∧
      (rasqal_demo_filter_env_error.as_boolean (.string "abc")).2 ≠ 0 ∧
      (rasqal_filter_rowsource_read_row rasqal_demo_filter_env_error
        ⟨0, [], [rasqal_demo_pull [some (.string "abc")]], .var 0, 0⟩).1 =
        some ⟨[some (.string "abc")], [], 0⟩ := by
  decide

/-- C2, amended: for a pulled row whose expression evaluates to a literal, the
value returned by the boolean coercion decides alone: when it is `0` the row is
dropped and the call goes on with the next pull, when it is non-zero the row is
emitted; the error flag is not consulted, so the call answers the same when
every coercion's error flag is cleared. -/
theorem rasqal_filter_coercion_value_decides {L E T : Type}
    (x : rasqal_filter_env L E T) (flags : Int) (t : T) (it : rasqal_inner_row L T)
    (rest : List (rasqal_inner_row L T)) (expr : E) (off : Int) (l : L)
    (hev : x.evaluate it.vars_table expr flags = some l) :
    ((x.as_boolean l).1 = 0 →
      rasqal_filter_rowsource_read_row x ⟨flags, t, it :: rest, expr, off⟩ =
        rasqal_filter_rowsource_read_row x ⟨flags, it.vars_table, rest, expr, off⟩) ∧
    ((x.as_boolean l).1 ≠ 0 →
      rasqal_filter_rowsource_read_row x ⟨flags, t, it :: rest, expr, off⟩ =
        (some (rasqal_filter_rowsource_emit x it.vars_table it.row off),
          ⟨flags, it.vars_table, rest, expr, off + 1⟩)) ∧
    rasqal_filter_rowsource_read_row
        { x with as_boolean := fun l' => ((x.as_boolean l').1, 0) }
        ⟨flags, t, it :: rest, expr, off⟩ =
      rasqal_filter_rowsource_read_row x ⟨flags, t, it :: rest, expr, off⟩ := by
  refine ⟨?_, ?_, ?_⟩
  · intro h0
    exact rasqal_filter_read_row_skip x flags t it rest expr off
      (by simp [rasqal_filter_passes, hev, h0])
  · intro h1
    exact rasqal_filter_read_row_pass x flags t it rest expr off
      (by simp [rasqal_filter_passes, hev, h1])
  · exact rasqal_filter_read_row_error_blind x _

/-- The amended C2 at the string row of the counterexample: its coercion
returns `1`, so the row is emitted, with or without the error flag. -/
theorem rasqal_filter_coercion_value_decides_witness :
    rasqal_demo_filter_env_error.evaluate
        (rasqal_demo_pull [some (.string "abc")]).vars_table (.var 0) 0 =
        some (.string "abc") ∧
      rasqal_filter_rowsource_read_row
          { rasqal_demo_filter_env_error with
            as_boolean := fun l' => ((rasqal_demo_filter_env_error.as_boolean l').1, 0) }
          ⟨0, [], [rasqal_demo_pull [some (.string "abc")]], .var 0, 0⟩ =
        rasqal_filter_rowsource_read_row rasqal_demo_filter_env_error
          ⟨0, [], [rasqal_demo_pull [some (.string "abc")]], .var 0, 0⟩ :=
  ⟨by decide,
   (rasqal_filter_coercion_value_decides rasqal_demo_filter_env_error 0 []
      (rasqal_demo_pull [some (.string "abc")]) [] (.var 0) 0 (.string "abc")
      (by decide)).2.2⟩

/-! ## Sort row-source: the row-sort map -/

theorem rasqal_compare_total_zero_symm {α : Type} {cmp : α → α → Int}
    (h : rasqal_compare_total cmp) (a b : α) (hab : cmp a b = 0) : cmp b a = 0 := by
  have h1 := h.flip a b
  have h2 := h.flip b a
  omega

theorem rasqal_compare_total_zero_trans {α : Type} {cmp : α → α → Int}
    (h : rasqal_compare_total cmp) (a b c : α) (hab : cmp a b = 0) (hbc : cmp b c = 0) :
    cmp a c = 0 := by
  have hba := rasqal_compare_total_zero_symm h a b hab
  have hcb := rasqal_compare_total_zero_symm h b c hbc
  have h1 := h.trans a b c (by omega) (by omega)
  have h2 := h.trans c b a (by omega) (by omega)
  have h3 := h.flip a c
  have h4 := h.flip c a
  omega

theorem rasqal_compare_total_lt_trans {α : Type} {cmp : α → α → Int}
    (h : rasqal_compare_total cmp) (a b c : α) (hab : cmp a b ≤ 0) (hbc : cmp b c ≤ 0)
    (hlt : cmp a b < 0 ∨ cmp b c < 0) : cmp a c < 0 := by
  have h1 := h.trans a b c hab hbc
  by_contra hne
  have h0 : cmp a c = 0 := by omega
  have hca := rasqal_compare_total_zero_symm h a c h0
  rcases hlt with hlt | hlt
  · have h2 := h.trans b c a hbc (by omega)
    have h3 := h.flip b a
    omega
  · have h2 := h.trans c a b (by omega) hab
    have h3 := h.flip c b
    omega

section rowsort
variable {L E T : Type} (x : rasqal_sort_env L E T) (d f : Int)

theorem rasqal_row_compare_flip (h : rasqal_compare_total (x.compare f))
    (a b : rasqal_row L) :
    0 < rasqal_engine_rowsort_row_compare x d f a b ↔
      rasqal_engine_rowsort_row_compare x d f b a < 0 := by
  have h1 := h.flip a.order_values b.order_values
  have h2 := h.flip b.order_values a.order_values
  simp only [rasqal_engine_rowsort_row_compare]
  by_cases hab : x.compare f a.order_values b.order_values = 0
  · have hba : x.compare f b.order_values a.order_values = 0 :=
      rasqal_compare_total_zero_symm h _ _ hab
    simp only [hab, hba, ne_eq, not_true_eq_false, if_false]
    split <;> omega
  · have hba : x.compare f b.order_values a.order_values ≠ 0 := fun hba =>
      hab (rasqal_compare_total_zero_symm h _ _ hba)
    simp only [hab, hba, ne_eq, not_false_eq_true, if_true]
    omega

theorem rasqal_row_compare_lt_trans (h : rasqal_compare_total (x.compare f))
    (a b c : rasqal_row L)
    (hab : rasqal_engine_rowsort_row_compare x d f a b < 0)
    (hbc : rasqal_engine_rowsort_row_compare x d f b c < 0) :
    rasqal_engine_rowsort_row_compare x d f a c < 0 := by
  simp only [rasqal_engine_rowsort_row_compare] at hab hbc ⊢
  by_cases e1 : x.compare f a.order_values b.order_values = 0
  · by_cases e2 : x.compare f b.order_values c.order_values = 0
    · have e3 := rasqal_compare_total_zero_trans h _ _ _ e1 e2
      simp only [e1, e2, e3, ne_eq, not_true_eq_false, if_false] at hab hbc ⊢
      by_cases hd : d = 0
      · simp only [hd, ne_eq, not_true_eq_false, if_false] at hab hbc ⊢
        omega
      · simp [hd] at hab
    · simp only [e2, ne_eq, not_false_eq_true, if_true] at hbc
      have := rasqal_compare_total_lt_trans h _ _ _ (le_of_eq e1) (le_of_lt hbc) (Or.inr hbc)
      have hne : x.compare f a.order_values c.order_values ≠ 0 := by omega
      simp only [hne, ne_eq, not_false_eq_true, if_true]
      exact this
  · simp only [e1, ne_eq, not_false_eq_true, if_true] at hab
    have hbc' : x.compare f b.order_values c.order_values ≤ 0 := by
      by_cases e2 : x.compare f b.order_values c.order_values = 0
      · omega
      · simp only [e2, ne_eq, not_false_eq_true, if_true] at hbc
        omega
    have := rasqal_compare_total_lt_trans h _ _ _ (le_of_lt hab) hbc' (Or.inl hab)
    have hne : x.compare f a.order_values c.order_values ≠ 0 := by omega
    simp only [hne, ne_eq, not_false_eq_true, if_true]
    exact this

theorem rasqal_map_insert_status (row : rasqal_row L) (rs : List (rasqal_row L)) :
    (rasqal_map_insert x d f row rs).1 = 0 ∨ (rasqal_map_insert x d f row rs).1 = 1 := by
  induction rs with
  | nil => simp [rasqal_map_insert]
  | cons r rs ih =>
    simp only [rasqal_map_insert]
    split
    · simp
    · split
      · simp
      · exact ih

theorem rasqal_map_insert_accept (row : rasqal_row L) (rs : List (rasqal_row L))
    (h : (rasqal_map_insert x d f row rs).1 = 0) :
    (rasqal_map_insert x d f row rs).2.Perm (row :: rs) := by
  induction rs with
  | nil => simp [rasqal_map_insert]
  | cons r rs ih =>
    simp only [rasqal_map_insert] at h ⊢
    split at h
    · simp at h
    · rename_i hc
      simp only [hc, if_false]
      split at h
      · rename_i hlt
        simp [hlt]
      · rename_i hlt
        simp only [hlt, if_false]
        exact ((ih h).cons r).trans (List.Perm.swap row r rs)

theorem rasqal_map_insert_reject (row : rasqal_row L) (rs : List (rasqal_row L))
    (h : (rasqal_map_insert x d f row rs).1 ≠ 0) :
    (rasqal_map_insert x d f row rs).2 = rs ∧
      ∃ r ∈ rs, rasqal_engine_rowsort_row_compare x d f row r = 0 := by
  induction rs with
  | nil => simp [rasqal_map_insert] at h
  | cons r rs ih =>
    by_cases hc : rasqal_engine_rowsort_row_compare x d f row r = 0
    · refine ⟨?_, r, List.mem_cons_self _ _, hc⟩
      simp [rasqal_map_insert, hc]
    · by_cases hlt : rasqal_engine_rowsort_row_compare x d f row r < 0
      · simp [rasqal_map_insert, hc, hlt] at h
      · simp only [rasqal_map_insert, hc, hlt, if_false] at h ⊢
        obtain ⟨h1, r', hr', h2⟩ := ih h
        exact ⟨by rw [h1], r', List.mem_cons_of_mem _ hr', h2⟩

theorem rasqal_map_insert_mem (row : rasqal_row L) (rs : List (rasqal_row L))
    (y : rasqal_row L) (hy : y ∈ (rasqal_map_insert x d f row rs).2) :
    y = row ∨ y ∈ rs := by
  by_cases h : (rasqal_map_insert x d f row rs).1 = 0
  · exact List.mem_cons.1 ((rasqal_map_insert_accept x d f row rs h).mem_iff.1 hy)
  · rw [(rasqal_map_insert_reject x d f row rs h).1] at hy
    exact Or.inr hy

theorem rasqal_map_insert_sorted (hc : rasqal_compare_total (x.compare f))
    (row : rasqal_row L) (rs : List (rasqal_row L))
    (hs : rasqal_map_sorted x d f rs) :
    rasqal_map_sorted x d f (rasqal_map_insert x d f row rs).2 := by
  induction rs with
  | nil => simp [rasqal_map_insert, rasqal_map_sorted]
  | cons r rs ih =>
    have hs' : rasqal_map_sorted x d f rs := (List.pairwise_cons.1 hs).2
    have hr : ∀ b ∈ rs, rasqal_engine_rowsort_row_compare x d f r b < 0 :=
      (List.pairwise_cons.1 hs).1
    by_cases c0 : rasqal_engine_rowsort_row_compare x d f row r = 0
    · simpa [rasqal_map_insert, c0] using hs
    · by_cases hlt : rasqal_engine_rowsort_row_compare x d f row r < 0
      · simp only [rasqal_map_insert, c0, hlt, if_false, if_true]
        refine List.pairwise_cons.2 ⟨?_, hs⟩
        intro b hb
        rcases List.mem_cons.1 hb with e | e
        · rw [e]; exact hlt
        · exact rasqal_row_compare_lt_trans x d f hc _ _ _ hlt (hr b e)
      · simp only [rasqal_map_insert, c0, hlt, if_false]
        refine List.pairwise_cons.2 ⟨?_, ih hs'⟩
        intro b hb
        rcases rasqal_map_insert_mem x d f row rs b hb with e | e
        · rw [e]
          exact (rasqal_row_compare_flip x d f hc row r).1 (by omega)
        · exact hr b e

theorem rasqal_map_insert_found (hc : rasqal_compare_total (x.compare f))
    (row : rasqal_row L) (rs : List (rasqal_row L))
    (hs : rasqal_map_sorted x d f rs)
    (he : ∃ r ∈ rs, rasqal_engine_rowsort_row_compare x d f row r = 0) :
    (rasqal_map_insert x d f row rs).1 ≠ 0 := by
  induction rs with
  | nil => simp at he
  | cons r rs ih =>
    have hs' : rasqal_map_sorted x d f rs := (List.pairwise_cons.1 hs).2
    have hr : ∀ b ∈ rs, rasqal_engine_rowsort_row_compare x d f r b < 0 :=
      (List.pairwise_cons.1 hs).1
    by_cases c0 : rasqal_engine_rowsort_row_compare x d f row r = 0
    · simp [rasqal_map_insert, c0]
    · obtain ⟨r', hr', e0⟩ := he
      have hmem : r' ∈ rs := by
        rcases List.mem_cons.1 hr' with e | e
        · rw [e] at e0; exact absurd e0 c0
        · exact e
      by_cases hlt : rasqal_engine_rowsort_row_compare x d f row r < 0
      · have := rasqal_row_compare_lt_trans x d f hc _ _ _ hlt (hr r' hmem)
        omega
      · simp only [rasqal_map_insert, c0, hlt, if_false]
        exact ih hs' ⟨r', hmem, e0⟩

theorem rasqal_sort_key_row_offset (q : rasqal_sort_query E) (n : Int)
    (it : rasqal_inner_row L T) (off : Int) :
    (rasqal_sort_rowsource_key_row x q n it off).offset = off := rfl

theorem rasqal_sort_key_row_key (q : rasqal_sort_query E) (n : Int)
    (it : rasqal_inner_row L T) (off : Int) :
    (rasqal_sort_rowsource_key_row x q n it off).order_values =
      rasqal_sort_order_key x q n it := rfl

theorem rasqal_sort_key_row_values (q : rasqal_sort_query E) (n : Int)
    (it : rasqal_inner_row L T) (off : Int) :
    (rasqal_sort_rowsource_key_row x q n it off).values = it.row.values := rfl

theorem rasqal_sort_loop_stable (hc : rasqal_compare_total (x.compare f))
    (q : rasqal_sort_query E) (n : Int) (S : List (rasqal_inner_row L T))
    (M : List (rasqal_row L)) (off : Int)
    (hs : rasqal_map_sorted x 0 f M) (ho : ∀ r ∈ M, r.offset < off) :
    (rasqal_sort_rowsource_loop x q n S ⟨0, f, M⟩ off).1.rows.Perm
        (M ++ rasqal_sort_keyed x q n off S) ∧
      rasqal_map_sorted x 0 f (rasqal_sort_rowsource_loop x q n S ⟨0, f, M⟩ off).1.rows ∧
      (rasqal_sort_rowsource_loop x q n S ⟨0, f, M⟩ off).2 = off + S.length := by
  induction S generalizing M off with
  | nil => simp [rasqal_sort_rowsource_loop, rasqal_sort_keyed, hs]
  | cons it rest ih =>
    have hacc : (rasqal_map_insert x 0 f (rasqal_sort_rowsource_key_row x q n it off) M).1 = 0 := by
      by_contra hne
      obtain ⟨_, r, hr, h0⟩ := rasqal_map_insert_reject x 0 f _ M hne
      have := ho r hr
      simp only [rasqal_engine_rowsort_row_compare, rasqal_sort_key_row_offset] at h0
      split at h0
      · omega
      · simp at h0; omega
    have hperm := rasqal_map_insert_accept x 0 f _ M hacc
    have hsort := rasqal_map_insert_sorted x 0 f hc
      (rasqal_sort_rowsource_key_row x q n it off) M hs
    have ho' : ∀ r ∈ (rasqal_map_insert x 0 f
        (rasqal_sort_rowsource_key_row x q n it off) M).2, r.offset < off + 1 := by
      intro r hr
      rcases rasqal_map_insert_mem x 0 f _ M r hr with e | e
      · rw [e, rasqal_sort_key_row_offset]; omega
      · have := ho r e; omega
    obtain ⟨h1, h2, h3⟩ := ih _ (off + 1) hsort ho'
    simp only [rasqal_sort_rowsource_loop, rasqal_engine_rowsort_map_add_row, hacc, if_true]
    refine ⟨?_, h2, ?_⟩
    · refine h1.trans ?_
      simp only [rasqal_sort_keyed]
      refine (List.Perm.append_right _ hperm).trans ?_
      simp only [List.cons_append]
      exact List.perm_middle.symm
    · rw [h3]; simp only [List.length_cons, Nat.cast_add, Nat.cast_one]; omega

theorem rasqal_row_compare_distinct (hd : d ≠ 0) (a b : rasqal_row L) :
    rasqal_engine_rowsort_row_compare x d f a b =
      x.compare f a.order_values b.order_values := by
  simp only [rasqal_engine_rowsort_row_compare, hd]
  split <;> simp_all

theorem rasqal_compare_total_refl {α : Type} {cmp : α → α → Int}
    (h : rasqal_compare_total cmp) (a : α) : cmp a a = 0 := by
  have := h.flip a a
  omega

theorem rasqal_sort_loop_distinct (hc : rasqal_compare_total (x.compare f)) (hd : d ≠ 0)
    (q : rasqal_sort_query E) (n : Int) (S : List (rasqal_inner_row L T))
    (M : List (rasqal_row L)) (off : Int)
    (hs : rasqal_map_sorted x d f M) :
    rasqal_map_sorted x d f (rasqal_sort_rowsource_loop x q n S ⟨d, f, M⟩ off).1.rows ∧
    (∀ r ∈ (rasqal_sort_rowsource_loop x q n S ⟨d, f, M⟩ off).1.rows, r ∈ M ∨
      ∃ (i : Nat) (it : rasqal_inner_row L T), S[i]? = some it ∧ r.values = it.row.values ∧
        r.order_values = rasqal_sort_order_key x q n it ∧
        (∀ m ∈ M, x.compare f (rasqal_sort_order_key x q n it) m.order_values ≠ 0) ∧
        ∀ (j : Nat) (jt : rasqal_inner_row L T), j < i → S[j]? = some jt →
          x.compare f (rasqal_sort_order_key x q n jt) (rasqal_sort_order_key x q n it) ≠ 0) ∧
    (∀ it ∈ S, ∃ r ∈ (rasqal_sort_rowsource_loop x q n S ⟨d, f, M⟩ off).1.rows,
      x.compare f (rasqal_sort_order_key x q n it) r.order_values = 0) ∧
    (∀ m ∈ M, m ∈ (rasqal_sort_rowsource_loop x q n S ⟨d, f, M⟩ off).1.rows) := by
  induction S generalizing M off with
  | nil => simp [rasqal_sort_rowsource_loop, hs]
  | cons it rest ih =>
    have hsort := rasqal_map_insert_sorted x d f hc
      (rasqal_sort_rowsource_key_row x q n it off) M hs
    by_cases hacc : (rasqal_map_insert x d f (rasqal_sort_rowsource_key_row x q n it off) M).1 = 0
    · have hperm := rasqal_map_insert_accept x d f _ M hacc
      have hnone : ∀ m ∈ M, x.compare f (rasqal_sort_order_key x q n it) m.order_values ≠ 0 := by
        intro m hm h0
        refine rasqal_map_insert_found x d f hc _ M hs ⟨m, hm, ?_⟩ hacc
        rw [rasqal_row_compare_distinct x d f hd, rasqal_sort_key_row_key]
        exact h0
      obtain ⟨h1, h2, h3, h4⟩ := ih _ (off + 1) hsort
      simp only [rasqal_sort_rowsource_loop, rasqal_engine_rowsort_map_add_row, hacc, if_true]
      refine ⟨h1, ?_, ?_, ?_⟩
      · intro r hr
        rcases h2 r hr with e | ⟨i, it', e1, e2, e3, e4, e5⟩
        · rcases rasqal_map_insert_mem x d f _ M r e with e' | e'
          · right
            refine ⟨0, it, by simp, by rw [e']; rfl, by rw [e']; rfl, hnone, ?_⟩
            intro j jt hj
            omega
          · exact Or.inl e'
        · right
          refine ⟨i + 1, it', by simpa using e1, e2, e3, ?_, ?_⟩
          · intro m hm
            exact e4 m (hperm.mem_iff.2 (List.mem_cons_of_mem _ hm))
          · intro j jt hj hjt
            cases j with
            | zero =>
              simp only [List.getElem?_cons_zero, Option.some.injEq] at hjt
              rw [← hjt]
              intro h0
              have := e4 _ (hperm.mem_iff.2 (List.mem_cons_self _ _))
              rw [rasqal_sort_key_row_key] at this
              exact this (rasqal_compare_total_zero_symm hc _ _ h0)
            | succ j =>
              simp only [List.getElem?_cons_succ] at hjt
              exact e5 j jt (by omega) hjt
      · intro it' hit'
        rcases List.mem_cons.1 hit' with e | e
        · refine ⟨_, h4 _ (hperm.mem_iff.2 (List.mem_cons_self _ _)), ?_⟩
          rw [e, rasqal_sort_key_row_key]
          exact rasqal_compare_total_refl hc _
        · exact h3 it' e
      · intro m hm
        exact h4 m (hperm.mem_iff.2 (List.mem_cons_of_mem _ hm))
    · obtain ⟨hrej, m0, hm0, h0⟩ := rasqal_map_insert_reject x d f _ M hacc
      rw [rasqal_row_compare_distinct x d f hd, rasqal_sort_key_row_key] at h0
      obtain ⟨h1, h2, h3, h4⟩ := ih M off hs
      simp only [rasqal_sort_rowsource_loop, rasqal_engine_rowsort_map_add_row, hacc, if_false,
        hrej]
      refine ⟨h1, ?_, ?_, h4⟩
      · intro r hr
        rcases h2 r hr with e | ⟨i, it', e1, e2, e3, e4, e5⟩
        · exact Or.inl e
        · right
          refine ⟨i + 1, it', by simpa using e1, e2, e3, e4, ?_⟩
          intro j jt hj hjt
          cases j with
          | zero =>
            simp only [List.getElem?_cons_zero, Option.some.injEq] at hjt
            rw [← hjt]
            intro h0'
            exact e4 m0 hm0 (rasqal_compare_total_zero_trans hc _ _ _
              (rasqal_compare_total_zero_symm hc _ _ h0') h0)
          | succ j =>
            simp only [List.getElem?_cons_succ] at hjt
            exact e5 j jt (by omega) hjt
      · intro it' hit'
        rcases List.mem_cons.1 hit' with e | e
        · exact ⟨m0, h4 m0 hm0, by rw [e]; exact h0⟩
        · exact h3 it' e

end rowsort


/-! ## Sort row-source: `read_all_rows` in sort mode -/

section sortmode
variable {L E T : Type} (x : rasqal_sort_env L E T)

theorem rasqal_sort_keyed_length (q : rasqal_sort_query E) (n : Int) (off : Int)
    (S : List (rasqal_inner_row L T)) :
    (rasqal_sort_keyed x q n off S).length = S.length := by
  induction S generalizing off with
  | nil => rfl
  | cons it rest ih => simp [rasqal_sort_keyed, ih]

theorem rasqal_sort_keyed_values (q : rasqal_sort_query E) (n : Int) (off : Int)
    (S : List (rasqal_inner_row L T)) :
    (rasqal_sort_keyed x q n off S).map (fun r => r.values) =
      S.map (fun it => it.row.values) := by
  induction S generalizing off with
  | nil => rfl
  | cons it rest ih => simp [rasqal_sort_keyed, ih, rasqal_sort_key_row_values]

theorem rasqal_sort_keyed_getElem (q : rasqal_sort_query E) (n : Int) (off : Int)
    (S : List (rasqal_inner_row L T)) (k : Nat) (it : rasqal_inner_row L T)
    (h : S[k]? = some it) :
    (rasqal_sort_keyed x q n off S)[k]? =
      some (rasqal_sort_rowsource_key_row x q n it (off + k)) := by
  induction S generalizing off k with
  | nil => simp at h
  | cons a rest ih =>
    cases k with
    | zero =>
      simp only [List.getElem?_cons_zero, Option.some.injEq] at h
      simp [rasqal_sort_keyed, h]
    | succ k =>
      simp only [List.getElem?_cons_succ] at h
      simp only [rasqal_sort_keyed, List.getElem?_cons_succ]
      rw [ih (off + 1) k h]
      simp only [Nat.cast_add, Nat.cast_one]
      congr 2
      omega

/-- On a map that is not `NULL` the loop of `rasqal_sort_rowsource_process`
leaves the map, the offset and the record that `rasqal_sort_rowsource_loop` and
`rasqal_sort_rowsource_loop_trace` give. -/
theorem rasqal_sort_rowsource_while_some (q : rasqal_sort_query E) (n : Int)
    (S : List (rasqal_inner_row L T)) (map : rasqal_map L) (off : Int) :
    rasqal_sort_rowsource_while x q n S (some map) off =
      (some (rasqal_sort_rowsource_loop x q n S map off).1,
       (rasqal_sort_rowsource_loop x q n S map off).2,
       rasqal_sort_rowsource_loop_trace x q n S map off) := by
  induction S generalizing map off with
  | nil => rfl
  | cons it rest ih =>
    simp only [rasqal_sort_rowsource_while, rasqal_engine_rowsort_map_add_row_to,
      rasqal_sort_rowsource_loop, rasqal_sort_rowsource_loop_trace, ih]
    split <;> rfl

/-- On a `NULL` map the loop of `rasqal_sort_rowsource_process` accepts no row:
the map stays `NULL` and the offset where it was. -/
theorem rasqal_sort_rowsource_while_null (q : rasqal_sort_query E) (n : Int)
    (S : List (rasqal_inner_row L T)) (off : Int) :
    (rasqal_sort_rowsource_while x q n S none off).1 = none ∧
    (rasqal_sort_rowsource_while x q n S none off).2.1 = off := by
  induction S with
  | nil => exact ⟨rfl, rfl⟩
  | cons it rest ih =>
    simp only [rasqal_sort_rowsource_while, rasqal_engine_rowsort_map_add_row_to]
    exact ih

/-- `rasqal_sort_rowsource_process` returns on every path. -/
theorem rasqal_sort_rowsource_process_returns (seq_alloc_ok : Bool)
    (con : rasqal_sort_rowsource_context L E T) :
    (rasqal_sort_rowsource_process x seq_alloc_ok con).isSome = true := by
  unfold rasqal_sort_rowsource_process
  cases con.seq with
  | some s => rfl
  | none => cases seq_alloc_ok <;> rfl

/-- In sort mode, after `init`, `read_all_rows` hands out the rows of the map
the loop has filled from an empty map. -/
theorem rasqal_sort_read_all_rows_eq (con0 : rasqal_sort_rowsource_context L E T)
    (conds : List E) (hq : con0.query.order_conditions_sequence = some conds)
    (hne : conds ≠ []) :
    (rasqal_sort_rowsource_init true con0).1 = 0 ∧
    (rasqal_sort_rowsource_read_all_rows x true (rasqal_sort_rowsource_init true con0).2).map
        (fun p => p.1) =
      some (some (raptor_sequence.rows
        (rasqal_sort_rowsource_loop x con0.query conds.length con0.rowsource
          ⟨con0.query.distinct, con0.query.compare_flags, []⟩ 0).1.rows)) := by
  have hpos : (0 : Int) < (conds.length : Int) := by
    cases conds with
    | nil => exact absurd rfl hne
    | cons a l => simp only [List.length_cons, Nat.cast_add, Nat.cast_one]; omega
  have hnle : ¬ ((conds.length : Int) ≤ 0) := by omega
  simp [rasqal_sort_rowsource_init, rasqal_engine_new_rowsort_map, hq, hpos,
    rasqal_sort_rowsource_read_all_rows, rasqal_sort_rowsource_process, hnle,
    rasqal_engine_rowsort_map_to_sequence, rasqal_sort_rowsource_while_some,
    rasqal_engine_rowsort_map_drain]

theorem rasqal_demo_compare_total :
    rasqal_compare_total (rasqal_demo_sort_env.compare 0) where
  flip := by
    intro a b
    simp only [rasqal_demo_sort_env]
    omega
  trans := by
    intro a b c
    simp only [rasqal_demo_sort_env]
    omega

/-- C3: in sort mode (a non-empty order-conditions sequence) with distinct off,
`read_all_rows` after `init` returns a sequence that holds exactly the rows
pulled from the inner source, each keyed and numbered by the loop (same rows,
same count, same values) and arranged in non-decreasing order of their
order-keys under the map's comparator. -/
theorem rasqal_sort_read_all_rows_sorted (con0 : rasqal_sort_rowsource_context L E T)
    (conds : List E) (hq : con0.query.order_conditions_sequence = some conds)
    (hne : conds ≠ []) (hd : con0.query.distinct = 0)
    (hc : rasqal_compare_total (x.compare con0.query.compare_flags)) :
    ∃ out : List (rasqal_row L),
      (rasqal_sort_rowsource_read_all_rows x true
          (rasqal_sort_rowsource_init true con0).2).map (fun p => p.1) =
        some (some (raptor_sequence.rows out)) ∧
      out.Perm (rasqal_sort_keyed x con0.query conds.length 0 con0.rowsource) ∧
      out.length = con0.rowsource.length ∧
      (out.map (fun r => r.values)).Perm (con0.rowsource.map (fun it => it.row.values)) ∧
      out.Pairwise (fun a b =>
        x.compare con0.query.compare_flags a.order_values b.order_values ≤ 0) := by
  have heq := (rasqal_sort_read_all_rows_eq x con0 conds hq hne).2
  rw [hd] at heq
  obtain ⟨h1, h2, _⟩ := rasqal_sort_loop_stable x con0.query.compare_flags hc con0.query
    conds.length con0.rowsource [] 0 List.Pairwise.nil (by simp)
  simp only [List.nil_append] at h1
  refine ⟨_, heq, h1, ?_, ?_, ?_⟩
  · rw [h1.length_eq, rasqal_sort_keyed_length]
  · have := h1.map (fun r => r.values)
    rwa [rasqal_sort_keyed_values] at this
  · refine List.Pairwise.imp ?_ h2
    intro a b hab
    simp only [rasqal_engine_rowsort_row_compare] at hab
    split at hab
    · omega
    · rename_i h0
      simp only [ne_eq, not_not] at h0
      omega

/-- Scenario S3: inner `?0` = 3, 1, 2 ordered by `ASC(?0)` comes out as
1, 2, 3. -/
theorem rasqal_sort_read_all_rows_sorted_witness :
    (rasqal_demo_sort_context 0
        [[some (.integer 3)], [some (.integer 1)], [some (.integer 2)]]).query.distinct = 0 ∧
    (∃ out : List (rasqal_row rasqal_demo_literal),
      (rasqal_sort_rowsource_read_all_rows rasqal_demo_sort_env true
          (rasqal_sort_rowsource_init true (rasqal_demo_sort_context 0
            [[some (.integer 3)], [some (.integer 1)], [some (.integer 2)]])).2).map
          (fun p => p.1) = some (some (raptor_sequence.rows out)) ∧
      out.map (fun r => r.values) =
        [[some (.integer 1)], [some (.integer 2)], [some (.integer 3)]] ∧
      out.Pairwise (fun a b =>
        rasqal_demo_sort_env.compare 0 a.order_values b.order_values ≤ 0)) := by
  obtain ⟨out, h1, _, _, _, h5⟩ := rasqal_sort_read_all_rows_sorted rasqal_demo_sort_env
    (rasqal_demo_sort_context 0
      [[some (.integer 3)], [some (.integer 1)], [some (.integer 2)]])
    [.var 0] rfl (by decide) rfl rasqal_demo_compare_total
  refine ⟨rfl, out, h1, ?_, h5⟩
  have h2 : (rasqal_sort_rowsource_read_all_rows rasqal_demo_sort_env true
      (rasqal_sort_rowsource_init true (rasqal_demo_sort_context 0
        [[some (.integer 3)], [some (.integer 1)], [some (.integer 2)]])).2).map
      (fun p => p.1) = some (some (raptor_sequence.rows
        [⟨[some (.integer 1)], [some (.integer 1)], 1⟩,
         ⟨[some (.integer 2)], [some (.integer 2)], 2⟩,
         ⟨[some (.integer 3)], [some (.integer 3)], 0⟩])) := by decide
  rw [h2] at h1
  simp only [Option.some.injEq, raptor_sequence.rows.injEq] at h1
  rw [← h1]
  rfl

/-- C4: sort stability.  With distinct off, the row pulled `k`-th from the
inner source carries pre-sort offset `k`, and of two rows of the returned
sequence whose order-keys compare equal the one that comes first is the one
with the smaller offset, that is, the one pulled first. -/
theorem rasqal_sort_read_all_rows_stable (con0 : rasqal_sort_rowsource_context L E T)
    (conds : List E) (hq : con0.query.order_conditions_sequence = some conds)
    (hne : conds ≠ []) (hd : con0.query.distinct = 0)
    (hc : rasqal_compare_total (x.compare con0.query.compare_flags)) :
    ∃ out : List (rasqal_row L),
      (rasqal_sort_rowsource_read_all_rows x true
          (rasqal_sort_rowsource_init true con0).2).map (fun p => p.1) =
        some (some (raptor_sequence.rows out)) ∧
      out.Perm (rasqal_sort_keyed x con0.query conds.length 0 con0.rowsource) ∧
      (∀ (k : Nat) (it : rasqal_inner_row L T), con0.rowsource[k]? = some it →
        (rasqal_sort_keyed x con0.query conds.length 0 con0.rowsource)[k]? =
          some (rasqal_sort_rowsource_key_row x con0.query conds.length it k)) ∧
      ∀ i j : Fin out.length,
        x.compare con0.query.compare_flags (out.get i).order_values
          (out.get j).order_values = 0 →
        (i < j ↔ (out.get i).offset < (out.get j).offset) := by
  have heq := (rasqal_sort_read_all_rows_eq x con0 conds hq hne).2
  rw [hd] at heq
  obtain ⟨h1, h2, _⟩ := rasqal_sort_loop_stable x con0.query.compare_flags hc con0.query
    conds.length con0.rowsource [] 0 List.Pairwise.nil (by simp)
  simp only [List.nil_append] at h1
  generalize (rasqal_sort_rowsource_loop x con0.query conds.length con0.rowsource
    ⟨0, con0.query.compare_flags, []⟩ 0).1.rows = out at heq h1 h2
  refine ⟨out, heq, h1, ?_, ?_⟩
  · intro k it hk
    have := rasqal_sort_keyed_getElem x con0.query conds.length 0 con0.rowsource k it hk
    simpa using this
  · have hget := List.pairwise_iff_get.1 h2
    have hlt : ∀ a b : Fin out.length, a < b →
        x.compare con0.query.compare_flags (out.get a).order_values
          (out.get b).order_values = 0 →
        (out.get a).offset < (out.get b).offset := by
      intro a b hab h0
      have := hget a b hab
      simp only [rasqal_engine_rowsort_row_compare, h0, ne_eq, not_true_eq_false,
        if_false] at this
      omega
    intro i j h0
    constructor
    · intro hij
      exact hlt i j hij h0
    · intro hoff
      by_contra hnlt
      rcases lt_or_eq_of_le (not_lt.1 hnlt) with hji | hji
      · have := hlt j i hji (rasqal_compare_total_zero_symm hc _ _ h0)
        omega
      · rw [hji] at hoff
        omega

/-- Scenario S4: the rows `?0=1,?1='a'` and `?0=1,?1='b'` ordered by `ASC(?0)`
keep their order. -/
theorem rasqal_sort_read_all_rows_stable_witness :
    (rasqal_demo_sort_context 0 [[some (.integer 1), some (.string "a")],
        [some (.integer 1), some (.string "b")]]).query.distinct = 0 ∧
    (∃ out : List (rasqal_row rasqal_demo_literal),
      (rasqal_sort_rowsource_read_all_rows rasqal_demo_sort_env true
          (rasqal_sort_rowsource_init true (rasqal_demo_sort_context 0
            [[some (.integer 1), some (.string "a")],
             [some (.integer 1), some (.string "b")]])).2).map
          (fun p => p.1) = some (some (raptor_sequence.rows out)) ∧
      out.map (fun r => r.values) =
        [[some (.integer 1), some (.string "a")], [some (.integer 1), some (.string "b")]] ∧
      ∀ i j : Fin out.length,
        rasqal_demo_sort_env.compare 0 (out.get i).order_values
          (out.get j).order_values = 0 →
        (i < j ↔ (out.get i).offset < (out.get j).offset)) := by
  obtain ⟨out, h1, _, _, h4⟩ := rasqal_sort_read_all_rows_stable rasqal_demo_sort_env
    (rasqal_demo_sort_context 0 [[some (.integer 1), some (.string "a")],
      [some (.integer 1), some (.string "b")]])
    [.var 0] rfl (by decide) rfl rasqal_demo_compare_total
  refine ⟨rfl, out, h1, ?_, h4⟩
  have h2 : (rasqal_sort_rowsource_read_all_rows rasqal_demo_sort_env true
      (rasqal_sort_rowsource_init true (rasqal_demo_sort_context 0
        [[some (.integer 1), some (.string "a")],
         [some (.integer 1), some (.string "b")]])).2).map
      (fun p => p.1) = some (some (raptor_sequence.rows
        [⟨[some (.integer 1), some (.string "a")], [some (.integer 1)], 0⟩,
         ⟨[some (.integer 1), some (.string "b")], [some (.integer 1)], 1⟩])) := by decide
  rw [h2] at h1
  simp only [Option.some.injEq, raptor_sequence.rows.injEq] at h1
  rw [← h1]
  rfl

/-- C5: with `query.distinct` set and a non-empty order-conditions sequence,
the sequence `read_all_rows` returns after `init` is strictly increasing in
the order-keys, so no two of its rows have equal order-keys; each of its rows
is a pulled row with no earlier pulled row of an equal order-key; and every
order-key pulled is present. -/
theorem rasqal_sort_read_all_rows_distinct (con0 : rasqal_sort_rowsource_context L E T)
    (conds : List E) (hq : con0.query.order_conditions_sequence = some conds)
    (hne : conds ≠ []) (hd : con0.query.distinct ≠ 0)
    (hc : rasqal_compare_total (x.compare con0.query.compare_flags)) :
    ∃ out : List (rasqal_row L),
      (rasqal_sort_rowsource_read_all_rows x true
          (rasqal_sort_rowsource_init true con0).2).map (fun p => p.1) =
        some (some (raptor_sequence.rows out)) ∧
      out.Pairwise (fun a b =>
        x.compare con0.query.compare_flags a.order_values b.order_values < 0) ∧
      (∀ r ∈ out, ∃ (i : Nat) (it : rasqal_inner_row L T),
        con0.rowsource[i]? = some it ∧ r.values = it.row.values ∧
        r.order_values = rasqal_sort_order_key x con0.query conds.length it ∧
        ∀ (j : Nat) (jt : rasqal_inner_row L T), j < i → con0.rowsource[j]? = some jt →
          x.compare con0.query.compare_flags
            (rasqal_sort_order_key x con0.query conds.length jt)
            (rasqal_sort_order_key x con0.query conds.length it) ≠ 0) ∧
      (∀ it ∈ con0.rowsource, ∃ r ∈ out,
        x.compare con0.query.compare_flags
          (rasqal_sort_order_key x con0.query conds.length it) r.order_values = 0) := by
  have heq := (rasqal_sort_read_all_rows_eq x con0 conds hq hne).2
  obtain ⟨h1, h2, h3, _⟩ := rasqal_sort_loop_distinct x con0.query.distinct
    con0.query.compare_flags hc hd con0.query conds.length con0.rowsource [] 0
    List.Pairwise.nil
  refine ⟨_, heq, ?_, ?_, h3⟩
  · refine List.Pairwise.imp ?_ h1
    intro a b hab
    rwa [rasqal_row_compare_distinct x _ _ hd] at hab
  · intro r hr
    rcases h2 r hr with e | ⟨i, it, e1, e2, e3, _, e5⟩
    · simp at e
    · exact ⟨i, it, e1, e2, e3, e5⟩

/-- Scenario S5: with distinct on, the rows `?0=1,?1='a'` and `?0=1,?1='b'`
ordered by `ASC(?0)` give exactly one row, the first. -/
theorem rasqal_sort_read_all_rows_distinct_witness :
    (rasqal_demo_sort_context 1 [[some (.integer 1), some (.string "a")],
        [some (.integer 1), some (.string "b")]]).query.distinct ≠ 0 ∧
    (∃ out : List (rasqal_row rasqal_demo_literal),
      (rasqal_sort_rowsource_read_all_rows rasqal_demo_sort_env true
          (rasqal_sort_rowsource_init true (rasqal_demo_sort_context 1
            [[some (.integer 1), some (.string "a")],
             [some (.integer 1), some (.string "b")]])).2).map
          (fun p => p.1) = some (some (raptor_sequence.rows out)) ∧
      out.map (fun r => r.values) = [[some (.integer 1), some (.string "a")]] ∧
      out.Pairwise (fun a b =>
        rasqal_demo_sort_env.compare 0 a.order_values b.order_values < 0)) := by
  obtain ⟨out, h1, h2, _, _⟩ := rasqal_sort_read_all_rows_distinct rasqal_demo_sort_env
    (rasqal_demo_sort_context 1 [[some (.integer 1), some (.string "a")],
      [some (.integer 1), some (.string "b")]])
    [.var 0] rfl (by decide) (by decide) rasqal_demo_compare_total
  refine ⟨by decide, out, h1, ?_, h2⟩
  have h3 : (rasqal_sort_rowsource_read_all_rows rasqal_demo_sort_env true
      (rasqal_sort_rowsource_init true (rasqal_demo_sort_context 1
        [[some (.integer 1), some (.string "a")],
         [some (.integer 1), some (.string "b")]])).2).map
      (fun p => p.1) = some (some (raptor_sequence.rows
        [⟨[some (.integer 1), some (.string "a")], [some (.integer 1)], 0⟩])) := by decide
  rw [h3] at h1
  simp only [Option.some.injEq, raptor_sequence.rows.injEq] at h1
  rw [← h1]
  rfl

end sortmode

/-! ## Query object: references, guards and the result iterator -/

section query
variable {L : Type}

theorem rasqal_query_results_unlink_eq_erase (r : rasqal_query_results)
    (l : List rasqal_query_results) : rasqal_query_results_unlink r l = l.erase r := by
  induction l with
  | nil => rfl
  | cons a l ih =>
    by_cases h : a = r
    · simp [rasqal_query_results_unlink, h]
    · simp [rasqal_query_results_unlink, h, ih, List.erase_cons_tail]

theorem rasqal_free_query_keep (q : rasqal_query L) (h : q.usage - 1 ≠ 0) :
    rasqal_free_query q = { q with usage := q.usage - 1 } := by
  simp [rasqal_free_query, h]

theorem rasqal_free_query_last (q : rasqal_query L) (h : q.usage - 1 = 0) :
    (rasqal_free_query q).freed = true ∧ (rasqal_free_query q).usage = 0 ∧
      (rasqal_free_query q).results = q.results := by
  simp only [rasqal_free_query, h, ne_eq, not_true_eq_false, if_false]
  split <;> simp

theorem rasqal_free_query_effect (q : rasqal_query L) :
    (rasqal_free_query q).usage = q.usage - 1 ∧
    (rasqal_free_query q).results = q.results ∧
    (rasqal_free_query q).freed = (if q.usage - 1 = 0 then true else q.freed) := by
  simp only [rasqal_free_query]
  by_cases h : q.usage - 1 = 0
  · simp only [h, ne_eq, not_true_eq_false, if_false, if_true]
    split <;> simp
  · simp [h]

theorem rasqal_free_query_results_effect (q : rasqal_query L) (r : rasqal_query_results) :
    (rasqal_free_query_results (some r) q).usage = q.usage - 1 ∧
    (rasqal_free_query_results (some r) q).results = q.results.erase r ∧
    (rasqal_free_query_results (some r) q).freed =
      (if q.usage - 1 = 0 then true else q.freed) := by
  have := rasqal_free_query_effect
    { q with results := rasqal_query_results_unlink r q.results }
  simp only [rasqal_query_results_unlink_eq_erase] at this
  simpa [rasqal_free_query_results, rasqal_query_remove_query_result,
    rasqal_query_results_unlink_eq_erase] using this

theorem rasqal_query_prepare_frame (q : rasqal_query L) (qs bu : Option String)
    (cwd : String) (hook : rasqal_engine_reply L) :
    (rasqal_query_prepare q qs bu cwd hook).2.usage = q.usage ∧
    (rasqal_query_prepare q qs bu cwd hook).2.results = q.results ∧
    (rasqal_query_prepare q qs bu cwd hook).2.freed = q.freed ∧
    (q.failed = true → (rasqal_query_prepare q qs bu cwd hook).2.failed = true) := by
  simp only [rasqal_query_prepare]
  split
  · simp
  · split
    · simp
    · cases qs <;> (simp only [rasqal_engine_called]; split <;> simp)

theorem rasqal_query_results_next_frame (r : Option rasqal_query_results)
    (q : rasqal_query L) (next : rasqal_engine_reply L) :
    (rasqal_query_results_next r q next).2.usage = q.usage ∧
    (rasqal_query_results_next r q next).2.results = q.results ∧
    (rasqal_query_results_next r q next).2.freed = q.freed ∧
    (q.failed = true → (rasqal_query_results_next r q next).2.failed = true) := by
  cases r with
  | none => simp [rasqal_query_results_next]
  | some r =>
    simp only [rasqal_query_results_next]
    split
    · simp
    · simp only [rasqal_engine_called]
      split <;> split <;> simp

theorem rasqal_query_execute_frame (q : rasqal_query L) (addr : Nat)
    (init : rasqal_engine_reply L) (hook : Option (rasqal_engine_reply L))
    (next : rasqal_engine_reply L) :
    ((rasqal_query_execute q addr init hook next).1 = none ∧
      (rasqal_query_execute q addr init hook next).2.usage = q.usage ∧
      (rasqal_query_execute q addr init hook next).2.results = q.results ∧
      (rasqal_query_execute q addr init hook next).2.freed = q.freed) ∨
    ((rasqal_query_execute q addr init hook next).1 = some ⟨addr⟩ ∧
      (rasqal_query_execute q addr init hook next).2.usage = q.usage + 1 ∧
      (rasqal_query_execute q addr init hook next).2.results = ⟨addr⟩ :: q.results ∧
      (rasqal_query_execute q addr init hook next).2.freed = q.freed) := by
  simp only [rasqal_query_execute]
  split
  · simp
  · split
    · simp
    · split
      · simp [rasqal_engine_called]
      · cases hook with
        | none =>
          right
          have := rasqal_query_results_next_frame (some ⟨addr⟩)
            (rasqal_query_add_query_result
              (rasqal_engine_called { q with executed := true }
                rasqal_engine_call.execute_init init) ⟨addr⟩) next
          simp only [this.1, this.2.1, this.2.2.1]
          simp [rasqal_query_add_query_result, rasqal_engine_called]
        | some h =>
          simp only
          split
          · simp [rasqal_engine_called]
          · right
            have := rasqal_query_results_next_frame (some ⟨addr⟩)
              (rasqal_query_add_query_result
                (rasqal_engine_called (rasqal_engine_called { q with executed := true }
                  rasqal_engine_call.execute_init init)
                  rasqal_engine_call.factory_execute h) ⟨addr⟩) next
            simp only [this.1, this.2.1, this.2.2.1]
            simp [rasqal_query_add_query_result, rasqal_engine_called]

theorem rasqal_query_execute_failed (q : rasqal_query L) (addr : Nat)
    (init : rasqal_engine_reply L) (hook : Option (rasqal_engine_reply L))
    (next : rasqal_engine_reply L) (h : q.failed = true) :
    rasqal_query_execute q addr init hook next = (none, q) := by
  simp [rasqal_query_execute, h]

theorem rasqal_free_query_failed (q : rasqal_query L) (h : q.failed = true) :
    (rasqal_free_query q).failed = true := by
  simp only [rasqal_free_query]
  split
  · exact h
  · split <;> exact h
theorem rasqal_client_step_ok (s s' : rasqal_client L) (c : rasqal_api_call L)
    (hs : rasqal_client_ok s) (h : rasqal_client_step s c = some s') :
    rasqal_client_ok s' := by
  obtain ⟨hu, hr, hf, hn⟩ := hs
  cases c with
  | prepare qs bu cwd hook =>
    simp only [rasqal_client_step] at h
    split at h
    · rename_i hc
      simp only [Option.some.injEq] at h
      subst h
      obtain ⟨f1, f2, f3, _⟩ := rasqal_query_prepare_frame s.query qs bu cwd hook
      exact ⟨by simp only [f1]; exact hu, by simp only [f2]; exact hr,
        by simp only [f3]; exact hf, hn⟩
    · simp at h
  | execute addr init hook next =>
    simp only [rasqal_client_step] at h
    split at h
    · rename_i hc
      rcases rasqal_query_execute_frame s.query addr init hook next with
        ⟨e1, e2, e3, e4⟩ | ⟨e1, e2, e3, e4⟩
      · split at h
        · rename_i q heq
          simp only [Option.some.injEq] at h
          subst h
          rw [heq] at e2 e3 e4
          dsimp only at e2 e3 e4 ⊢
          exact ⟨by rw [e2]; exact hu, by rw [e3]; exact hr, by rw [e4]; exact hf, hn⟩
        · rename_i r q heq
          rw [heq] at e1
          simp at e1
      · split at h
        · rename_i q heq
          rw [heq] at e1
          simp at e1
        · rename_i r q heq
          simp only [Option.some.injEq] at h
          subst h
          rw [heq] at e1 e2 e3 e4
          dsimp only at e1 e2 e3 e4 ⊢
          simp only [Option.some.injEq] at e1
          subst e1
          have hnf : s.query.freed = false := by
            cases hfr : s.query.freed with
            | false => rfl
            | true => have := (hf.1 hfr).1; simp [hc.1] at this
          refine ⟨?_, ?_, ?_, ?_⟩
          · rw [e2, hu]
            simp only [List.length_cons, Nat.cast_add, Nat.cast_one]
            omega
          · rw [e3, hr]
          · rw [e4, hnf]
            simp
          · exact List.nodup_cons.2 ⟨hc.2, hn⟩
    · simp at h
  | results_next r next =>
    simp only [rasqal_client_step] at h
    split at h
    · simp only [Option.some.injEq] at h
      subst h
      obtain ⟨f1, f2, f3, _⟩ := rasqal_query_results_next_frame (some r) s.query next
      exact ⟨by simp only [f1]; exact hu, by simp only [f2]; exact hr,
        by simp only [f3]; exact hf, hn⟩
    · simp at h
  | free_query =>
    simp only [rasqal_client_step] at h
    split at h
    · rename_i hc
      simp only [Option.some.injEq] at h
      subst h
      obtain ⟨g1, g2, g3⟩ := rasqal_free_query_effect s.query
      simp only [hc, if_true] at hu
      have hnf : s.query.freed = false := by
        cases hfr : s.query.freed with
        | false => rfl
        | true => have := (hf.1 hfr).1; simp [hc] at this
      refine ⟨?_, ?_, ?_, hn⟩
      · simp only [g1, hu]; simp
      · simp only [g2, hr]
      · simp only [g3, hnf, hu]
        by_cases hl : s.iterators = []
        · simp [hl]
        · have hpos : 0 < s.iterators.length := List.length_pos.2 hl
          have : ¬ ((1 : Int) + (s.iterators.length : Int) - 1 = 0) := by omega
          simp [this, hl]
    · simp at h
  | free_query_results r =>
    simp only [rasqal_client_step] at h
    split at h
    · rename_i hmem
      simp only [Option.some.injEq] at h
      subst h
      obtain ⟨g1, g2, g3⟩ := rasqal_free_query_results_effect s.query r
      have hnf : s.query.freed = false := by
        cases hfr : s.query.freed with
        | false => rfl
        | true =>
          have := (hf.1 hfr).2
          rw [this] at hmem
          simp at hmem
      have hlen : (s.iterators.erase r).length = s.iterators.length - 1 :=
        List.length_erase_of_mem hmem
      have hpos : 0 < s.iterators.length := List.length_pos_of_mem hmem
      refine ⟨?_, ?_, ?_, hn.erase r⟩
      · simp only [g1, hu, hlen]
        omega
      · simp only [g2, hr]
      · simp only [g3, hnf, hu]
        have hnil : s.iterators.erase r = [] ↔ s.iterators.length = 1 := by
          constructor
          · intro he
            have := congrArg List.length he
            simp only [hlen, List.length_nil] at this
            omega
          · intro h1
            apply List.eq_nil_of_length_eq_zero
            omega
        cases hcv : s.creator with
        | true =>
          have : ¬ ((1 : Int) + (s.iterators.length : Int) - 1 = 0) := by omega
          simp [this, List.ne_nil_of_mem hmem]
        | false =>
          by_cases h1 : s.iterators.length = 1
          · simp [h1, hnil.2 h1]
          · have : ¬ ((0 : Int) + (s.iterators.length : Int) - 1 = 0) := by omega
            simp only [Bool.false_eq_true, if_false, this, true_and]
            constructor
            · intro hfr; simp at hfr
            · intro he; exact absurd (hnil.1 he) h1
    · simp at h

theorem rasqal_client_run_ok (s s' : rasqal_client L) (cs : List (rasqal_api_call L))
    (hs : rasqal_client_ok s) (h : rasqal_client_run s cs = some s') :
    rasqal_client_ok s' := by
  induction cs generalizing s with
  | nil =>
    simp only [rasqal_client_run, Option.some.injEq] at h
    subst h
    exact hs
  | cons c cs ih =>
    simp only [rasqal_client_run] at h
    split at h
    · simp at h
    · rename_i s1 hstep
      exact ih s1 (rasqal_client_step_ok s s1 c hs hstep) h

theorem rasqal_new_query_ok (ff qa ca : Bool) (init : rasqal_engine_reply L)
    (q0 : rasqal_query L) (h : rasqal_new_query ff qa ca init = some q0) :
    rasqal_client_ok (rasqal_client_new q0) := by
  simp only [rasqal_new_query] at h
  split at h
  · simp at h
  · split at h
    · simp at h
    · split at h
      · simp at h
      · split at h
        · simp at h
        · simp only [Option.some.injEq] at h
          subst h
          simp [rasqal_client_ok, rasqal_client_new, rasqal_engine_called, rasqal_query_fresh]

theorem rasqal_client_step_failed (s s' : rasqal_client L) (c : rasqal_api_call L)
    (hf : s.query.failed = true) (h : rasqal_client_step s c = some s') :
    s'.query.failed = true := by
  cases c with
  | prepare qs bu cwd hook =>
    simp only [rasqal_client_step] at h
    split at h
    · simp only [Option.some.injEq] at h
      subst h
      exact (rasqal_query_prepare_frame s.query qs bu cwd hook).2.2.2 hf
    · simp at h
  | execute addr init hook next =>
    simp only [rasqal_client_step, rasqal_query_execute_failed s.query addr init hook next hf]
      at h
    split at h
    · simp only [Option.some.injEq] at h
      subst h
      exact hf
    · simp at h
  | results_next r next =>
    simp only [rasqal_client_step] at h
    split at h
    · simp only [Option.some.injEq] at h
      subst h
      exact (rasqal_query_results_next_frame (some r) s.query next).2.2.2 hf
    · simp at h
  | free_query =>
    simp only [rasqal_client_step] at h
    split at h
    · simp only [Option.some.injEq] at h
      subst h
      exact rasqal_free_query_failed s.query hf
    · simp at h
  | free_query_results r =>
    simp only [rasqal_client_step] at h
    split at h
    · simp only [Option.some.injEq] at h
      subst h
      exact rasqal_free_query_failed
        { s.query with results := rasqal_query_results_unlink r s.query.results } hf
    · simp at h

theorem rasqal_client_run_failed (s s' : rasqal_client L) (cs : List (rasqal_api_call L))
    (hf : s.query.failed = true) (h : rasqal_client_run s cs = some s') :
    s'.query.failed = true := by
  induction cs generalizing s with
  | nil =>
    simp only [rasqal_client_run, Option.some.injEq] at h
    subst h
    exact hf
  | cons c cs ih =>
    simp only [rasqal_client_run] at h
    split at h
    · simp at h
    · rename_i s1 hstep
      exact ih s1 (rasqal_client_step_failed s s1 c hf hstep) h

/-- C6: along every sequence of calls on a query returned by
`rasqal_new_query` in which each reference is used only while held and
released once, the query is not destroyed while a result iterator is live, and
it is destroyed exactly when neither the creator nor an iterator holds a
reference; a `rasqal_free_query` that leaves the usage count above zero changes
nothing but the usage count; and after a successful execute followed by the
creator's free the query is still live with the iterator in its list, and
freeing the iterator destroys it. -/
theorem rasqal_query_destroyed_at_last_release (ff qa ca : Bool)
    (init : rasqal_engine_reply L) (q0 : rasqal_query L)
    (hq : rasqal_new_query ff qa ca init = some q0)
    (calls : List (rasqal_api_call L)) (s : rasqal_client L)
    (hrun : rasqal_client_run (rasqal_client_new q0) calls = some s) :
    (s.iterators ≠ [] → s.query.freed = false) ∧
    (s.query.freed = true ↔ (s.creator = false ∧ s.iterators = [])) ∧
    (∀ q : rasqal_query L, 0 < q.usage - 1 →
      rasqal_free_query q = { q with usage := q.usage - 1 }) ∧
    (s.creator = true → s.iterators = [] →
      ∀ (addr : Nat) (init' : rasqal_engine_reply L) (hook : Option (rasqal_engine_reply L))
        (next : rasqal_engine_reply L) (r : rasqal_query_results) (q1 : rasqal_query L),
        rasqal_query_execute s.query addr init' hook next = (some r, q1) →
        (rasqal_free_query q1).freed = false ∧ (rasqal_free_query q1).results = [r] ∧
        (rasqal_free_query_results (some r) (rasqal_free_query q1)).freed = true) := by
  obtain ⟨hu, hr, hf, hn⟩ := rasqal_client_run_ok _ s calls
    (rasqal_new_query_ok ff qa ca init q0 hq) hrun
  refine ⟨?_, hf, ?_, ?_⟩
  · intro hne
    cases hfr : s.query.freed with
    | false => rfl
    | true => exact absurd (hf.1 hfr).2 hne
  · intro q hpos
    exact rasqal_free_query_keep q (by omega)
  · intro hc hl addr init' hook next r q1 hex
    have hnf : s.query.freed = false := by
      cases hfr : s.query.freed with
      | false => rfl
      | true => have := (hf.1 hfr).1; simp [hc] at this
    rw [hc, hl] at hu
    rw [hl] at hr
    rcases rasqal_query_execute_frame s.query addr init' hook next with
      ⟨e1, _, _, _⟩ | ⟨e1, e2, e3, e4⟩
    · rw [hex] at e1; simp at e1
    · rw [hex] at e1 e2 e3 e4
      dsimp only at e1 e2 e3 e4
      simp only [Option.some.injEq] at e1
      obtain ⟨g1, g2, g3⟩ := rasqal_free_query_effect q1
      obtain ⟨k1, k2, k3⟩ := rasqal_free_query_results_effect (rasqal_free_query q1) r
      have hu1 : q1.usage = 2 := by rw [e2, hu]; simp
      refine ⟨?_, ?_, ?_⟩
      · rw [g3, hu1, e4, hnf]; simp
      · rw [g2, e3, hr, e1]
      · rw [k3, g1, hu1]; simp

/-- Scenario S6: create, execute, free the query: the iterator is live and the
query is not destroyed; then free the iterator: the query is destroyed. -/
theorem rasqal_query_destroyed_at_last_release_witness :
    rasqal_new_query true true true (rasqal_demo_reply 0) = some rasqal_demo_query ∧
    (∃ s : rasqal_client rasqal_demo_literal,
      rasqal_client_run (rasqal_client_new rasqal_demo_query)
        [.execute 7 (rasqal_demo_reply 0) none (rasqal_demo_reply 1), .free_query] = some s ∧
      s.iterators = [⟨7⟩] ∧ s.query.freed = false) ∧
    (∃ s : rasqal_client rasqal_demo_literal,
      rasqal_client_run (rasqal_client_new rasqal_demo_query)
        [.execute 7 (rasqal_demo_reply 0) none (rasqal_demo_reply 1), .free_query,
         .free_query_results ⟨7⟩] = some s ∧
      s.creator = false ∧ s.iterators = [] ∧ s.query.freed = true) := by
  refine ⟨rfl, ⟨_, rfl, rfl, ?_⟩, ⟨_, rfl, rfl, rfl, ?_⟩⟩
  · exact (rasqal_query_destroyed_at_last_release true true true (rasqal_demo_reply 0)
      rasqal_demo_query rfl
      [.execute 7 (rasqal_demo_reply 0) none (rasqal_demo_reply 1), .free_query] _ rfl).1
      (by decide)
  · exact (rasqal_query_destroyed_at_last_release true true true (rasqal_demo_reply 0)
      rasqal_demo_query rfl
      [.execute 7 (rasqal_demo_reply 0) none (rasqal_demo_reply 1), .free_query,
       .free_query_results ⟨7⟩] _ rfl).2.1.2 ⟨rfl, rfl⟩

/-- C7 as stated fails: a query fresh from `rasqal_new_query`, never prepared,
is executed: an iterator is returned and the query is executed without being
prepared. -/
theorem rasqal_query_execute_unprepared :
    rasqal_new_query true true true (rasqal_demo_reply 0) = some rasqal_demo_query ∧
    rasqal_demo_query.prepared = false ∧
    (rasqal_query_execute rasqal_demo_query 7 (rasqal_demo_reply 0) none
      (rasqal_demo_reply 1)).1 = some ⟨7⟩ ∧
    (rasqal_query_execute rasqal_demo_query 7 (rasqal_demo_reply 0) none
      (rasqal_demo_reply 1)).2.executed = true ∧
    (rasqal_query_execute rasqal_demo_query 7 (rasqal_demo_reply 0) none
      (rasqal_demo_reply 1)).2.prepared = false := by
  decide

/-- C7, amended: `rasqal_query_execute` returns null, creating no result
iterator and leaving the query as it was, whenever the query has already been
executed, has failed or is finished; the prepared flag is not consulted: the
iterator returned is the same whatever the flag, and a query that is neither
executed, failed nor finished is executed when the engine and the factory hook
answer `0`, its prepared flag left as it was. -/
theorem rasqal_query_execute_rejects (q : rasqal_query L) (addr : Nat)
    (init : rasqal_engine_reply L) (hook : Option (rasqal_engine_reply L))
    (next : rasqal_engine_reply L) :
    ((q.executed = true ∨ q.failed = true ∨ q.finished = true) →
      rasqal_query_execute q addr init hook next = (none, q)) ∧
    (∀ b : Bool, (rasqal_query_execute { q with prepared := b } addr init hook next).1 =
      (rasqal_query_execute q addr init hook next).1) ∧
    (q.executed = false → q.failed = false → q.finished = false → init.rc = 0 →
      (∀ h, hook = some h → h.rc = 0) →
      (rasqal_query_execute q addr init hook next).1 = some ⟨addr⟩ ∧
      (rasqal_query_execute q addr init hook next).2.executed = true ∧
      (rasqal_query_execute q addr init hook next).2.prepared = q.prepared) := by
  refine ⟨?_, ?_, ?_⟩
  · rintro (h | h | h) <;> simp [rasqal_query_execute, h]
  · intro b
    simp only [rasqal_query_execute]
    split
    · rfl
    · split
      · rfl
      · split
        · rfl
        · cases hook with
          | none => rfl
          | some h =>
            simp only
            split <;> rfl
  · intro h1 h2 h3 h4 h5
    cases hook with
    | none =>
      simp only [rasqal_query_execute, h1, h2, h3, h4, rasqal_query_results_next,
        rasqal_query_add_query_result, rasqal_engine_called]
      simp only [Bool.or_self, Bool.false_eq_true, if_false, ne_eq, not_true_eq_false]
      split <;> split <;> simp
    | some h =>
      have := h5 h rfl
      simp only [rasqal_query_execute, h1, h2, h3, h4, this, rasqal_query_results_next,
        rasqal_query_add_query_result, rasqal_engine_called]
      simp only [Bool.or_self, Bool.false_eq_true, if_false, ne_eq, not_true_eq_false]
      split <;> split <;> simp

/-- The amended C7 at a query that is already executed: a second execute
returns null and changes nothing. -/
theorem rasqal_query_execute_rejects_witness :
    (rasqal_query_execute rasqal_demo_query 7 (rasqal_demo_reply 0) none
      (rasqal_demo_reply 1)).2.executed = true ∧
    rasqal_query_execute
        (rasqal_query_execute rasqal_demo_query 7 (rasqal_demo_reply 0) none
          (rasqal_demo_reply 1)).2 8 (rasqal_demo_reply 0) none (rasqal_demo_reply 1) =
      (none, (rasqal_query_execute rasqal_demo_query 7 (rasqal_demo_reply 0) none
          (rasqal_demo_reply 1)).2) :=
  ⟨by decide,
   (rasqal_query_execute_rejects
      (rasqal_query_execute rasqal_demo_query 7 (rasqal_demo_reply 0) none
        (rasqal_demo_reply 1)).2 8 (rasqal_demo_reply 0) none (rasqal_demo_reply 1)).1
      (Or.inl (by decide))⟩

/-- C8: on a query that is already prepared or has failed,
`rasqal_query_prepare` returns `1` and leaves the whole query unchanged; a
prepare that follows a prepare never returns `0`; and once `failed` is set it
stays set along every later sequence of calls, after which every prepare
returns non-zero and every execute returns null. -/
theorem rasqal_query_prepare_rejects (q : rasqal_query L) (query_string base_uri : Option String)
    (cwd_uri : String) (hook : rasqal_engine_reply L) :
    ((q.prepared = true ∨ q.failed = true) →
      rasqal_query_prepare q query_string base_uri cwd_uri hook = (1, q)) ∧
    (∀ (qs bu : Option String) (cwd : String) (hook' : rasqal_engine_reply L),
      (rasqal_query_prepare (rasqal_query_prepare q query_string base_uri cwd_uri hook).2
        qs bu cwd hook').1 ≠ 0) ∧
    (q.failed = true →
      ∀ (s s' : rasqal_client L) (calls : List (rasqal_api_call L)), s.query = q →
        rasqal_client_run s calls = some s' →
        s'.query.failed = true ∧
        (∀ (qs bu : Option String) (cwd : String) (hook' : rasqal_engine_reply L),
          (rasqal_query_prepare s'.query qs bu cwd hook').1 ≠ 0) ∧
        (∀ (addr : Nat) (init : rasqal_engine_reply L)
          (hook' : Option (rasqal_engine_reply L)) (next : rasqal_engine_reply L),
          (rasqal_query_execute s'.query addr init hook' next).1 = none)) := by
  refine ⟨?_, ?_, ?_⟩
  · rintro (h | h)
    · simp only [rasqal_query_prepare, h, if_true]
      split <;> rfl
    · simp [rasqal_query_prepare, h]
  · intro qs bu cwd hook'
    have key : (rasqal_query_prepare q query_string base_uri cwd_uri hook).2.failed = true ∨
        (rasqal_query_prepare q query_string base_uri cwd_uri hook).2.finished = true ∨
        (rasqal_query_prepare q query_string base_uri cwd_uri hook).2.prepared = true := by
      simp only [rasqal_query_prepare]
      split
      · rename_i hg
        simp only [Bool.or_eq_true] at hg
        rcases hg with hg | hg
        · exact Or.inl hg
        · exact Or.inr (Or.inl hg)
      · split
        · rename_i hp
          exact Or.inr (Or.inr hp)
        · right; right
          cases query_string <;> (simp only [rasqal_engine_called]; split <;> rfl)
    generalize (rasqal_query_prepare q query_string base_uri cwd_uri hook).2 = q' at key
    rcases key with h | h | h
    · simp [rasqal_query_prepare, h]
    · simp [rasqal_query_prepare, h]
    · simp only [rasqal_query_prepare, h, if_true]
      split <;> simp
  · intro hf s s' calls hs hrun
    have hf' : s'.query.failed = true :=
      rasqal_client_run_failed s s' calls (by rw [hs]; exact hf) hrun
    refine ⟨hf', ?_, ?_⟩
    · intro qs bu cwd hook'
      simp [rasqal_query_prepare, hf']
    · intro addr init hook' next
      rw [rasqal_query_execute_failed s'.query addr init hook' next hf']

/-- A prepared query: a second prepare returns `1` and changes nothing. -/
theorem rasqal_query_prepare_rejects_witness :
    (rasqal_query_prepare rasqal_demo_query (some "SELECT") none "file:///"
      (rasqal_demo_reply 0)).2.prepared = true ∧
    rasqal_query_prepare
        (rasqal_query_prepare rasqal_demo_query (some "SELECT") none "file:///"
          (rasqal_demo_reply 0)).2 (some "ASK") (some "http://example.org/")
        "file:///" (rasqal_demo_reply 0) =
      (1, (rasqal_query_prepare rasqal_demo_query (some "SELECT") none "file:///"
          (rasqal_demo_reply 0)).2) :=
  ⟨by decide,
   (rasqal_query_prepare_rejects
      (rasqal_query_prepare rasqal_demo_query (some "SELECT") none "file:///"
        (rasqal_demo_reply 0)).2 (some "ASK") (some "http://example.org/") "file:///"
      (rasqal_demo_reply 0)).1 (Or.inl (by decide))⟩

/-- C9: for a non-null result iterator, `rasqal_query_results_next` on a
finished query returns `1` and leaves the query, with its record of engine
calls, as it was; on an unfinished query it asks the engine exactly once, an
answer below `0` sets `failed` and `finished`, an answer `0` sets `finished`
only, an answer above `0` sets neither; in all cases the value returned is the
`finished` flag after the call. -/
theorem rasqal_query_results_next_spec (r : rasqal_query_results) (q : rasqal_query L)
    (next : rasqal_engine_reply L) :
    (q.finished = true → rasqal_query_results_next (some r) q next = (1, q)) ∧
    (q.finished = false →
      (rasqal_query_results_next (some r) q next).2 =
        { rasqal_engine_called q rasqal_engine_call.get_next_result next with
          finished := decide (next.rc < 1)
          failed := q.failed || decide (next.rc < 0) } ∧
      (rasqal_query_results_next (some r) q next).2.calls =
        q.calls ++ [rasqal_engine_call.get_next_result] ∧
      (next.rc < 0 → (rasqal_query_results_next (some r) q next).2.failed = true ∧
        (rasqal_query_results_next (some r) q next).2.finished = true) ∧
      (next.rc = 0 → (rasqal_query_results_next (some r) q next).2.finished = true ∧
        (rasqal_query_results_next (some r) q next).2.failed = q.failed) ∧
      (0 < next.rc → (rasqal_query_results_next (some r) q next).2.finished = false ∧
        (rasqal_query_results_next (some r) q next).2.failed = q.failed)) ∧
    (rasqal_query_results_next (some r) q next).1 =
      (if (rasqal_query_results_next (some r) q next).2.finished then 1 else 0) := by
  have hq : (rasqal_query_results_next (some r) q next).2 =
      if q.finished then q else
        { rasqal_engine_called q rasqal_engine_call.get_next_result next with
          finished := decide (next.rc < 1)
          failed := q.failed || decide (next.rc < 0) } := by
    simp only [rasqal_query_results_next]
    cases hfin : q.finished with
    | true => simp
    | false =>
      simp only [Bool.false_eq_true, if_false, rasqal_engine_called]
      by_cases h1 : next.rc < 1
      · by_cases h0 : next.rc < 0
        · simp [h1, h0]
        · simp [h1, h0]
      · have h0 : ¬ next.rc < 0 := by omega
        simp [h1, h0, hfin]
  refine ⟨?_, ?_, ?_⟩
  · intro h
    simp [rasqal_query_results_next, h]
  · intro h
    have hq' : (rasqal_query_results_next (some r) q next).2 =
        { rasqal_engine_called q rasqal_engine_call.get_next_result next with
          finished := decide (next.rc < 1)
          failed := q.failed || decide (next.rc < 0) } := by
      rw [hq]
      simp [h]
    refine ⟨hq', ?_, ?_, ?_, ?_⟩
    · rw [hq']
      rfl
    · intro hrc
      have : next.rc < 1 := by omega
      rw [hq']
      simp [hrc, this]
    · intro hrc
      rw [hq']
      simp [hrc]
    · intro hrc
      have h1 : ¬ next.rc < 1 := by omega
      have h0 : ¬ next.rc < 0 := by omega
      rw [hq']
      simp [h1, h0]
  · simp only [rasqal_query_results_next]
    split
    · rename_i h
      simp [h]
    · rfl

/-- An unfinished query whose engine answers `-1`: the call returns `1` and
sets both flags. -/
theorem rasqal_query_results_next_spec_witness :
    rasqal_demo_query.finished = false ∧
    rasqal_query_results_next (some ⟨7⟩) rasqal_demo_query (rasqal_demo_reply (-1)) =
      (1, { rasqal_engine_called rasqal_demo_query rasqal_engine_call.get_next_result
              (rasqal_demo_reply (-1)) with finished := true, failed := true }) := by
  have h := rasqal_query_results_next_spec ⟨7⟩ rasqal_demo_query (rasqal_demo_reply (-1))
  refine ⟨rfl, ?_⟩
  have h2 := (h.2.1 rfl).1
  have h3 := h.2.2
  rw [h2] at h3
  exact Prod.ext h3 h2

/-- C10 as stated fails: after an execute whose first advance finds the end of
the results the query is finished, and `get_count` and `get_bindings_count`
both return `0`, not a negative value. -/
theorem rasqal_query_results_counts_not_negative :
    (rasqal_query_execute rasqal_demo_query 7 (rasqal_demo_reply 0) none
      (rasqal_demo_reply 0)).1 = some ⟨7⟩ ∧
    (rasqal_query_execute rasqal_demo_query 7 (rasqal_demo_reply 0) none
      (rasqal_demo_reply 0)).2.finished = true ∧
    ¬ (rasqal_query_results_get_count (some ⟨7⟩)
      (rasqal_query_execute rasqal_demo_query 7 (rasqal_demo_reply 0) none
        (rasqal_demo_reply 0)).2 < 0) ∧
    ¬ (rasqal_query_results_get_bindings_count (some ⟨7⟩)
      (rasqal_query_execute rasqal_demo_query 7 (rasqal_demo_reply 0) none
        (rasqal_demo_reply 0)).2 < 0) := by
  decide

/-- C10, amended: for a result iterator whose query has `finished` set, `next`
returns non-zero, `get_bindings` returns non-zero, `get_binding_value`,
`get_binding_name` and `get_binding_value_by_name` return null, none of them
changing the query; `get_count` returns the query's `result_count`, the number
of results found so far, not a sentinel. -/
theorem rasqal_query_results_finished_sentinels (r : rasqal_query_results)
    (q : rasqal_query L) (h : q.finished = true) (next : rasqal_engine_reply L)
    (names values : Bool) (offset : Int) (name : String) :
    rasqal_query_results_next (some r) q next = (1, q) ∧
    rasqal_query_results_get_bindings (some r) q names values = (1, none, none, q) ∧
    rasqal_query_results_get_binding_value (some r) q offset = (none, q) ∧
    rasqal_query_results_get_binding_name (some r) q offset = none ∧
    rasqal_query_results_get_binding_value_by_name (some r) q name = (none, q) ∧
    rasqal_query_results_get_count (some r) q = q.result_count := by
  refine ⟨?_, ?_, ?_, ?_, ?_, rfl⟩
  · simp [rasqal_query_results_next, h]
  · simp [rasqal_query_results_get_bindings, h]
  · simp [rasqal_query_results_get_binding_value, h]
  · simp [rasqal_query_results_get_binding_name, h]
  · simp [rasqal_query_results_get_binding_value_by_name, h]

/-- The amended C10 at the finished query of the counterexample. -/
theorem rasqal_query_results_finished_sentinels_witness :
    (rasqal_query_execute rasqal_demo_query 7 (rasqal_demo_reply 0) none
      (rasqal_demo_reply 0)).2.finished = true ∧
    (rasqal_query_results_get_binding_value (some ⟨7⟩)
      (rasqal_query_execute rasqal_demo_query 7 (rasqal_demo_reply 0) none
        (rasqal_demo_reply 0)).2 0).1 = none ∧
    rasqal_query_results_get_count (some ⟨7⟩)
      (rasqal_query_execute rasqal_demo_query 7 (rasqal_demo_reply 0) none
        (rasqal_demo_reply 0)).2 = 0 := by
  have h := rasqal_query_results_finished_sentinels ⟨7⟩
    (rasqal_query_execute rasqal_demo_query 7 (rasqal_demo_reply 0) none
      (rasqal_demo_reply 0)).2 (by decide) (rasqal_demo_reply 1) true true 0 "x"
  exact ⟨by decide, by rw [h.2.2.1], h.2.2.2.2.2.trans (by decide)⟩

end query

/-! ## The list of live result iterators: pointer writes and the list -/

theorem rasqal_results_links_list_unique
    (next : rasqal_query_results → Option rasqal_query_results)
    (p : Option rasqal_query_results) (l1 l2 : List rasqal_query_results)
    (h1 : rasqal_results_links_list next p l1) (h2 : rasqal_results_links_list next p l2) :
    l1 = l2 := by
  induction l1 generalizing p l2 with
  | nil =>
    cases l2 with
    | nil => rfl
    | cons b l2 =>
      simp only [rasqal_results_links_list] at h1 h2
      rw [h1] at h2
      simp at h2
  | cons a l1 ih =>
    cases l2 with
    | nil =>
      simp only [rasqal_results_links_list] at h1 h2
      rw [h2] at h1
      simp at h1
    | cons b l2 =>
      simp only [rasqal_results_links_list] at h1 h2
      have hab : a = b := by
        have := h1.1.symm.trans h2.1
        simpa using this
      subst hab
      rw [ih (next a) l2 h1.2 h2.2]

theorem rasqal_results_links_list_suffix
    (next : rasqal_query_results → Option rasqal_query_results)
    (p : Option rasqal_query_results) (l1 l2 : List rasqal_query_results)
    (h : rasqal_results_links_list next p (l1 ++ l2)) :
    ∃ p', rasqal_results_links_list next p' l2 := by
  induction l1 generalizing p with
  | nil => exact ⟨p, h⟩
  | cons a l1 ih =>
    simp only [List.cons_append, rasqal_results_links_list] at h
    exact ih (next a) h.2

theorem rasqal_results_links_list_nodup
    (next : rasqal_query_results → Option rasqal_query_results)
    (p : Option rasqal_query_results) (l : List rasqal_query_results)
    (h : rasqal_results_links_list next p l) : l.Nodup := by
  induction l generalizing p with
  | nil => exact List.nodup_nil
  | cons a l ih =>
    simp only [rasqal_results_links_list] at h
    refine List.nodup_cons.2 ⟨?_, ih (next a) h.2⟩
    intro hmem
    obtain ⟨s, t, hst⟩ := List.append_of_mem hmem
    rw [hst] at h
    obtain ⟨p', hp'⟩ := rasqal_results_links_list_suffix next (next a) s (a :: t) h.2
    simp only [rasqal_results_links_list] at hp'
    have := rasqal_results_links_list_unique next (next a) _ _ h.2 hp'.2
    have hlen := congrArg List.length this
    simp at hlen
    omega

theorem rasqal_results_links_list_update
    (next : rasqal_query_results → Option rasqal_query_results)
    (p : Option rasqal_query_results) (l : List rasqal_query_results)
    (a : rasqal_query_results) (v : Option rasqal_query_results)
    (h : rasqal_results_links_list next p l) (ha : a ∉ l) :
    rasqal_results_links_list (Function.update next a v) p l := by
  induction l generalizing p with
  | nil => exact h
  | cons b l ih =>
    simp only [rasqal_results_links_list] at h ⊢
    have hne : b ≠ a := fun e => ha (by rw [e]; exact List.mem_cons_self _ _)
    refine ⟨h.1, ?_⟩
    rw [Function.update_noteq hne]
    exact ih (next b) h.2 (fun hm => ha (List.mem_cons_of_mem _ hm))

theorem rasqal_results_links_add_list (h : rasqal_results_links)
    (l : List rasqal_query_results) (r : rasqal_query_results)
    (hl : rasqal_results_links_list h.next h.results l) (hr : r ∉ l) :
    rasqal_results_links_list (rasqal_results_links_add h r).next
      (rasqal_results_links_add h r).results (r :: l) := by
  simp only [rasqal_results_links_add, rasqal_results_links_list, Function.update_same,
    true_and]
  exact rasqal_results_links_list_update h.next h.results l r h.results hl hr

theorem rasqal_results_links_walk_found
    (next : rasqal_query_results → Option rasqal_query_results)
    (r : rasqal_query_results) (pre post : List rasqal_query_results)
    (p prev : Option rasqal_query_results) (fuel : Nat)
    (h : rasqal_results_links_list next p (pre ++ r :: post)) (hr : r ∉ pre)
    (hf : pre.length < fuel) :
    rasqal_results_links_walk next r fuel p prev =
      (some r, if pre = [] then prev else pre.getLast?) := by
  induction pre generalizing p prev fuel with
  | nil =>
    cases fuel with
    | zero => simp at hf
    | succ n =>
      simp only [List.nil_append, rasqal_results_links_list] at h
      simp [h.1, rasqal_results_links_walk]
  | cons a pre ih =>
    cases fuel with
    | zero => simp at hf
    | succ n =>
      simp only [List.cons_append, rasqal_results_links_list] at h
      have hne : a ≠ r := fun e => hr (by rw [e]; exact List.mem_cons_self _ _)
      have hr' : r ∉ pre := fun hm => hr (List.mem_cons_of_mem _ hm)
      simp only [List.length_cons, Nat.add_lt_add_iff_right] at hf
      rw [h.1]
      simp only [rasqal_results_links_walk, hne, if_false]
      rw [ih (next a) (some a) n h.2 hr' hf]
      cases pre with
      | nil => simp
      | cons b pre => simp [List.getLast?_cons_cons]

theorem rasqal_results_links_walk_absent
    (next : rasqal_query_results → Option rasqal_query_results)
    (r : rasqal_query_results) (l : List rasqal_query_results)
    (p prev : Option rasqal_query_results) (fuel : Nat)
    (h : rasqal_results_links_list next p l) (hr : r ∉ l) (hf : l.length < fuel) :
    (rasqal_results_links_walk next r fuel p prev).1 = none := by
  induction l generalizing p prev fuel with
  | nil =>
    cases fuel with
    | zero => simp at hf
    | succ n =>
      simp only [rasqal_results_links_list] at h
      simp [h, rasqal_results_links_walk]
  | cons a l ih =>
    cases fuel with
    | zero => simp at hf
    | succ n =>
      simp only [rasqal_results_links_list] at h
      have hne : a ≠ r := fun e => hr (by rw [e]; exact List.mem_cons_self _ _)
      simp only [List.length_cons, Nat.add_lt_add_iff_right] at hf
      rw [h.1]
      simp only [rasqal_results_links_walk, hne, if_false]
      exact ih (next a) (some a) n h.2 (fun hm => hr (List.mem_cons_of_mem _ hm)) hf

theorem rasqal_results_links_list_splice
    (next : rasqal_query_results → Option rasqal_query_results)
    (r : rasqal_query_results) (pre post : List rasqal_query_results)
    (p : Option rasqal_query_results) (b : rasqal_query_results)
    (h : rasqal_results_links_list next p (pre ++ b :: r :: post))
    (hn : (pre ++ b :: r :: post).Nodup) :
    rasqal_results_links_list (Function.update next b (next r)) p (pre ++ b :: post) := by
  induction pre generalizing p with
  | nil =>
    simp only [List.nil_append, rasqal_results_links_list] at h ⊢
    simp only [List.nil_append, List.nodup_cons, List.mem_cons, not_or] at hn
    refine ⟨h.1, ?_⟩
    rw [Function.update_same]
    exact rasqal_results_links_list_update next (next r) post b (next r) h.2.2 hn.1.2
  | cons a pre ih =>
    simp only [List.cons_append, rasqal_results_links_list] at h ⊢
    simp only [List.cons_append, List.nodup_cons] at hn
    have hne : a ≠ b := by
      intro e
      apply hn.1
      rw [e]
      simp
    refine ⟨h.1, ?_⟩
    rw [Function.update_noteq hne]
    exact ih (next a) h.2 hn.2

theorem rasqal_results_links_remove_list (h : rasqal_results_links)
    (r : rasqal_query_results) (l : List rasqal_query_results) (fuel : Nat)
    (hl : rasqal_results_links_list h.next h.results l) (hf : l.length < fuel) :
    rasqal_results_links_list (rasqal_results_links_remove fuel h r).next
      (rasqal_results_links_remove fuel h r).results
      (rasqal_query_results_unlink r l) := by
  have hnd := rasqal_results_links_list_nodup h.next h.results l hl
  rw [rasqal_query_results_unlink_eq_erase]
  by_cases hmem : r ∈ l
  · obtain ⟨pre, post, hsplit, hpre⟩ := List.eq_append_cons_of_mem hmem
    subst hsplit
    have hw := rasqal_results_links_walk_found h.next r pre post h.results none fuel hl hpre
      (by simp at hf; omega)
    have herase : (pre ++ r :: post).erase r = pre ++ post := by
      rw [List.erase_append_right _ hpre]
      simp
    rw [herase]
    simp only [rasqal_results_links_remove, hw]
    rcases List.eq_nil_or_concat pre with hp | ⟨pre', b, hp⟩
    · subst hp
      simp only [List.nil_append, rasqal_results_links_list] at hl
      simp only [if_true, List.nil_append, hl.1]
      exact hl.2
    · subst hp
      have hne : pre' ++ [b] ≠ [] := by simp
      have hlast : (pre' ++ [b]).getLast? = some b := by simp
      simp only [hne, if_false, hlast, if_true]
      have hl' : rasqal_results_links_list h.next h.results (pre' ++ b :: r :: post) := by
        simpa using hl
      have hnd' : (pre' ++ b :: r :: post).Nodup := by simpa using hnd
      have hsp := rasqal_results_links_list_splice h.next r pre' post h.results b hl' hnd'
      have hhead : some r ≠ h.results := by
        intro e
        cases pre' with
        | nil =>
          simp only [List.nil_append, rasqal_results_links_list] at hl'
          rw [hl'.1] at e
          simp only [Option.some.injEq] at e
          simp [e] at hnd'
        | cons a pre' =>
          simp only [List.cons_append, rasqal_results_links_list] at hl'
          rw [hl'.1] at e
          simp only [Option.some.injEq] at e
          simp [e] at hnd'
      simp only [hhead, if_false]
      simpa using hsp
  · have hw := rasqal_results_links_walk_absent h.next r l h.results none fuel hl hmem hf
    rw [List.erase_of_not_mem hmem]
    simp only [rasqal_results_links_remove]
    generalize rasqal_results_links_walk h.next r fuel h.results none = w at hw
    obtain ⟨cur, prev⟩ := w
    simp only at hw
    subst hw
    simpa using hl

/-! ## Engine errors and the flags -/

section engine_errors
variable {L : Type}

/-- C11 as stated fails: when `rasqal_engine_execute_init` answers `1` during
`rasqal_query_execute`, the call ends with `failed` set and `finished` not
set. -/
theorem rasqal_query_execute_init_error_not_finished :
    (rasqal_demo_reply 1).rc ≠ 0 ∧
    (rasqal_query_execute rasqal_demo_query 7 (rasqal_demo_reply 1) none
      (rasqal_demo_reply 1)).1 = none ∧
    (rasqal_query_execute rasqal_demo_query 7 (rasqal_demo_reply 1) none
      (rasqal_demo_reply 1)).2.failed = true ∧
    (rasqal_query_execute rasqal_demo_query 7 (rasqal_demo_reply 1) none
      (rasqal_demo_reply 1)).2.finished = false := by
  decide

/-- C11, amended: an error answer of `rasqal_engine_get_next_result` during
`rasqal_query_results_next` on an unfinished query ends the call with both
`failed` and `finished` set; an error answer of `rasqal_engine_execute_init`
during `rasqal_query_execute` ends the call with `failed` set, the result null
and `finished` as it was. -/
theorem rasqal_engine_error_flags (q : rasqal_query L) (r : rasqal_query_results)
    (addr : Nat) (init : rasqal_engine_reply L) (hook : Option (rasqal_engine_reply L))
    (next : rasqal_engine_reply L) :
    (q.finished = false → next.rc < 0 →
      (rasqal_query_results_next (some r) q next).2.failed = true ∧
      (rasqal_query_results_next (some r) q next).2.finished = true) ∧
    (q.failed = false → q.finished = false → q.executed = false → init.rc ≠ 0 →
      (rasqal_query_execute q addr init hook next).1 = none ∧
      (rasqal_query_execute q addr init hook next).2.failed = true ∧
      (rasqal_query_execute q addr init hook next).2.finished = q.finished) := by
  constructor
  · intro hfin hrc
    have h1 : next.rc < 1 := by omega
    simp [rasqal_query_results_next, hfin, hrc, h1, rasqal_engine_called]
  · intro h1 h2 h3 h4
    simp [rasqal_query_execute, h1, h2, h3, h4, rasqal_engine_called]

/-- The amended C11 at a fresh query: an error from `get_next_result` sets
both flags, an error from `execute_init` sets `failed` only. -/
theorem rasqal_engine_error_flags_witness :
    ((rasqal_query_results_next (some ⟨7⟩) rasqal_demo_query (rasqal_demo_reply (-1))).2.failed
        = true ∧
      (rasqal_query_results_next (some ⟨7⟩) rasqal_demo_query
        (rasqal_demo_reply (-1))).2.finished = true) ∧
    ((rasqal_query_execute rasqal_demo_query 7 (rasqal_demo_reply 1) none
        (rasqal_demo_reply 1)).1 = none ∧
      (rasqal_query_execute rasqal_demo_query 7 (rasqal_demo_reply 1) none
        (rasqal_demo_reply 1)).2.failed = true ∧
      (rasqal_query_execute rasqal_demo_query 7 (rasqal_demo_reply 1) none
        (rasqal_demo_reply 1)).2.finished = rasqal_demo_query.finished) :=
  ⟨(rasqal_engine_error_flags rasqal_demo_query ⟨7⟩ 7 (rasqal_demo_reply 1) none
      (rasqal_demo_reply (-1))).1 rfl (by decide),
   (rasqal_engine_error_flags rasqal_demo_query ⟨7⟩ 7 (rasqal_demo_reply 1) none
      (rasqal_demo_reply 1)).2 rfl rfl rfl (by decide)⟩

/-- C12, the code at the failing input: a query is created and executed with
a first row available; a prepare whose factory hook answers `1` then sets
`failed` and leaves `finished` unset; the next `rasqal_query_results_next`,
with the engine answering `1`, asks the engine and returns `0`, a row
available. -/
theorem rasqal_query_results_next_ignores_failed :
    ∃ s : rasqal_client rasqal_demo_literal,
      rasqal_client_run (rasqal_client_new rasqal_demo_query)
        [.execute 7 (rasqal_demo_reply 0) none (rasqal_demo_reply 1),
         .prepare none none "file:///" (rasqal_demo_reply 1)] = some s ∧
      s.iterators = [⟨7⟩] ∧ s.query.failed = true ∧ s.query.finished = false ∧
      (rasqal_query_results_next (some ⟨7⟩) s.query (rasqal_demo_reply 1)).1 = 0 ∧
      (rasqal_query_results_next (some ⟨7⟩) s.query (rasqal_demo_reply 1)).2.calls =
        s.query.calls ++ [rasqal_engine_call.get_next_result] ∧
      rasqal_query_results_finished (some ⟨7⟩) s.query = 1 :=
  ⟨_, rfl, by decide⟩

end engine_errors

/-! ## Execute, the list of live iterators and the usage count -/

section iterators
variable {L : Type}

theorem rasqal_query_results_next_calls (r : rasqal_query_results) (q : rasqal_query L)
    (next : rasqal_engine_reply L) (h : q.finished = false) :
    (rasqal_query_results_next (some r) q next).2.calls =
      q.calls ++ [rasqal_engine_call.get_next_result] := by
  simp only [rasqal_query_results_next, h, Bool.false_eq_true, if_false, rasqal_engine_called]
  split <;> split <;> rfl

/-- C13: when `rasqal_query_execute` passes its guards and the engine's
`execute_init` and the factory's `execute` hook, if there is one, answer `0`,
the call returns the new iterator, which is the head of the query's list of
live iterators with the previous list behind it (also as linked objects: its
`next` is the previous head), the usage count is one more than before, and
the engine calls of the execute are `execute_init`, the hook if any, and
`get_next_result` exactly once; this is so whatever the first advance
answers, a row or none. -/
theorem rasqal_query_execute_success (q : rasqal_query L) (addr : Nat)
    (init : rasqal_engine_reply L) (hook : Option (rasqal_engine_reply L))
    (next : rasqal_engine_reply L)
    (h1 : q.failed = false) (h2 : q.finished = false) (h3 : q.executed = false)
    (hi : init.rc = 0) (hh : ∀ h, hook = some h → h.rc = 0) :
    (rasqal_query_execute q addr init hook next).1 = some ⟨addr⟩ ∧
    (rasqal_query_execute q addr init hook next).2.results = ⟨addr⟩ :: q.results ∧
    (rasqal_query_execute q addr init hook next).2.usage = q.usage + 1 ∧
    (rasqal_query_execute q addr init hook next).2.calls =
      q.calls ++ [rasqal_engine_call.execute_init] ++
        (if hook.isSome then [rasqal_engine_call.factory_execute] else []) ++
        [rasqal_engine_call.get_next_result] ∧
    (rasqal_query_execute q addr init hook next).2.calls.count
        rasqal_engine_call.get_next_result =
      q.calls.count rasqal_engine_call.get_next_result + 1 ∧
    (∀ (h : rasqal_results_links),
      rasqal_results_links_list h.next h.results q.results → ⟨addr⟩ ∉ q.results →
      (rasqal_results_links_add h ⟨addr⟩).next ⟨addr⟩ = h.results ∧
      rasqal_results_links_list (rasqal_results_links_add h ⟨addr⟩).next
        (rasqal_results_links_add h ⟨addr⟩).results
        (rasqal_query_execute q addr init hook next).2.results) := by
  have hres : (rasqal_query_execute q addr init hook next).1 = some ⟨addr⟩ ∧
      (rasqal_query_execute q addr init hook next).2.results = ⟨addr⟩ :: q.results ∧
      (rasqal_query_execute q addr init hook next).2.usage = q.usage + 1 := by
    rcases rasqal_query_execute_frame q addr init hook next with
      ⟨e1, _, _, _⟩ | ⟨e1, e2, e3, _⟩
    · exfalso
      cases hook with
      | none =>
        simp [rasqal_query_execute, h1, h2, h3, hi] at e1
      | some h =>
        have := hh h rfl
        simp [rasqal_query_execute, h1, h2, h3, hi, this] at e1
    · exact ⟨e1, e3, e2⟩
  have hcalls : (rasqal_query_execute q addr init hook next).2.calls =
      q.calls ++ [rasqal_engine_call.execute_init] ++
        (if hook.isSome then [rasqal_engine_call.factory_execute] else []) ++
        [rasqal_engine_call.get_next_result] := by
    cases hook with
    | none =>
      simp only [rasqal_query_execute, h1, h2, h3, hi, Bool.or_self, Bool.false_eq_true,
        if_false, ne_eq, not_true_eq_false, Option.isSome_none, List.append_nil]
      rw [rasqal_query_results_next_calls _ _ _ (by
        simp [rasqal_query_add_query_result, rasqal_engine_called, h2])]
      simp [rasqal_query_add_query_result, rasqal_engine_called]
    | some h =>
      have := hh h rfl
      simp only [rasqal_query_execute, h1, h2, h3, hi, this, Bool.or_self,
        Bool.false_eq_true, if_false, ne_eq, not_true_eq_false, Option.isSome_some, if_true]
      rw [rasqal_query_results_next_calls _ _ _ (by
        simp [rasqal_query_add_query_result, rasqal_engine_called, h2])]
      simp [rasqal_query_add_query_result, rasqal_engine_called]
  refine ⟨hres.1, hres.2.1, hres.2.2, hcalls, ?_, ?_⟩
  · rw [hcalls]
    cases hook <;> simp [List.count_append, List.count_cons]
  · intro h hl hfresh
    refine ⟨by simp [rasqal_results_links_add], ?_⟩
    rw [hres.2.1]
    exact rasqal_results_links_add_list h q.results ⟨addr⟩ hl hfresh

/-- A fresh query executed with an engine whose first advance finds no row:
the iterator is returned all the same, as the only live iterator, with usage
count `2`. -/
theorem rasqal_query_execute_success_witness :
    rasqal_demo_query.failed = false ∧ (rasqal_demo_reply 0).rc = 0 ∧
    (rasqal_query_execute rasqal_demo_query 7 (rasqal_demo_reply 0) none
      (rasqal_demo_reply 0)).1 = some ⟨7⟩ ∧
    (rasqal_query_execute rasqal_demo_query 7 (rasqal_demo_reply 0) none
      (rasqal_demo_reply 0)).2.results = [⟨7⟩] ∧
    (rasqal_query_execute rasqal_demo_query 7 (rasqal_demo_reply 0) none
      (rasqal_demo_reply 0)).2.usage = 2 := by
  have h := rasqal_query_execute_success rasqal_demo_query 7 (rasqal_demo_reply 0) none
    (rasqal_demo_reply 0) rfl rfl rfl rfl (by simp)
  exact ⟨rfl, rfl, h.1, h.2.1, h.2.2.1⟩

/-- C14: for an iterator `r` of the query's list of live iterators, at the
head, in the middle or at the tail, `rasqal_free_query_results` leaves the
list as it was with `r` removed, the other iterators in their order, and the
usage count one less; the pointer writes of the removal walk, on any linked
objects that hold the list, leave linked objects that hold the new list. -/
theorem rasqal_free_query_results_unlinks (q : rasqal_query L) (r : rasqal_query_results)
    (pre post : List rasqal_query_results) (hq : q.results = pre ++ r :: post)
    (hpre : r ∉ pre) :
    (rasqal_free_query_results (some r) q).results = pre ++ post ∧
    (rasqal_free_query_results (some r) q).usage = q.usage - 1 ∧
    ∀ (h : rasqal_results_links) (fuel : Nat),
      rasqal_results_links_list h.next h.results q.results → q.results.length < fuel →
      rasqal_results_links_list (rasqal_results_links_remove fuel h r).next
        (rasqal_results_links_remove fuel h r).results
        (rasqal_free_query_results (some r) q).results := by
  obtain ⟨g1, g2, _⟩ := rasqal_free_query_results_effect q r
  have herase : q.results.erase r = pre ++ post := by
    rw [hq, List.erase_append_right _ hpre]
    simp
  refine ⟨by rw [g2, herase], g1, ?_⟩
  intro h fuel hl hf
  rw [g2, ← rasqal_query_results_unlink_eq_erase]
  exact rasqal_results_links_remove_list h r q.results fuel hl hf

/-- Three live iterators, the middle one freed: the two others stay, in
order, and the usage count goes from `4` to `3`. -/
theorem rasqal_free_query_results_unlinks_witness :
    ((⟨2⟩ : rasqal_query_results) ∉ [(⟨1⟩ : rasqal_query_results)]) ∧
    (rasqal_free_query_results (some ⟨2⟩)
      { rasqal_demo_query with results := [⟨1⟩, ⟨2⟩, ⟨3⟩], usage := 4 }).results =
      [⟨1⟩, ⟨3⟩] ∧
    (rasqal_free_query_results (some ⟨2⟩)
      { rasqal_demo_query with results := [⟨1⟩, ⟨2⟩, ⟨3⟩], usage := 4 }).usage = 3 := by
  have h := rasqal_free_query_results_unlinks
    { rasqal_demo_query with results := [⟨1⟩, ⟨2⟩, ⟨3⟩], usage := 4 } ⟨2⟩ [⟨1⟩] [⟨3⟩] rfl
    (by decide)
  exact ⟨by decide, h.1, h.2.1.trans (by decide)⟩

/-- C15: in every state reached from a query returned by `rasqal_new_query`
by prepare, execute, advancing an iterator, the creator's `rasqal_free_query`
(at most once) and `rasqal_free_query_results` (once per iterator), the
query's list of live iterators is the list of iterators not yet released and
the usage count is `1` if the creator has not freed the query, else `0`, plus
the length of that list; so the usage count is at least `1` while an iterator
is live.  The count starts at `1`. -/
theorem rasqal_query_usage_counts_references (ff qa ca : Bool)
    (init : rasqal_engine_reply L) (q0 : rasqal_query L)
    (hq : rasqal_new_query ff qa ca init = some q0)
    (calls : List (rasqal_api_call L)) (s : rasqal_client L)
    (hrun : rasqal_client_run (rasqal_client_new q0) calls = some s) :
    q0.usage = 1 ∧
    s.query.results = s.iterators ∧
    s.query.usage = (if s.creator then 1 else 0) + (s.query.results.length : Int) ∧
    (s.query.results ≠ [] → 1 ≤ s.query.usage) := by
  obtain ⟨hu0, _, _, _⟩ := rasqal_new_query_ok ff qa ca init q0 hq
  obtain ⟨hu, hr, _, _⟩ := rasqal_client_run_ok _ s calls
    (rasqal_new_query_ok ff qa ca init q0 hq) hrun
  refine ⟨by simpa [rasqal_client_new] using hu0, hr, by rw [hr]; exact hu, ?_⟩
  intro hne
  rw [hr] at hne
  have hpos : 0 < s.iterators.length := List.length_pos.2 hne
  rw [hu]
  split <;> omega

/-- A query executed and then freed by its creator: one live iterator, usage
count `1`. -/
theorem rasqal_query_usage_counts_references_witness :
    ∃ s : rasqal_client rasqal_demo_literal,
      rasqal_client_run (rasqal_client_new rasqal_demo_query)
        [.execute 7 (rasqal_demo_reply 0) none (rasqal_demo_reply 1), .free_query] = some s ∧
      s.creator = false ∧ s.query.results = [⟨7⟩] ∧ s.query.usage = 1 := by
  have h := rasqal_query_usage_counts_references true true true (rasqal_demo_reply 0)
    rasqal_demo_query rfl
    [.execute 7 (rasqal_demo_reply 0) none (rasqal_demo_reply 1), .free_query] _ rfl
  exact ⟨_, rfl, rfl, h.2.1, h.2.2.1.trans (by decide)⟩

end iterators

/-! ## Binding accessors and variables -/

section bindings
variable {L : Type}

theorem rasqal_engine_assign_binding_values_get (q : rasqal_query L) (i : Nat)
    (h : (i : Int) < q.select_variables_count) :
    ((((rasqal_engine_assign_binding_values q).binding_values.getD [])[i]?).join) =
      (q.variables_array[i]?).bind (fun v => v.value) := by
  have hi : i < q.select_variables_count.toNat := by omega
  simp [rasqal_engine_assign_binding_values, List.getElem?_map, List.getElem?_range hi]

/-- C16: on an unfinished query, `rasqal_query_results_get_binding_value` and
`rasqal_query_results_get_binding_name` return null, without touching the
query, when the offset is below `0` or not below `select_variables_count`, so
a non-null answer only comes from an index within `0 .. count-1`; for an
offset in range `get_binding_name` returns the name of `variables[offset]` and
`get_binding_value` returns null when `binding_values` is absent and
otherwise `binding_values[offset]` as the engine has just assigned it, the
value of the variable at that index. -/
theorem rasqal_query_results_binding_bounds (r : rasqal_query_results) (q : rasqal_query L)
    (offset : Int) (hfin : q.finished = false) :
    ((offset < 0 ∨ q.select_variables_count ≤ offset) →
      rasqal_query_results_get_binding_value (some r) q offset = (none, q) ∧
      rasqal_query_results_get_binding_name (some r) q offset = none) ∧
    ((rasqal_query_results_get_binding_value (some r) q offset).1 ≠ none →
      0 ≤ offset ∧ offset < q.select_variables_count) ∧
    (rasqal_query_results_get_binding_name (some r) q offset ≠ none →
      0 ≤ offset ∧ offset < q.select_variables_count) ∧
    (0 ≤ offset → offset < q.select_variables_count →
      rasqal_query_results_get_binding_name (some r) q offset =
        (q.variables_array[offset.toNat]?).map (fun v => v.name) ∧
      (q.binding_values = none →
        rasqal_query_results_get_binding_value (some r) q offset = (none, q)) ∧
      (q.binding_values ≠ none →
        rasqal_query_results_get_binding_value (some r) q offset =
          ((((rasqal_engine_assign_binding_values q).binding_values.getD [])[offset.toNat]?).join,
            rasqal_engine_assign_binding_values q) ∧
        (rasqal_query_results_get_binding_value (some r) q offset).1 =
          (q.variables_array[offset.toNat]?).bind (fun v => v.value))) := by
  have hout : (offset < 0 ∨ q.select_variables_count ≤ offset) →
      rasqal_query_results_get_binding_value (some r) q offset = (none, q) ∧
      rasqal_query_results_get_binding_name (some r) q offset = none := by
    intro h
    have h' : offset < 0 ∨ offset > q.select_variables_count - 1 := by omega
    simp [rasqal_query_results_get_binding_value, rasqal_query_results_get_binding_name,
      hfin, h']
  refine ⟨hout, ?_, ?_, ?_⟩
  · intro hne
    by_contra hr
    exact hne (by rw [(hout (by omega)).1])
  · intro hne
    by_contra hr
    exact hne (hout (by omega)).2
  · intro h0 h1
    have h' : ¬ (offset < 0 ∨ offset > q.select_variables_count - 1) := by omega
    refine ⟨?_, ?_, ?_⟩
    · simp [rasqal_query_results_get_binding_name, hfin, h']
    · intro hb
      simp [rasqal_query_results_get_binding_value, hfin, h', hb]
    · intro hb
      obtain ⟨b, hb'⟩ := Option.ne_none_iff_exists'.1 hb
      have heq : rasqal_query_results_get_binding_value (some r) q offset =
          ((((rasqal_engine_assign_binding_values q).binding_values.getD [])[offset.toNat]?).join,
            rasqal_engine_assign_binding_values q) := by
        simp [rasqal_query_results_get_binding_value, hfin, h', hb']
      refine ⟨heq, ?_⟩
      rw [heq]
      exact rasqal_engine_assign_binding_values_get q offset.toNat (by omega)

/-- Two selected variables: offset `1` gives the name `y` and its value,
offsets `2` and `-1` give null. -/
theorem rasqal_query_results_binding_bounds_witness :
    rasqal_demo_bound_query.finished = false ∧
    rasqal_query_results_get_binding_name (some ⟨7⟩) rasqal_demo_bound_query 1 = some "y" ∧
    (rasqal_query_results_get_binding_value (some ⟨7⟩) rasqal_demo_bound_query 1).1 =
      some (.string "a") ∧
    rasqal_query_results_get_binding_value (some ⟨7⟩) rasqal_demo_bound_query 2 =
      (none, rasqal_demo_bound_query) ∧
    rasqal_query_results_get_binding_name (some ⟨7⟩) rasqal_demo_bound_query (-1) = none := by
  have h1 := rasqal_query_results_binding_bounds ⟨7⟩ rasqal_demo_bound_query 1 rfl
  have h2 := rasqal_query_results_binding_bounds ⟨7⟩ rasqal_demo_bound_query 2 rfl
  have h3 := rasqal_query_results_binding_bounds ⟨7⟩ rasqal_demo_bound_query (-1) rfl
  refine ⟨rfl, ?_, ?_, ?_, ?_⟩
  · exact (h1.2.2.2 (by decide) (by decide)).1.trans (by decide)
  · exact ((h1.2.2.2 (by decide) (by decide)).2.2 (by decide)).2.trans (by decide)
  · exact (h2.1 (Or.inr (by decide))).1
  · exact (h3.1 (Or.inl (by decide))).2

theorem rasqal_query_results_find_name_found (vars : List (rasqal_variable L))
    (name : String) (count : Int) (fuel i k : Nat) (hik : i ≤ k) (hk : (k : Int) < count)
    (hf : k < i + fuel) (hname : (vars[k]?).map (fun v => v.name) = some name)
    (hfirst : ∀ j, i ≤ j → j < k → (vars[j]?).map (fun v => v.name) ≠ some name) :
    rasqal_query_results_find_name vars name count fuel i = (k : Int) := by
  induction fuel generalizing i with
  | zero => omega
  | succ n ih =>
    have hi : (i : Int) < count := by omega
    simp only [rasqal_query_results_find_name, hi, if_true]
    by_cases hki : i = k
    · subst hki
      simp [hname]
    · have hne := hfirst i (le_refl i) (by omega)
      simp only [hne, if_false]
      exact ih (i + 1) (by omega) (by omega) (fun j hj hjk => hfirst j (by omega) hjk)

theorem rasqal_query_results_find_name_absent (vars : List (rasqal_variable L))
    (name : String) (count : Int) (fuel i : Nat)
    (hnone : ∀ j : Nat, i ≤ j → (j : Int) < count →
      (vars[j]?).map (fun v => v.name) ≠ some name) :
    rasqal_query_results_find_name vars name count fuel i = -1 := by
  induction fuel generalizing i with
  | zero => rfl
  | succ n ih =>
    simp only [rasqal_query_results_find_name]
    split
    · rename_i hi
      have hne := hnone i (le_refl i) hi
      simp only [hne, if_false]
      exact ih (i + 1) (fun j hj hjc => hnone j (by omega) hjc)
    · rfl

theorem rasqal_query_results_by_name_first (r : rasqal_query_results) (q : rasqal_query L)
    (name : String) (i : Nat) (hi : (i : Int) < q.select_variables_count)
    (hname : (q.variables_array[i]?).map (fun v => v.name) = some name)
    (hfirst : ∀ j, j < i → (q.variables_array[j]?).map (fun v => v.name) ≠ some name) :
    rasqal_query_results_get_binding_value_by_name (some r) q name =
      rasqal_query_results_get_binding_value (some r) q (i : Int) := by
  have hfind := rasqal_query_results_find_name_found q.variables_array name
    q.select_variables_count q.select_variables_count.toNat 0 i (Nat.zero_le i) hi
    (by omega) hname (fun j _ hj => hfirst j hj)
  have hb : ¬ ((i : Int) > q.select_variables_count - 1) := by omega
  have h0 : ¬ ((i : Int) < 0) := by omega
  simp only [rasqal_query_results_get_binding_value_by_name,
    rasqal_query_results_get_binding_value, hfind, hb, h0, if_false, or_self]

/-- C17: `rasqal_query_results_get_binding_value_by_name` answers what
`rasqal_query_results_get_binding_value` answers at the smallest index below
`select_variables_count` whose variable has the name, and null, leaving the
query as it was, when no index below the count has it; so for an in-range
offset whose name no other index carries, looking up the name that
`get_binding_name` returns gives the value `get_binding_value` returns. -/
theorem rasqal_query_results_by_name_lookup (r : rasqal_query_results) (q : rasqal_query L)
    (name : String) :
    (∀ i : Nat, (i : Int) < q.select_variables_count →
      (q.variables_array[i]?).map (fun v => v.name) = some name →
      (∀ j, j < i → (q.variables_array[j]?).map (fun v => v.name) ≠ some name) →
      rasqal_query_results_get_binding_value_by_name (some r) q name =
        rasqal_query_results_get_binding_value (some r) q (i : Int)) ∧
    ((∀ i : Nat, (i : Int) < q.select_variables_count →
        (q.variables_array[i]?).map (fun v => v.name) ≠ some name) →
      rasqal_query_results_get_binding_value_by_name (some r) q name = (none, q)) ∧
    (∀ j : Nat, (j : Int) < q.select_variables_count →
      rasqal_query_results_get_binding_name (some r) q (j : Int) = some name →
      (∀ i : Nat, (i : Int) < q.select_variables_count →
        (q.variables_array[i]?).map (fun v => v.name) = some name → i = j) →
      rasqal_query_results_get_binding_value_by_name (some r) q name =
        rasqal_query_results_get_binding_value (some r) q (j : Int)) := by
  refine ⟨fun i hi hn hf => rasqal_query_results_by_name_first r q name i hi hn hf, ?_, ?_⟩
  · intro hnone
    have hfind := rasqal_query_results_find_name_absent q.variables_array name
      q.select_variables_count q.select_variables_count.toNat 0 (fun j _ hj => hnone j hj)
    simp only [rasqal_query_results_get_binding_value_by_name, hfind]
    split <;> rfl
  · intro j hj hnm huniq
    have hname : (q.variables_array[j]?).map (fun v => v.name) = some name := by
      simp only [rasqal_query_results_get_binding_name] at hnm
      split at hnm
      · simp at hnm
      · split at hnm
        · simp at hnm
        · simpa using hnm
    refine rasqal_query_results_by_name_first r q name j hj hname ?_
    intro i hi hni
    have := huniq i (by omega) hni
    omega

/-- Two selected variables `x` and `y`: looking up `y` gives the value at
offset `1`, looking up `z` gives null. -/
theorem rasqal_query_results_by_name_lookup_witness :
    (rasqal_query_results_get_binding_value_by_name (some ⟨7⟩) rasqal_demo_bound_query "y").1 =
      some (.string "a") ∧
    rasqal_query_results_get_binding_value_by_name (some ⟨7⟩) rasqal_demo_bound_query "y" =
      rasqal_query_results_get_binding_value (some ⟨7⟩) rasqal_demo_bound_query 1 ∧
    rasqal_query_results_get_binding_value_by_name (some ⟨7⟩) rasqal_demo_bound_query "z" =
      (none, rasqal_demo_bound_query) := by
  have h := rasqal_query_results_by_name_lookup ⟨7⟩ rasqal_demo_bound_query "y"
  have hz := rasqal_query_results_by_name_lookup ⟨7⟩ rasqal_demo_bound_query "z"
  have h1 := h.1 1 (by decide) (by decide) (by
    intro j hj
    have : j = 0 := by omega
    subst this
    decide)
  refine ⟨?_, h1, ?_⟩
  · rw [h1]
    decide
  · refine hz.2.1 ?_
    intro i hi
    have hi2 : i < 2 := by
      have : (i : Int) < 2 := hi
      omega
    interval_cases i <;> decide

end bindings

/-! ## Variables of the query -/

section variables_of_query
variable {L : Type}

theorem rasqal_query_set_variable_loop_spec (name : String) (value : Option L)
    (vs : List (rasqal_variable L)) :
    ((rasqal_query_set_variable_loop name value vs).1 = 0 ∧
      ∃ (pre : List (rasqal_variable L)) (w : rasqal_variable L)
        (post : List (rasqal_variable L)),
        vs = pre ++ w :: post ∧ w.name = name ∧ (∀ u ∈ pre, u.name ≠ name) ∧
        (rasqal_query_set_variable_loop name value vs).2 =
          pre ++ { w with value := value } :: post) ∨
    ((rasqal_query_set_variable_loop name value vs).1 = 1 ∧
      (∀ u ∈ vs, u.name ≠ name) ∧
      (rasqal_query_set_variable_loop name value vs).2 = vs) := by
  induction vs with
  | nil => right; simp [rasqal_query_set_variable_loop]
  | cons v vs ih =>
    by_cases hv : v.name = name
    · left
      have hloop : rasqal_query_set_variable_loop name value (v :: vs) =
          (0, { v with value := value } :: vs) := by
        simp only [rasqal_query_set_variable_loop]
        rw [if_pos hv]
      rw [hloop]
      exact ⟨rfl, [], v, vs, rfl, hv, by simp, rfl⟩
    · simp only [rasqal_query_set_variable_loop, hv, if_false]
      rcases ih with ⟨h0, pre, w, post, e1, e2, e3, e4⟩ | ⟨h1, e1, e2⟩
      · left
        refine ⟨h0, v :: pre, w, post, by rw [e1]; rfl, e2, ?_, by rw [e4]; rfl⟩
        intro u hu
        rcases List.mem_cons.1 hu with e | e
        · rw [e]; exact hv
        · exact e3 u e
      · right
        refine ⟨h1, ?_, by rw [e2]⟩
        intro u hu
        rcases List.mem_cons.1 hu with e | e
        · rw [e]; exact hv
        · exact e1 u e

/-- C18: `rasqal_query_set_variable` returns `0` exactly when
`rasqal_query_has_variable` returns non-zero for the name; when it returns `0`
the first variable of the selects sequence with that name gets the value and
every other variable, and the rest of the query, is as before; otherwise it
returns `1` and the query is unchanged. -/
theorem rasqal_query_set_variable_spec (q : rasqal_query L) (name : String)
    (value : Option L) :
    ((rasqal_query_set_variable q name value).1 = 0 ↔
      rasqal_query_has_variable q name ≠ 0) ∧
    ((rasqal_query_set_variable q name value).1 = 0 →
      ∃ (pre : List (rasqal_variable L)) (w : rasqal_variable L)
        (post : List (rasqal_variable L)),
        q.selects = pre ++ w :: post ∧ w.name = name ∧ (∀ u ∈ pre, u.name ≠ name) ∧
        (rasqal_query_set_variable q name value).2 =
          { q with selects := pre ++ { w with value := value } :: post }) ∧
    ((rasqal_query_set_variable q name value).1 ≠ 0 →
      (rasqal_query_set_variable q name value).1 = 1 ∧
      (rasqal_query_set_variable q name value).2 = q) := by
  have hhas : rasqal_query_has_variable q name ≠ 0 ↔ ∃ u ∈ q.selects, u.name = name := by
    simp only [rasqal_query_has_variable]
    split
    · rename_i h
      simp only [List.any_eq_true, beq_iff_eq] at h
      simp [h]
    · rename_i h
      simp only [List.any_eq_true, beq_iff_eq] at h
      simp [h]
  rcases rasqal_query_set_variable_loop_spec name value q.selects with
    ⟨h0, pre, w, post, e1, e2, e3, e4⟩ | ⟨h1, e1, e2⟩
  · have hrc : (rasqal_query_set_variable q name value).1 = 0 := h0
    refine ⟨?_, ?_, ?_⟩
    · rw [hhas]
      refine ⟨fun _ => ⟨w, ?_, e2⟩, fun _ => hrc⟩
      rw [e1]
      simp
    · intro _
      refine ⟨pre, w, post, e1, e2, e3, ?_⟩
      simp only [rasqal_query_set_variable, e4]
    · intro hne
      exact absurd hrc hne
  · have hrc : (rasqal_query_set_variable q name value).1 = 1 := h1
    refine ⟨?_, ?_, ?_⟩
    · rw [hhas, hrc]
      constructor
      · intro h; simp at h
      · rintro ⟨u, hu, hn⟩
        exact absurd hn (e1 u hu)
    · intro h
      rw [hrc] at h
      simp at h
    · intro _
      refine ⟨hrc, ?_⟩
      simp only [rasqal_query_set_variable, e2]

/-- Selected variables `x` and `y`: setting `y` returns `0` and changes only
the value of `y`; setting `z` returns `1` and changes nothing. -/
theorem rasqal_query_set_variable_spec_witness :
    rasqal_query_has_variable rasqal_demo_bound_query "y" ≠ 0 ∧
    rasqal_query_set_variable rasqal_demo_bound_query "y" (some (.integer 5)) =
      (0, { rasqal_demo_bound_query with
            selects := [⟨"x", some (.integer 1)⟩, ⟨"y", some (.integer 5)⟩] }) ∧
    rasqal_query_set_variable rasqal_demo_bound_query "z" (some (.integer 5)) =
      (1, rasqal_demo_bound_query) := by
  have hy := rasqal_query_set_variable_spec rasqal_demo_bound_query "y" (some (.integer 5))
  have hz := rasqal_query_set_variable_spec rasqal_demo_bound_query "z" (some (.integer 5))
  have hy0 : (rasqal_query_set_variable rasqal_demo_bound_query "y" (some (.integer 5))).1 = 0 :=
    hy.1.2 (by decide)
  have hz1 := hz.2.2 (by decide)
  refine ⟨by decide, ?_, Prod.ext hz1.1 hz1.2⟩
  exact Prod.ext hy0 (by decide)

end variables_of_query

/-! ## Prepare and the base URI -/

section prepare
variable {L : Type}

theorem rasqal_query_prepare_base_uri (q : rasqal_query L) (query_string base_uri : Option String)
    (cwd_uri : String) (hook : rasqal_engine_reply L)
    (h1 : q.failed = false) (h2 : q.finished = false) (h3 : q.prepared = false) :
    (rasqal_query_prepare q query_string base_uri cwd_uri hook).2.prepared = true ∧
    (rasqal_query_prepare q query_string base_uri cwd_uri hook).2.base_uri =
      some (base_uri.getD cwd_uri) ∧
    (rasqal_query_prepare q query_string base_uri cwd_uri hook).1 = hook.rc ∧
    (rasqal_query_prepare q query_string base_uri cwd_uri hook).2.failed =
      decide (hook.rc ≠ 0) := by
  simp only [rasqal_query_prepare, h1, h2, h3, Bool.or_self, Bool.false_eq_true, if_false]
  by_cases hrc : hook.rc = 0
  · cases query_string <;> cases base_uri <;> simp [hrc, rasqal_engine_called, h1]
  · cases query_string <;> cases base_uri <;> simp [hrc, rasqal_engine_called]

theorem rasqal_query_prepare_keeps_base_uri (q : rasqal_query L)
    (query_string base_uri : Option String) (cwd_uri : String) (hook : rasqal_engine_reply L)
    (h : q.prepared = true → q.base_uri ≠ none) :
    (rasqal_query_prepare q query_string base_uri cwd_uri hook).2.prepared = true →
      (rasqal_query_prepare q query_string base_uri cwd_uri hook).2.base_uri ≠ none := by
  by_cases hg : q.failed = false ∧ q.finished = false ∧ q.prepared = false
  · obtain ⟨_, e2, _, _⟩ := rasqal_query_prepare_base_uri q query_string base_uri cwd_uri hook
      hg.1 hg.2.1 hg.2.2
    intro _
    rw [e2]
    simp
  · have hsame : (rasqal_query_prepare q query_string base_uri cwd_uri hook).2 = q := by
      simp only [rasqal_query_prepare]
      cases hf : q.failed <;> cases hfin : q.finished <;> cases hp : q.prepared <;>
        simp_all
    rw [hsame]
    exact h

theorem rasqal_query_results_next_keeps_prepare (r : Option rasqal_query_results)
    (q : rasqal_query L) (next : rasqal_engine_reply L) :
    (rasqal_query_results_next r q next).2.prepared = q.prepared ∧
    (rasqal_query_results_next r q next).2.base_uri = q.base_uri := by
  cases r with
  | none => simp [rasqal_query_results_next]
  | some r =>
    simp only [rasqal_query_results_next]
    split
    · simp
    · simp only [rasqal_engine_called]
      split <;> split <;> simp

theorem rasqal_query_execute_keeps_prepare (q : rasqal_query L) (addr : Nat)
    (init : rasqal_engine_reply L) (hook : Option (rasqal_engine_reply L))
    (next : rasqal_engine_reply L) :
    (rasqal_query_execute q addr init hook next).2.prepared = q.prepared ∧
    (rasqal_query_execute q addr init hook next).2.base_uri = q.base_uri := by
  simp only [rasqal_query_execute]
  split
  · simp
  · split
    · simp
    · split
      · simp [rasqal_engine_called]
      · cases hook with
        | none =>
          have := rasqal_query_results_next_keeps_prepare (some ⟨addr⟩)
            (rasqal_query_add_query_result
              (rasqal_engine_called { q with executed := true }
                rasqal_engine_call.execute_init init) ⟨addr⟩) next
          simp only [this.1, this.2]
          simp [rasqal_query_add_query_result, rasqal_engine_called]
        | some h =>
          simp only
          split
          · simp [rasqal_engine_called]
          · have := rasqal_query_results_next_keeps_prepare (some ⟨addr⟩)
              (rasqal_query_add_query_result
                (rasqal_engine_called (rasqal_engine_called { q with executed := true }
                  rasqal_engine_call.execute_init init)
                  rasqal_engine_call.factory_execute h) ⟨addr⟩) next
            simp only [this.1, this.2]
            simp [rasqal_query_add_query_result, rasqal_engine_called]

theorem rasqal_free_query_keeps_prepare (q : rasqal_query L) :
    (rasqal_free_query q).prepared = q.prepared ∧
    (rasqal_free_query q).base_uri = q.base_uri := by
  simp only [rasqal_free_query]
  split
  · simp
  · split <;> simp

theorem rasqal_client_step_base_uri (s s' : rasqal_client L) (c : rasqal_api_call L)
    (hs : s.query.prepared = true → s.query.base_uri ≠ none)
    (h : rasqal_client_step s c = some s') :
    s'.query.prepared = true → s'.query.base_uri ≠ none := by
  cases c with
  | prepare qs bu cwd hook =>
    simp only [rasqal_client_step] at h
    split at h
    · simp only [Option.some.injEq] at h
      subst h
      exact rasqal_query_prepare_keeps_base_uri s.query qs bu cwd hook hs
    · simp at h
  | execute addr init hook next =>
    simp only [rasqal_client_step] at h
    have hk := rasqal_query_execute_keeps_prepare s.query addr init hook next
    split at h
    · split at h
      · rename_i q heq
        simp only [Option.some.injEq] at h
        subst h
        rw [heq] at hk
        dsimp only at hk ⊢
        rw [hk.1, hk.2]
        exact hs
      · rename_i r q heq
        simp only [Option.some.injEq] at h
        subst h
        rw [heq] at hk
        dsimp only at hk ⊢
        rw [hk.1, hk.2]
        exact hs
    · simp at h
  | results_next r next =>
    simp only [rasqal_client_step] at h
    split at h
    · simp only [Option.some.injEq] at h
      subst h
      have hk := rasqal_query_results_next_keeps_prepare (some r) s.query next
      dsimp only
      rw [hk.1, hk.2]
      exact hs
    · simp at h
  | free_query =>
    simp only [rasqal_client_step] at h
    split at h
    · simp only [Option.some.injEq] at h
      subst h
      have hk := rasqal_free_query_keeps_prepare s.query
      dsimp only
      rw [hk.1, hk.2]
      exact hs
    · simp at h
  | free_query_results r =>
    simp only [rasqal_client_step] at h
    split at h
    · simp only [Option.some.injEq] at h
      subst h
      have hk := rasqal_free_query_keeps_prepare
        { s.query with results := rasqal_query_results_unlink r s.query.results }
      dsimp only [rasqal_free_query_results, rasqal_query_remove_query_result]
      rw [hk.1, hk.2]
      exact hs
    · simp at h

theorem rasqal_client_run_base_uri (s s' : rasqal_client L) (cs : List (rasqal_api_call L))
    (hs : s.query.prepared = true → s.query.base_uri ≠ none)
    (h : rasqal_client_run s cs = some s') :
    s'.query.prepared = true → s'.query.base_uri ≠ none := by
  induction cs generalizing s with
  | nil =>
    simp only [rasqal_client_run, Option.some.injEq] at h
    subst h
    exact hs
  | cons c cs ih =>
    simp only [rasqal_client_run] at h
    split at h
    · simp at h
    · rename_i s1 hstep
      exact ih s1 (rasqal_client_step_base_uri s s1 c hs hstep) h

/-- C19: a `rasqal_query_prepare` that passes its guards (the query is neither
failed, finished nor prepared) sets `prepared`, sets `base_uri` to the base URI
supplied or, when none is supplied, to the URI of the current directory, and
returns the code of the factory's prepare hook, setting `failed` exactly when
that code is non-zero; and in every state reached from a query returned by
`rasqal_new_query`, a prepared query has a non-null `base_uri`. -/
theorem rasqal_query_prepared_has_base_uri (q : rasqal_query L)
    (query_string base_uri : Option String) (cwd_uri : String)
    (hook : rasqal_engine_reply L)
    (h1 : q.failed = false) (h2 : q.finished = false) (h3 : q.prepared = false) :
    ((rasqal_query_prepare q query_string base_uri cwd_uri hook).2.prepared = true ∧
      (rasqal_query_prepare q query_string base_uri cwd_uri hook).2.base_uri =
        some (base_uri.getD cwd_uri) ∧
      (rasqal_query_prepare q query_string base_uri cwd_uri hook).1 = hook.rc ∧
      (rasqal_query_prepare q query_string base_uri cwd_uri hook).2.failed =
        decide (hook.rc ≠ 0)) ∧
    (∀ (ff qa ca : Bool) (init : rasqal_engine_reply L) (q0 : rasqal_query L)
      (calls : List (rasqal_api_call L)) (s : rasqal_client L),
      rasqal_new_query ff qa ca init = some q0 →
      rasqal_client_run (rasqal_client_new q0) calls = some s →
      s.query.prepared = true → s.query.base_uri ≠ none) := by
  refine ⟨rasqal_query_prepare_base_uri q query_string base_uri cwd_uri hook h1 h2 h3, ?_⟩
  intro ff qa ca init q0 calls s hq hrun
  refine rasqal_client_run_base_uri (rasqal_client_new q0) s calls ?_ hrun
  intro hp
  exfalso
  simp only [rasqal_new_query] at hq
  split at hq
  · simp at hq
  · split at hq
    · simp at hq
    · split at hq
      · simp at hq
      · split at hq
        · simp at hq
        · simp only [Option.some.injEq] at hq
          subst hq
          simp [rasqal_client_new, rasqal_engine_called, rasqal_query_fresh] at hp

/-- A fresh query prepared without a base URI and with a failing factory hook:
`prepared` and `failed` are set, the hook's code `3` is returned, and
`base_uri` is the URI of the current directory. -/
theorem rasqal_query_prepared_has_base_uri_witness :
    rasqal_demo_query.prepared = false ∧
    (rasqal_query_prepare rasqal_demo_query (some "SELECT") none "file:///cwd/"
      (rasqal_demo_reply 3)).1 = 3 ∧
    (rasqal_query_prepare rasqal_demo_query (some "SELECT") none "file:///cwd/"
      (rasqal_demo_reply 3)).2.prepared = true ∧
    (rasqal_query_prepare rasqal_demo_query (some "SELECT") none "file:///cwd/"
      (rasqal_demo_reply 3)).2.base_uri = some "file:///cwd/" ∧
    (rasqal_query_prepare rasqal_demo_query (some "SELECT") none "file:///cwd/"
      (rasqal_demo_reply 3)).2.failed = true := by
  have h := (rasqal_query_prepared_has_base_uri rasqal_demo_query (some "SELECT") none
    "file:///cwd/" (rasqal_demo_reply 3) rfl rfl rfl).1
  exact ⟨rfl, h.2.2.1, h.1, h.2.1, h.2.2.2.trans (by decide)⟩

end prepare

/-! ## Filter row-source: offsets of the emitted rows -/

theorem rasqal_filter_emitted_offset {L E T : Type} (x : rasqal_filter_env L E T)
    (off : Int) (l : List (rasqal_inner_row L T)) (k : Nat) (row : rasqal_row L)
    (h : (rasqal_filter_emitted x off l)[k]? = some row) : row.offset = off + k := by
  induction l generalizing off k with
  | nil => simp [rasqal_filter_emitted] at h
  | cons it rest ih =>
    cases k with
    | zero =>
      simp only [rasqal_filter_emitted, List.getElem?_cons_zero, Option.some.injEq] at h
      rw [← h]
      simp [rasqal_filter_rowsource_emit]
    | succ k =>
      simp only [rasqal_filter_emitted, List.getElem?_cons_succ] at h
      rw [ih (off + 1) k h]
      simp only [Nat.cast_add, Nat.cast_one]
      omega

/-- C20: a filter row-source fresh from `rasqal_new_filter_rowsource` starts
with offset `0`, and the `k`-th row that repeated calls of its `read_row`
return, counting from `0`, carries offset `k`, whatever the inner rows and
however many of them are rejected before it. -/
theorem rasqal_filter_rowsource_offsets {L E T : Type} (x : rasqal_filter_env L E T)
    (alloc_ok : Bool) (query : Option (rasqal_filter_query T))
    (rowsource : Option (List (rasqal_inner_row L T))) (expr : Option E)
    (con : rasqal_filter_rowsource_context L E T)
    (hnew : rasqal_new_filter_rowsource alloc_ok query rowsource expr = some con)
    (fuel : Nat) (hf : con.rowsource.length < fuel) :
    con.offset = 0 ∧ rowsource = some con.rowsource ∧
    ∀ (k : Nat) (row : rasqal_row L),
      (rasqal_filter_rowsource_read_rows x fuel con)[k]? = some row → row.offset = k := by
  have h0 : con.offset = 0 ∧ rowsource = some con.rowsource := by
    simp only [rasqal_new_filter_rowsource] at hnew
    split at hnew
    · split at hnew
      · simp only [Option.some.injEq] at hnew
        subst hnew
        exact ⟨rfl, rfl⟩
      · simp at hnew
    · simp at hnew
  refine ⟨h0.1, h0.2, ?_⟩
  intro k row hk
  obtain ⟨flags, t, S, e, off⟩ := con
  simp only at h0 hf
  rw [rasqal_filter_read_rows_eq x flags e S t off fuel hf] at hk
  have := rasqal_filter_emitted_offset x off _ k row hk
  rw [this, h0.1]
  simp

/-- Scenario S1: inner `?0` = 1, 2, 3 filtered by `?0 > 1` gives the rows
`?0 = 2` with offset `0` and `?0 = 3` with offset `1`. -/
theorem rasqal_filter_rowsource_offsets_witness :
    ∃ con : rasqal_filter_rowsource_context rasqal_demo_literal rasqal_demo_expression
        (List (Option rasqal_demo_literal)),
      rasqal_new_filter_rowsource true (some ⟨0, []⟩)
        (some [rasqal_demo_pull [some (.integer 1)], rasqal_demo_pull [some (.integer 2)],
          rasqal_demo_pull [some (.integer 3)]]) (some (.var_gt 0 1)) = some con ∧
      rasqal_filter_rowsource_read_rows rasqal_demo_filter_env 4 con =
        [⟨[some (.integer 2)], [], 0⟩, ⟨[some (.integer 3)], [], 1⟩] ∧
      ∀ (k : Nat) (row : rasqal_row rasqal_demo_literal),
        (rasqal_filter_rowsource_read_rows rasqal_demo_filter_env 4 con)[k]? = some row →
        row.offset = k :=
  ⟨_, rfl, by decide,
    (rasqal_filter_rowsource_offsets rasqal_demo_filter_env true (some ⟨0, []⟩)
      (some [rasqal_demo_pull [some (.integer 1)], rasqal_demo_pull [some (.integer 2)],
        rasqal_demo_pull [some (.integer 3)]]) (some (.var_gt 0 1)) _ rfl 4
      (by decide)).2.2⟩

/-! ## Filter row-source: the emitted row and the pulls of one call -/

theorem rasqal_filter_read_row_cases {L E T : Type} (x : rasqal_filter_env L E T)
    (flags : Int) (expr : E) (S : List (rasqal_inner_row L T)) (t : T) (off : Int) :
    ∃ rejected : List (rasqal_inner_row L T),
      (∀ it ∈ rejected, rasqal_filter_passes x expr flags it = false) ∧
      rasqal_filter_rowsource_loop_freed x expr flags S = rejected.map (fun it => it.row) ∧
      (rasqal_filter_rowsource_loop x expr flags S t 0).2.2.2 = rejected.length + 1 ∧
      ((S = rejected ∧
          (rasqal_filter_rowsource_read_row x ⟨flags, t, S, expr, off⟩).1 = none ∧
          (rasqal_filter_rowsource_read_row x ⟨flags, t, S, expr, off⟩).2.rowsource = []) ∨
        (∃ it : rasqal_inner_row L T, rasqal_filter_passes x expr flags it = true ∧
          S = rejected ++ it ::
            (rasqal_filter_rowsource_read_row x ⟨flags, t, S, expr, off⟩).2.rowsource ∧
          rasqal_filter_rowsource_read_row x ⟨flags, t, S, expr, off⟩ =
            (some (rasqal_filter_rowsource_emit x it.vars_table it.row off),
              ⟨flags, it.vars_table,
                (rasqal_filter_rowsource_read_row x ⟨flags, t, S, expr, off⟩).2.rowsource,
                expr, off + 1⟩))) := by
  induction S generalizing t with
  | nil =>
    refine ⟨[], by simp, rfl, rfl, Or.inl ⟨rfl, rfl, rfl⟩⟩
  | cons a rest ih =>
    cases hp : rasqal_filter_passes x expr flags a with
    | true =>
      have hb := (rasqal_filter_passes_iff x expr flags a).1 hp
      have hrow := rasqal_filter_read_row_pass x flags t a rest expr off hp
      refine ⟨[], by simp, ?_, ?_, Or.inr ⟨a, hp, ?_, ?_⟩⟩
      · simp [rasqal_filter_rowsource_loop_freed, hb]
      · simp [rasqal_filter_rowsource_loop, hb]
      · rw [hrow]
        rfl
      · rw [hrow]
    | false =>
      have hb : rasqal_filter_bresult x expr flags a.vars_table = 0 := by
        by_contra hne
        have := (rasqal_filter_passes_iff x expr flags a).2 hne
        simp [hp] at this
      have hskip := rasqal_filter_read_row_skip x flags t a rest expr off hp
      obtain ⟨rej, h1, h2, h3, h4⟩ := ih a.vars_table
      refine ⟨a :: rej, ?_, ?_, ?_, ?_⟩
      · intro it hit
        rcases List.mem_cons.1 hit with e | e
        · rw [e]; exact hp
        · exact h1 it e
      · simp [rasqal_filter_rowsource_loop_freed, hb, h2]
      · have hpl := rasqal_filter_rowsource_loop_pulls x expr flags rest a.vars_table 0 1
        simp only [Nat.zero_add] at hpl
        simp only [rasqal_filter_rowsource_loop, hb, ne_eq, not_true_eq_false, if_false,
          Nat.zero_add, hpl, h3, List.length_cons]
      · rw [hskip]
        rcases h4 with ⟨e1, e2, e3⟩ | ⟨it, e1, e2, e3⟩
        · exact Or.inl ⟨by rw [e1], e2, e3⟩
        · refine Or.inr ⟨it, e1, ?_, e3⟩
          rw [List.cons_append, ← e2]

/-- C21: a row returned by the filter's `read_row` comes from a pull of the
inner source that passes the filter; it has the size of the pulled row, and
each of its slots below that size holds the value the variables table has at
that index when the call returns, whatever the inner source had placed in the
slot; its order-key is the pulled row's. -/
theorem rasqal_filter_rowsource_emitted_row {L E T : Type} (x : rasqal_filter_env L E T)
    (con con' : rasqal_filter_rowsource_context L E T) (row : rasqal_row L)
    (h : rasqal_filter_rowsource_read_row x con = (some row, con')) :
    ∃ it ∈ con.rowsource,
      rasqal_filter_passes x con.expr con.compare_flags it = true ∧
      con'.vars_table = it.vars_table ∧
      row.values.length = it.row.values.length ∧
      row.order_values = it.row.order_values ∧
      ∀ i : Nat, i < it.row.values.length →
        row.values[i]? = some (x.get_value con'.vars_table i) := by
  obtain ⟨flags, t, S, expr, off⟩ := con
  obtain ⟨rej, _, _, _, h4⟩ := rasqal_filter_read_row_cases x flags expr S t off
  rcases h4 with ⟨_, e2, _⟩ | ⟨it, e1, e2, e3⟩
  · rw [h] at e2
    simp at e2
  · rw [h] at e3
    simp only [Prod.mk.injEq, Option.some.injEq] at e3
    obtain ⟨hrow, hcon⟩ := e3
    refine ⟨it, ?_, e1, by rw [hcon], ?_, ?_, ?_⟩
    · simp only
      rw [e2]
      simp
    · rw [hrow]
      simp [rasqal_filter_rowsource_emit]
    · rw [hrow]
      rfl
    · intro i hi
      rw [hrow, hcon]
      simp [rasqal_filter_rowsource_emit, List.getElem?_map, List.getElem?_range hi]

/-- An inner row whose slot is empty while the variables table binds `?0` to
`2`: the row emitted under `?0 > 1` has one slot, holding `2`. -/
theorem rasqal_filter_rowsource_emitted_row_witness :
    rasqal_filter_rowsource_read_row rasqal_demo_filter_env
        ⟨0, [], [⟨⟨[none], [], 0⟩, [some (.integer 2)]⟩], .var_gt 0 1, 0⟩ =
      (some ⟨[some (.integer 2)], [], 0⟩, ⟨0, [some (.integer 2)], [], .var_gt 0 1, 1⟩) ∧
    ∃ it ∈ [(⟨⟨[none], [], 0⟩, [some (.integer 2)]⟩ :
        rasqal_inner_row rasqal_demo_literal (List (Option rasqal_demo_literal)))],
      (⟨[some (.integer 2)], [], 0⟩ : rasqal_row rasqal_demo_literal).values.length =
        it.row.values.length :=
  ⟨by decide,
   (rasqal_filter_rowsource_emitted_row rasqal_demo_filter_env
      ⟨0, [], [⟨⟨[none], [], 0⟩, [some (.integer 2)]⟩], .var_gt 0 1, 0⟩
      ⟨0, [some (.integer 2)], [], .var_gt 0 1, 1⟩ ⟨[some (.integer 2)], [], 0⟩
      (by decide)).imp (fun _ hx => ⟨hx.1, hx.2.2.2.1⟩)⟩

/-- C28: one call of the filter's `read_row` on an inner source with finitely
many rows left ends: it pulls the rows it rejects, hands each of them to
`rasqal_free_row`, and makes one more pull, so the number of pulls is the
number of rejected rows plus one; the last pull either finds the inner source
at its end, and only then the call returns null, or yields a row that passes,
and that row, not a rejected one, is emitted. -/
theorem rasqal_filter_rowsource_read_row_pulls {L E T : Type}
    (x : rasqal_filter_env L E T) (con : rasqal_filter_rowsource_context L E T) :
    ∃ rejected : List (rasqal_inner_row L T),
      (∀ it ∈ rejected, rasqal_filter_passes x con.expr con.compare_flags it = false) ∧
      rasqal_filter_rowsource_loop_freed x con.expr con.compare_flags con.rowsource =
        rejected.map (fun it => it.row) ∧
      (rasqal_filter_rowsource_loop x con.expr con.compare_flags con.rowsource
        con.vars_table 0).2.2.2 = rejected.length + 1 ∧
      ((con.rowsource = rejected ∧
          (rasqal_filter_rowsource_read_row x con).1 = none ∧
          (rasqal_filter_rowsource_read_row x con).2.rowsource = []) ∨
        (∃ it : rasqal_inner_row L T,
          rasqal_filter_passes x con.expr con.compare_flags it = true ∧
          con.rowsource = rejected ++ it :: (rasqal_filter_rowsource_read_row x con).2.rowsource ∧
          (rasqal_filter_rowsource_read_row x con).1 =
            some (rasqal_filter_rowsource_emit x it.vars_table it.row con.offset))) ∧
      ((rasqal_filter_rowsource_read_row x con).1 = none → con.rowsource = rejected) := by
  obtain ⟨flags, t, S, expr, off⟩ := con
  obtain ⟨rej, h1, h2, h3, h4⟩ := rasqal_filter_read_row_cases x flags expr S t off
  refine ⟨rej, h1, h2, h3, ?_, ?_⟩
  · rcases h4 with h | ⟨it, e1, e2, e3⟩
    · exact Or.inl h
    · exact Or.inr ⟨it, e1, e2, by rw [e3]⟩
  · intro hnone
    rcases h4 with h | ⟨it, e1, e2, e3⟩
    · exact h.1
    · rw [e3] at hnone
      simp at hnone

/-- Inner rows `?0` = 1, 0, 2 under `?0 > 1`: the call rejects and frees two
rows, pulls three times and emits the third row. -/
theorem rasqal_filter_rowsource_read_row_pulls_witness :
    rasqal_filter_rowsource_loop_freed rasqal_demo_filter_env (.var_gt 0 1) 0
        [rasqal_demo_pull [some (.integer 1)], rasqal_demo_pull [some (.integer 0)],
         rasqal_demo_pull [some (.integer 2)]] =
      [⟨[some (.integer 1)], [], 0⟩, ⟨[some (.integer 0)], [], 0⟩] ∧
    (rasqal_filter_rowsource_loop rasqal_demo_filter_env (.var_gt 0 1) 0
        [rasqal_demo_pull [some (.integer 1)], rasqal_demo_pull [some (.integer 0)],
         rasqal_demo_pull [some (.integer 2)]] [] 0).2.2.2 = 3 ∧
    ∃ rejected : List (rasqal_inner_row rasqal_demo_literal (List (Option rasqal_demo_literal))),
      (rasqal_filter_rowsource_loop rasqal_demo_filter_env (.var_gt 0 1) 0
        [rasqal_demo_pull [some (.integer 1)], rasqal_demo_pull [some (.integer 0)],
         rasqal_demo_pull [some (.integer 2)]] [] 0).2.2.2 = rejected.length + 1 :=
  ⟨by decide, by decide,
   (rasqal_filter_rowsource_read_row_pulls rasqal_demo_filter_env
      ⟨0, [], [rasqal_demo_pull [some (.integer 1)], rasqal_demo_pull [some (.integer 0)],
        rasqal_demo_pull [some (.integer 2)]], .var_gt 0 1, 0⟩).imp
      (fun _ hx => hx.2.2.1)⟩

/-! ## Sort row-source: init, pass-through, failures and a second call -/

section sortcalls
variable {L E T : Type} (x : rasqal_sort_env L E T)

/-- C23: when the query has no order-conditions, `init` returns `0`, sets
`order_size` to `-1` and builds no map; and whenever `order_size` is at most
`0`, `read_all_rows` returns what the inner source's `read_all_rows` returns,
as the specification's pass-through says, and touches nothing of the context
but the inner source. -/
theorem rasqal_sort_pass_through (alloc_ok seq_alloc_ok : Bool)
    (con : rasqal_sort_rowsource_context L E T) :
    (con.query.order_conditions_sequence = none →
      rasqal_sort_rowsource_init alloc_ok con =
        (0, { con with order_size := -1, map := none, seq := none }) ∧
      rasqal_sort_rowsource_read_all_rows x seq_alloc_ok
          (rasqal_sort_rowsource_init alloc_ok con).2 =
        some (rasqal_sort_pass_through_spec x con.rowsource,
          { con with order_size := -1, map := none, seq := none,
                     rowsource := (x.read_all_rows con.rowsource).2 })) ∧
    (con.order_size ≤ 0 →
      rasqal_sort_rowsource_read_all_rows x seq_alloc_ok con =
        some (rasqal_sort_pass_through_spec x con.rowsource,
          { con with rowsource := (x.read_all_rows con.rowsource).2 })) := by
  have hpass : ∀ c : rasqal_sort_rowsource_context L E T, c.order_size ≤ 0 →
      rasqal_sort_rowsource_read_all_rows x seq_alloc_ok c =
        some (rasqal_sort_pass_through_spec x c.rowsource,
          { c with rowsource := (x.read_all_rows c.rowsource).2 }) := by
    intro c hc
    simp only [rasqal_sort_rowsource_read_all_rows, hc, if_true, rasqal_sort_pass_through_spec]
  refine ⟨?_, hpass con⟩
  intro hq
  have hinit : rasqal_sort_rowsource_init alloc_ok con =
      (0, { con with order_size := -1, map := none, seq := none }) := by
    simp [rasqal_sort_rowsource_init, hq]
  refine ⟨hinit, ?_⟩
  rw [hinit]
  exact hpass _ (by simp)

/-- A query without order-conditions: the rows 3, 1, 2 of the inner source come
back as they are, in the inner order, without order-keys. -/
theorem rasqal_sort_pass_through_witness :
    (rasqal_sort_rowsource_read_all_rows rasqal_demo_sort_env true
        (rasqal_sort_rowsource_init true
          { rasqal_demo_sort_context 0
              [[some (.integer 3)], [some (.integer 1)], [some (.integer 2)]] with
            query := { order_conditions_sequence := none, distinct := 0,
                       compare_flags := 0 } }).2).map (fun p => p.1) =
      some (some (raptor_sequence.rows
        [⟨[some (.integer 3)], [], 0⟩, ⟨[some (.integer 1)], [], 0⟩,
         ⟨[some (.integer 2)], [], 0⟩])) := by
  have h := (rasqal_sort_pass_through rasqal_demo_sort_env true true
    { rasqal_demo_sort_context 0
        [[some (.integer 3)], [some (.integer 1)], [some (.integer 2)]] with
      query := { order_conditions_sequence := none, distinct := 0,
                 compare_flags := 0 } }).1 rfl
  rw [h.2]
  decide

/-- C24 as stated fails: for a query whose order-conditions sequence is empty,
`init` sets `order_size` to `0`, constructs no map and returns `0`, also when
the map could not be constructed. -/
theorem rasqal_sort_init_empty_sequence_no_map :
    rasqal_sort_rowsource_init false
        ({ rasqal_demo_sort_context 0 [] with
           query := { order_conditions_sequence := some [], distinct := 0,
                      compare_flags := 0 } }) =
      (0, { query := { order_conditions_sequence := some [], distinct := 0,
                       compare_flags := 0 },
            rowsource := [], map := none, seq := none, order_size := 0 }) ∧
    (rasqal_engine_new_rowsort_map false 0 0 : Option (rasqal_map rasqal_demo_literal)) =
      none := by
  decide

/-- C24, amended: for a query with an order-conditions sequence `init` sets
`order_size` to the length of the sequence; when the sequence is not empty it
asks for a map built with the query's distinct flag and compare-flags, stores
it, and returns non-zero exactly when the map cannot be constructed; when the
sequence is empty it builds no map and returns `0`. -/
theorem rasqal_sort_init_order_size_and_map (alloc_ok : Bool)
    (con : rasqal_sort_rowsource_context L E T) (conds : List E)
    (hq : con.query.order_conditions_sequence = some conds) :
    (rasqal_sort_rowsource_init alloc_ok con).2.order_size = (conds.length : Int) ∧
    (conds ≠ [] →
      (rasqal_sort_rowsource_init alloc_ok con).2.map =
        rasqal_engine_new_rowsort_map alloc_ok con.query.distinct con.query.compare_flags ∧
      ((rasqal_sort_rowsource_init alloc_ok con).1 ≠ 0 ↔
        (rasqal_engine_new_rowsort_map alloc_ok con.query.distinct con.query.compare_flags :
          Option (rasqal_map L)) = none) ∧
      (alloc_ok = true →
        (rasqal_sort_rowsource_init alloc_ok con).2.map =
          some ⟨con.query.distinct, con.query.compare_flags, []⟩)) ∧
    (conds = [] →
      (rasqal_sort_rowsource_init alloc_ok con).2.map = none ∧
      (rasqal_sort_rowsource_init alloc_ok con).1 = 0) := by
  refine ⟨?_, ?_, ?_⟩
  · simp only [rasqal_sort_rowsource_init, hq]
    split
    · split <;> rfl
    · rfl
  · intro hne
    have hpos : (0 : Int) < (conds.length : Int) := by
      cases conds with
      | nil => exact absurd rfl hne
      | cons a l => simp only [List.length_cons, Nat.cast_add, Nat.cast_one]; omega
    cases alloc_ok <;>
      simp [rasqal_sort_rowsource_init, hq, hpos, rasqal_engine_new_rowsort_map]
  · intro he
    subst he
    simp [rasqal_sort_rowsource_init, hq]

/-- The amended C24 at the scenario query ordered by `ASC(?0)` with distinct
on: `order_size` is `1` and the map is built with distinct `1`. -/
theorem rasqal_sort_init_order_size_and_map_witness :
    (rasqal_demo_sort_context 1 [[some (.integer 3)]]).query.order_conditions_sequence =
      some [.var 0] ∧
    (rasqal_sort_rowsource_init true
      (rasqal_demo_sort_context 1 [[some (.integer 3)]])).2.order_size = 1 ∧
    (rasqal_sort_rowsource_init true
      (rasqal_demo_sort_context 1 [[some (.integer 3)]])).2.map = some ⟨1, 0, []⟩ := by
  have h := rasqal_sort_init_order_size_and_map true
    (rasqal_demo_sort_context 1 [[some (.integer 3)]]) [.var 0] rfl
  exact ⟨rfl, h.1, (h.2.1 (by decide)).2.2 rfl⟩

end sortcalls

/-! ## Sort row-source: failures, offsets and the constructor's sequence -/

section sortmore
variable {L E T : Type} (x : rasqal_sort_env L E T)

theorem rasqal_inner_rows_read_error (pre : List (rasqal_inner_row L T))
    (rest : List (rasqal_inner_step L T)) :
    rasqal_inner_rows_read (pre.map rasqal_inner_step.row ++ rasqal_inner_step.error :: rest) =
      pre := by
  induction pre with
  | nil => rfl
  | cons a pre ih => simp [rasqal_inner_rows_read, ih]

/-- C25 as stated fails: an inner source that hands out `?0` = 3 and 1, then
fails, with the row `?0` = 2 still to come: `read_all_rows` returns the two rows
pulled before the failure, sorted, not null. -/
theorem rasqal_sort_inner_error_partial_sequence :
    rasqal_inner_rows_read
        [.row (rasqal_demo_pull [some (.integer 3)]), .row (rasqal_demo_pull [some (.integer 1)]),
         .error, .row (rasqal_demo_pull [some (.integer 2)])] =
      [rasqal_demo_pull [some (.integer 3)], rasqal_demo_pull [some (.integer 1)]] ∧
    (rasqal_sort_rowsource_read_all_rows rasqal_demo_sort_env true
        (rasqal_sort_rowsource_init true
          { rasqal_demo_sort_context 0 [] with
            rowsource := (rasqal_inner_rows_read
              [.row (rasqal_demo_pull [some (.integer 3)]),
               .row (rasqal_demo_pull [some (.integer 1)]),
               .error, .row (rasqal_demo_pull [some (.integer 2)])]) }).2).map (fun p => p.1) =
      some (some (raptor_sequence.rows
        [⟨[some (.integer 1)], [some (.integer 1)], 1⟩,
         ⟨[some (.integer 3)], [some (.integer 3)], 0⟩])) := by
  decide

/-- C25, amended: in sort mode, when the allocation of the output sequence
fails, `read_all_rows` returns null and leaves the context, the inner source
included, as it was; a failure of the inner source is its `read_row` returning
`NULL`, which the loop takes for the end of the rows, so `read_all_rows` answers
as for an inner source that ends where the failure occurs: the rows pulled
before it are returned, sorted. -/
theorem rasqal_sort_read_all_rows_failures (con : rasqal_sort_rowsource_context L E T)
    (hmode : 0 < con.order_size) (hseq : con.seq = none) :
    rasqal_sort_rowsource_read_all_rows x false con = some (none, con) ∧
    ∀ (seq_alloc_ok : Bool) (pre : List (rasqal_inner_row L T))
      (rest : List (rasqal_inner_step L T)),
      rasqal_sort_rowsource_read_all_rows x seq_alloc_ok
          { con with rowsource := (rasqal_inner_rows_read
              (pre.map rasqal_inner_step.row ++ rasqal_inner_step.error :: rest)) } =
        rasqal_sort_rowsource_read_all_rows x seq_alloc_ok { con with rowsource := pre } := by
  constructor
  · have hn : ¬ con.order_size ≤ 0 := by omega
    simp [rasqal_sort_rowsource_read_all_rows, rasqal_sort_rowsource_process, hn, hseq]
  · intro b pre rest
    rw [rasqal_inner_rows_read_error]

/-- The amended C25 at the scenario context after `init`: a failed allocation
of the output sequence gives null and leaves the three inner rows unpulled. -/
theorem rasqal_sort_read_all_rows_failures_witness :
    0 < (rasqal_sort_rowsource_init true (rasqal_demo_sort_context 0
      [[some (.integer 3)], [some (.integer 1)], [some (.integer 2)]])).2.order_size ∧
    rasqal_sort_rowsource_read_all_rows rasqal_demo_sort_env false
        (rasqal_sort_rowsource_init true (rasqal_demo_sort_context 0
          [[some (.integer 3)], [some (.integer 1)], [some (.integer 2)]])).2 =
      some (none, (rasqal_sort_rowsource_init true (rasqal_demo_sort_context 0
        [[some (.integer 3)], [some (.integer 1)], [some (.integer 2)]])).2) :=
  ⟨by decide,
   (rasqal_sort_read_all_rows_failures rasqal_demo_sort_env
      (rasqal_sort_rowsource_init true (rasqal_demo_sort_context 0
        [[some (.integer 3)], [some (.integer 1)], [some (.integer 2)]])).2
      (by decide) (by decide)).1⟩

theorem rasqal_sort_loop_trace_length (q : rasqal_sort_query E) (n : Int)
    (S : List (rasqal_inner_row L T)) (map : rasqal_map L) (off : Int) :
    (rasqal_sort_rowsource_loop_trace x q n S map off).length = S.length := by
  induction S generalizing map off with
  | nil => rfl
  | cons it rest ih =>
    simp only [rasqal_sort_rowsource_loop_trace, List.length_cons]
    split <;> simp [ih]

theorem rasqal_sort_loop_trace_get (q : rasqal_sort_query E) (n : Int)
    (S : List (rasqal_inner_row L T)) (map : rasqal_map L) (off : Int) (k : Nat)
    (it : rasqal_inner_row L T) (h : S[k]? = some it) :
    ∃ st : Int, (rasqal_sort_rowsource_loop_trace x q n S map off)[k]? =
      some (rasqal_sort_rowsource_key_row x q n it
        (off + (((rasqal_sort_rowsource_loop_trace x q n S map off).take k).countP
          (fun e => decide (e.2 = 0)) : Nat)), st) := by
  induction S generalizing map off k with
  | nil => simp at h
  | cons a rest ih =>
    cases k with
    | zero =>
      simp only [List.getElem?_cons_zero, Option.some.injEq] at h
      subst h
      exact ⟨(rasqal_engine_rowsort_map_add_row x map
        (rasqal_sort_rowsource_key_row x q n a off)).1,
        by simp [rasqal_sort_rowsource_loop_trace]⟩
    | succ k =>
      simp only [List.getElem?_cons_succ] at h
      simp only [rasqal_sort_rowsource_loop_trace]
      by_cases hst : (rasqal_engine_rowsort_map_add_row x map
          (rasqal_sort_rowsource_key_row x q n a off)).1 = 0
      · obtain ⟨st, hk⟩ := ih (rasqal_engine_rowsort_map_add_row x map
          (rasqal_sort_rowsource_key_row x q n a off)).2 (off + 1) k h
        refine ⟨st, ?_⟩
        simp only [hst, if_true, List.getElem?_cons_succ, List.take_succ_cons,
          List.countP_cons_of_pos, decide_True, hk]
        congr 3
        push_cast
        omega
      · obtain ⟨st, hk⟩ := ih (rasqal_engine_rowsort_map_add_row x map
          (rasqal_sort_rowsource_key_row x q n a off)).2 off k h
        refine ⟨st, ?_⟩
        simp only [hst, if_false, List.getElem?_cons_succ, List.take_succ_cons, hk]
        rw [List.countP_cons_of_neg]
        simpa using hst

theorem rasqal_sort_loop_trace_final (q : rasqal_sort_query E) (n : Int)
    (S : List (rasqal_inner_row L T)) (map : rasqal_map L) (off : Int) :
    (rasqal_sort_rowsource_loop x q n S map off).2 =
      off + ((rasqal_sort_rowsource_loop_trace x q n S map off).countP
        (fun e => decide (e.2 = 0)) : Nat) := by
  induction S generalizing map off with
  | nil => simp [rasqal_sort_rowsource_loop, rasqal_sort_rowsource_loop_trace]
  | cons a rest ih =>
    simp only [rasqal_sort_rowsource_loop, rasqal_sort_rowsource_loop_trace]
    by_cases hst : (rasqal_engine_rowsort_map_add_row x map
        (rasqal_sort_rowsource_key_row x q n a off)).1 = 0
    · simp only [hst, if_true, ih]
      rw [List.countP_cons_of_pos _ _ (by simp [hst])]
      push_cast
      omega
    · simp only [hst, if_false, ih]
      rw [List.countP_cons_of_neg _ _ (by simpa using hst)]

theorem rasqal_sort_loop_trace_accepted (q : rasqal_sort_query E) (n : Int)
    (S : List (rasqal_inner_row L T)) (map : rasqal_map L) (off : Int) :
    ((rasqal_sort_rowsource_loop_trace x q n S map off).filter
        (fun e => decide (e.2 = 0))).map (fun e => e.1.offset) =
      (List.range ((rasqal_sort_rowsource_loop_trace x q n S map off).countP
        (fun e => decide (e.2 = 0)))).map (fun (i : Nat) => off + (i : Int)) := by
  induction S generalizing map off with
  | nil => simp [rasqal_sort_rowsource_loop_trace]
  | cons a rest ih =>
    simp only [rasqal_sort_rowsource_loop_trace]
    by_cases hst : (rasqal_engine_rowsort_map_add_row x map
        (rasqal_sort_rowsource_key_row x q n a off)).1 = 0
    · simp only [hst, if_true]
      rw [List.filter_cons_of_pos (by simp [hst]),
        List.countP_cons_of_pos _ _ (by simp [hst]), List.map_cons, ih,
        List.range_succ_eq_map, List.map_cons, List.map_map]
      simp only [rasqal_sort_key_row_offset, Nat.cast_zero, add_zero, List.cons.injEq,
        true_and]
      apply List.map_congr_left
      intro i _
      simp only [Function.comp_apply, Nat.cast_succ]
      omega
    · simp only [hst, if_false]
      rw [List.filter_cons_of_neg (by simpa using hst),
        List.countP_cons_of_neg _ _ (by simpa using hst), ih]

theorem rasqal_sort_loop_trace_ge (q : rasqal_sort_query E) (n : Int)
    (S : List (rasqal_inner_row L T)) (map : rasqal_map L) (off : Int) :
    ∀ e ∈ rasqal_sort_rowsource_loop_trace x q n S map off, off ≤ e.1.offset := by
  induction S generalizing map off with
  | nil => simp [rasqal_sort_rowsource_loop_trace]
  | cons a rest ih =>
    intro e he
    simp only [rasqal_sort_rowsource_loop_trace, List.mem_cons] at he
    rcases he with he | he
    · rw [he]
      simp [rasqal_sort_key_row_offset]
    · split at he
      · have := ih _ (off + 1) e he
        omega
      · exact ih _ off e he

theorem rasqal_sort_loop_trace_mono (q : rasqal_sort_query E) (n : Int)
    (S : List (rasqal_inner_row L T)) (map : rasqal_map L) (off : Int) :
    (rasqal_sort_rowsource_loop_trace x q n S map off).Pairwise
      (fun a b => a.1.offset ≤ b.1.offset) := by
  induction S generalizing map off with
  | nil => simp [rasqal_sort_rowsource_loop_trace]
  | cons a rest ih =>
    simp only [rasqal_sort_rowsource_loop_trace]
    refine List.pairwise_cons.2 ⟨?_, ?_⟩
    · intro e he
      simp only [rasqal_sort_key_row_offset]
      split at he
      · have := rasqal_sort_loop_trace_ge x q n rest _ (off + 1) e he
        omega
      · exact rasqal_sort_loop_trace_ge x q n rest _ off e he
    · split
      · exact ih _ (off + 1)
      · exact ih _ off

theorem rasqal_sort_loop_rows_perm (q : rasqal_sort_query E) (n : Int)
    (S : List (rasqal_inner_row L T)) (map : rasqal_map L) (off : Int) :
    (rasqal_sort_rowsource_loop x q n S map off).1.rows.Perm
      (map.rows ++ ((rasqal_sort_rowsource_loop_trace x q n S map off).filter
        (fun e => decide (e.2 = 0))).map (fun e => e.1)) := by
  induction S generalizing map off with
  | nil => simp [rasqal_sort_rowsource_loop, rasqal_sort_rowsource_loop_trace]
  | cons a rest ih =>
    simp only [rasqal_sort_rowsource_loop, rasqal_sort_rowsource_loop_trace]
    by_cases hst : (rasqal_engine_rowsort_map_add_row x map
        (rasqal_sort_rowsource_key_row x q n a off)).1 = 0
    · simp only [hst, if_true]
      rw [List.filter_cons_of_pos (by simp [hst]), List.map_cons]
      have hacc : (rasqal_engine_rowsort_map_add_row x map
          (rasqal_sort_rowsource_key_row x q n a off)).2.rows.Perm
          (rasqal_sort_rowsource_key_row x q n a off :: map.rows) :=
        rasqal_map_insert_accept x map.is_distinct map.compare_flags _ map.rows hst
      exact (ih _ (off + 1)).trans ((hacc.append_right _).trans List.perm_middle.symm)
    · simp only [hst, if_false]
      rw [List.filter_cons_of_neg (by simpa using hst)]
      have hrej : (rasqal_engine_rowsort_map_add_row x map
          (rasqal_sort_rowsource_key_row x q n a off)).2.rows = map.rows :=
        (rasqal_map_insert_reject x map.is_distinct map.compare_flags _ map.rows hst).1
      have h := ih (rasqal_engine_rowsort_map_add_row x map
          (rasqal_sort_rowsource_key_row x q n a off)).2 off
      rw [hrej] at h
      exact h

/-- C26: `rasqal_sort_rowsource_process`, run in sort mode on a context with a
map and nothing processed yet, returns `0` with `seq` holding what its loop
has left in the map: the rows the map held before and the rows of the loop's
record that the map accepted.  In that record `tr` of the loop, which starts at
offset `0`, the row offered to the map for the `k`-th pull is that pull keyed
(its order-key computed first) and carrying as offset the number of rows the
map has accepted before it; so the offsets are non-decreasing in pull order,
the `i`-th accepted row carries offset `i`, the row after an accepted row
carries one more and the row after a rejected row carries the same number; the
loop ends with the offset at the number of accepted rows. -/
theorem rasqal_sort_rowsource_offsets (con : rasqal_sort_rowsource_context L E T)
    (map : rasqal_map L) (map' : Option (rasqal_map L)) (off : Int)
    (tr : List (rasqal_row L × Int))
    (hseq : con.seq = none) (hmap : con.map = some map)
    (hrun : rasqal_sort_rowsource_while x con.query con.order_size con.rowsource
      con.map 0 = (map', off, tr)) :
    rasqal_sort_rowsource_process x true con =
      some (0, { con with
        rowsource := []
        seq := some (raptor_sequence.rows (rasqal_engine_rowsort_map_drain map' []))
        map := none }) ∧
    (rasqal_engine_rowsort_map_drain map' []).Perm
      (map.rows ++ (tr.filter (fun e => decide (e.2 = 0))).map (fun e => e.1)) ∧
    tr.length = con.rowsource.length ∧
    (∀ (k : Nat) (it : rasqal_inner_row L T), con.rowsource[k]? = some it →
      ∃ st : Int, tr[k]? = some (rasqal_sort_rowsource_key_row x con.query con.order_size it
        (((tr.take k).countP (fun e => decide (e.2 = 0)) : Nat) : Int), st)) ∧
    tr.Pairwise (fun a b => a.1.offset ≤ b.1.offset) ∧
    (tr.filter (fun e => decide (e.2 = 0))).map (fun e => e.1.offset) =
      (List.range (tr.countP (fun e => decide (e.2 = 0)))).map (fun (i : Nat) => (i : Int)) ∧
    (∀ (k : Nat) (row row' : rasqal_row L) (st st' : Int),
      tr[k]? = some (row, st) → tr[k + 1]? = some (row', st') →
      row'.offset = row.offset + (if st = 0 then 1 else 0)) ∧
    off = ((tr.countP (fun e => decide (e.2 = 0)) : Nat) : Int) := by
  have hproc : rasqal_sort_rowsource_process x true con =
      some (0, { con with
        rowsource := []
        seq := some (raptor_sequence.rows (rasqal_engine_rowsort_map_drain map' []))
        map := none }) := by
    simp [rasqal_sort_rowsource_process, hseq, hrun]
  refine ⟨hproc, ?_⟩
  clear hproc
  rw [hmap, rasqal_sort_rowsource_while_some] at hrun
  simp only [Prod.mk.injEq] at hrun
  obtain ⟨hm, ho, ht⟩ := hrun
  subst hm ho ht
  generalize con.query = q
  generalize con.order_size = n
  generalize con.rowsource = S
  have hlen := rasqal_sort_loop_trace_length x q n S map 0
  have hget : ∀ (k : Nat) (it : rasqal_inner_row L T), S[k]? = some it →
      ∃ st : Int, (rasqal_sort_rowsource_loop_trace x q n S map 0)[k]? =
        some (rasqal_sort_rowsource_key_row x q n it
          ((((rasqal_sort_rowsource_loop_trace x q n S map 0).take k).countP
            (fun e => decide (e.2 = 0)) : Nat) : Int), st) := by
    intro k it hk
    obtain ⟨st, h⟩ := rasqal_sort_loop_trace_get x q n S map 0 k it hk
    exact ⟨st, by simpa using h⟩
  refine ⟨?_, hlen, hget, rasqal_sort_loop_trace_mono x q n S map 0, ?_, ?_, ?_⟩
  · have := rasqal_sort_loop_rows_perm x q n S map 0
    simpa [rasqal_engine_rowsort_map_drain, rasqal_engine_rowsort_map_to_sequence] using this
  · have := rasqal_sort_loop_trace_accepted x q n S map 0
    simpa using this
  · intro k row row' st st' h1 h2
    have hk1 : k + 1 < S.length := by
      rw [← hlen]
      exact (List.getElem?_eq_some_iff.1 h2).1
    obtain ⟨st1, e1⟩ := hget k (S.get ⟨k, by omega⟩) (by simp)
    obtain ⟨st2, e2⟩ := hget (k + 1) (S.get ⟨k + 1, hk1⟩) (by simp)
    rw [h1] at e1
    rw [h2] at e2
    simp only [Option.some.injEq, Prod.mk.injEq] at e1 e2
    rw [e1.1, e2.1, rasqal_sort_key_row_offset, rasqal_sort_key_row_offset]
    rw [List.take_succ, List.countP_append, h1]
    by_cases hst : st = 0
    · simp [hst, List.countP_cons]
    · simp [hst, List.countP_cons]
  · have := rasqal_sort_loop_trace_final x q n S map 0
    simpa using this

/-- With distinct on, the rows `?0` = 1, 1, 2 ordered by `ASC(?0)`, after
`init`: the second row is rejected, so the offsets offered are `0`, `1`, `1`,
the loop ends at offset `2`, and `rasqal_sort_rowsource_process` leaves the
rows 1 and 2 with offsets `0` and `1` in `seq`. -/
theorem rasqal_sort_rowsource_offsets_witness :
    (rasqal_sort_rowsource_init true (rasqal_demo_sort_context 1
      [[some (.integer 1)], [some (.integer 1)], [some (.integer 2)]])).2.seq = none ∧
    (rasqal_sort_rowsource_init true (rasqal_demo_sort_context 1
      [[some (.integer 1)], [some (.integer 1)], [some (.integer 2)]])).2.map =
        some ⟨1, 0, []⟩ ∧
    ((rasqal_sort_rowsource_while rasqal_demo_sort_env
        (rasqal_demo_sort_context 1 []).query 1
        [rasqal_demo_pull [some (.integer 1)], rasqal_demo_pull [some (.integer 1)],
         rasqal_demo_pull [some (.integer 2)]] (some ⟨1, 0, []⟩) 0).2.1,
     (rasqal_sort_rowsource_while rasqal_demo_sort_env
        (rasqal_demo_sort_context 1 []).query 1
        [rasqal_demo_pull [some (.integer 1)], rasqal_demo_pull [some (.integer 1)],
         rasqal_demo_pull [some (.integer 2)]] (some ⟨1, 0, []⟩) 0).2.2.map
        (fun e => (e.1.offset, e.2))) = (2, [(0, 0), (1, 1), (1, 0)]) ∧
    rasqal_sort_rowsource_process rasqal_demo_sort_env true
        (rasqal_sort_rowsource_init true (rasqal_demo_sort_context 1
          [[some (.integer 1)], [some (.integer 1)], [some (.integer 2)]])).2 =
      some (0, ⟨⟨some [.var 0], 1, 0⟩, [], none,
        some (raptor_sequence.rows
          [⟨[some (.integer 1)], [some (.integer 1)], 0⟩,
           ⟨[some (.integer 2)], [some (.integer 2)], 1⟩]), 1⟩) ∧
    (rasqal_sort_rowsource_while rasqal_demo_sort_env
        (rasqal_sort_rowsource_init true (rasqal_demo_sort_context 1
          [[some (.integer 1)], [some (.integer 1)], [some (.integer 2)]])).2.query
        (rasqal_sort_rowsource_init true (rasqal_demo_sort_context 1
          [[some (.integer 1)], [some (.integer 1)], [some (.integer 2)]])).2.order_size
        (rasqal_sort_rowsource_init true (rasqal_demo_sort_context 1
          [[some (.integer 1)], [some (.integer 1)], [some (.integer 2)]])).2.rowsource
        (rasqal_sort_rowsource_init true (rasqal_demo_sort_context 1
          [[some (.integer 1)], [some (.integer 1)], [some (.integer 2)]])).2.map 0).2.2.Pairwise
        (fun a b => a.1.offset ≤ b.1.offset) :=
  ⟨by decide, by decide, by decide, by decide,
   (rasqal_sort_rowsource_offsets rasqal_demo_sort_env
      (rasqal_sort_rowsource_init true (rasqal_demo_sort_context 1
        [[some (.integer 1)], [some (.integer 1)], [some (.integer 2)]])).2
      ⟨1, 0, []⟩ _ _ _ (by decide) (by decide) rfl).2.2.2.2.1⟩

end sortmore

/-! ## Sort row-source: the sequence given to the constructor -/

section sortseq
variable {L E T : Type} (x : rasqal_sort_env L E T)

end sortseq

end Rasqal
